import Mathlib

/-!
FSCE_playground: the cooperative scheduler of `megaScheduler/mega_sched.c`.

A shallow embedding of the task table, the registration / removal / restart
calls, the priority sort, the dispatch loop and the watchdog pass, followed by
theorems about them.

Conventions of the embedding:

* `uint8_t`, `uint32_t` and pointer values are natural numbers, `int` values are
  integers; a `uint32_t` sum is reduced with `u32`.
* `millis()` is the argument `now`: the clock value is taken once per call of an
  API function (one value for the whole of a `scheduler_tick`); the definitions with
  the suffix `_clk` take one clock value for each call of `millis()` instead.
* the global arrays are lists; `entry_at` reads a slot.
* a function pointer is a number; `Bodies` says what the code behind it does.
* `printf` output is not modelled.
-/

namespace MegaSched

/-! ## Configuration constants -/

/-- Source: `#define MAX_TASKS 8`. -/
def MAX_TASKS : Nat := 8

/-- Source: `#define MAX_EVENTS 8`. -/
def MAX_EVENTS : Nat := 8

/-- Source: `#define MAX_GROUPS 4`. -/
def MAX_GROUPS : Nat := 4

/-- Source: `#define WATCHDOG_TIMEOUT_MS 3000`. -/
def WATCHDOG_TIMEOUT_MS : Nat := 3000

/-- Value of an expression of type `uint32_t`: arithmetic is modulo `2 ^ 32`. -/
def u32 (n : Nat) : Nat := n % 2 ^ 32

/-! ## Data model -/

/-- Source: `typedef struct { ... } Task;` of `mega_sched.c`. -/
structure Task where
  state : Int
  id : Nat
  active : Nat
  suspended : Nat
  group : Nat
  priority : Nat
  wake_time : Nat
  last_run_time : Nat
  user_data : Nat
  watchdog_enabled : Nat
  watchdog_reset_time : Nat
deriving DecidableEq, Repr

/-- Source: `typedef struct { Task task; TaskFunc func; TaskFunc original_func; } TaskEntry;`
The two function pointers are kept as numbers. -/
structure TaskEntry where
  task : Task
  func : Nat
  original_func : Nat
deriving DecidableEq, Repr

/-- A zero-filled `Task` (static storage, `memset(task_list, 0, ...)`). -/
def zero_task : Task :=
  { state := 0, id := 0, active := 0, suspended := 0, group := 0, priority := 0,
    wake_time := 0, last_run_time := 0, user_data := 0, watchdog_enabled := 0,
    watchdog_reset_time := 0 }

/-- A zero-filled `TaskEntry`. -/
def zero_entry : TaskEntry := { task := zero_task, func := 0, original_func := 0 }

/-- The globals of the program: `task_list`, `event_flags`, `group_suspended`, and
`user_mem`, the storage that belongs to the task bodies (function statics and the
objects behind `user_data`), which no scheduler function reads or writes. -/
structure Sched where
  task_list : List TaskEntry
  event_flags : List Nat
  group_suspended : List Nat
  user_mem : List Int
deriving DecidableEq, Repr

/-- The array shapes of the C globals: `task_list[MAX_TASKS]`,
`event_flags[MAX_EVENTS]`, `group_suspended[MAX_GROUPS]`. -/
def Sched.WF (s : Sched) : Prop :=
  s.task_list.length = MAX_TASKS ∧ s.event_flags.length = MAX_EVENTS ∧
    s.group_suspended.length = MAX_GROUPS

instance (s : Sched) : Decidable s.WF := by
  unfold Sched.WF; infer_instance

/-- Read `task_list[i]`. An index outside the list reads a zero-filled entry. -/
def entry_at (tl : List TaskEntry) (i : Nat) : TaskEntry := tl.getD i zero_entry

/-- What the code behind a function pointer does when `scheduler_tick` calls
`task_list[i].func(t)` with `t = &task_list[i].task`: arguments are the function
pointer, the clock value, the slot `i` and the globals; the result is the globals
when the body returns. -/
abbrev Bodies := Nat → Nat → Nat → Sched → Sched

/-! ## The priority sort at the start of `scheduler_tick` -/

/-- Body of the inner sort loop: the `if (...) { tmp = task_list[i]; ... }` statement. -/
def sort_swap (tl : List TaskEntry) (i j : Nat) : List TaskEntry :=
  if (entry_at tl j).task.active ≠ 0 ∧ (entry_at tl i).task.active ≠ 0 ∧
      (entry_at tl j).task.priority > (entry_at tl i).task.priority then
    (tl.set i (entry_at tl j)).set j (entry_at tl i)
  else tl

/-- Inner sort loop: `for (int j = i + 1; j < MAX_TASKS; j++)`. -/
def sort_inner (tl : List TaskEntry) (i : Nat) : List TaskEntry :=
  (List.range' (i + 1) (MAX_TASKS - (i + 1))).foldl (fun l j => sort_swap l i j) tl

/-- Outer sort loop: `for (int i = 0; i < MAX_TASKS - 1; i++)`. -/
def sort_pass (tl : List TaskEntry) : List TaskEntry :=
  (List.range (MAX_TASKS - 1)).foldl sort_inner tl

/-! ## Registration, restart, removal -/

/-- The `Task` compound literal and the two pointer stores of `register_task`, in the case
that the two calls of `millis()` in the literal return the same value `now`;
`new_entry_clk` below keeps the two reads apart. -/
def new_entry (now func id prio group data : Nat) : TaskEntry :=
  { task :=
      { state := 0, id := id, active := 1, suspended := 0, group := group,
        priority := prio, wake_time := 0, last_run_time := now, user_data := data,
        watchdog_enabled := 1, watchdog_reset_time := u32 (now + WATCHDOG_TIMEOUT_MS) },
    func := func, original_func := func }

/-- The scan of `register_task` from slot `i` with `k` slots left to look at. -/
def register_from (s : Sched) (now func id prio group data : Nat) (i : Nat) :
    Nat → Int × Sched
  | 0 => (-1, s)
  | k + 1 =>
    if (entry_at s.task_list i).task.active = 0 then
      ((i : Int), { s with task_list := s.task_list.set i (new_entry now func id prio group data) })
    else register_from s now func id prio group data (i + 1) k

/-- Source: `int register_task(TaskFunc func, uint8_t id, TaskPriority prio, TaskGroup group,
void *data)`; returns the slot index or `-1`, and the globals after the call. -/
def register_task (s : Sched) (now func id prio group data : Nat) : Int × Sched :=
  register_from s now func id prio group data 0 MAX_TASKS

/-- Source: `void restart_task(int slot)`, in the case that its two calls of `millis()`
return the same value `now`; `restart_task_clk` below keeps the two reads apart. -/
def restart_task (s : Sched) (now : Nat) (slot : Int) : Sched :=
  if 0 ≤ slot ∧ slot < (MAX_TASKS : Int) ∧ (entry_at s.task_list slot.toNat).task.active ≠ 0 then
    let e := entry_at s.task_list slot.toNat
    let t : Task := { e.task with state := 0, wake_time := 0, last_run_time := now,
                                  watchdog_reset_time := u32 (now + WATCHDOG_TIMEOUT_MS) }
    let e1 : TaskEntry := { task := t, func := e.original_func, original_func := e.original_func }
    { s with task_list := s.task_list.set slot.toNat e1 }
  else s

/-- Source: `void remove_task(int slot)`. -/
def remove_task (s : Sched) (slot : Int) : Sched :=
  if 0 ≤ slot ∧ slot < (MAX_TASKS : Int) then
    let e := entry_at s.task_list slot.toNat
    let e1 : TaskEntry := { e with task := { e.task with active := 0 } }
    { s with task_list := s.task_list.set slot.toNat e1 }
  else s

/-! ## Watchdog and dispatch -/

/-- Body of the loop of `watchdog_check` for slot `i`. -/
def watchdog_step (now : Nat) (s : Sched) (i : Nat) : Sched :=
  let t := (entry_at s.task_list i).task
  if t.active = 0 ∨ t.watchdog_enabled = 0 then s
  else if now > t.watchdog_reset_time then restart_task s now (i : Int)
  else s

/-- Source: `void watchdog_check()`. -/
def watchdog_check (s : Sched) (now : Nat) : Sched :=
  (List.range MAX_TASKS).foldl (watchdog_step now) s

/-- One record of the invocation log kept beside the dispatch loop: the slot, the
entry found there when its readiness tests passed, and the TCB as the body left it. -/
structure Invocation where
  slot : Nat
  entry : TaskEntry
  returned : Task
deriving DecidableEq, Repr

/-- The readiness tests of the dispatch loop for the entry in a slot:
`!t->active || t->suspended || group_suspended[t->group]` is false and
`millis() >= t->wake_time`. A group index outside `group_suspended` reads 0. -/
def ready (gs : List Nat) (now : Nat) (e : TaskEntry) : Bool :=
  !(e.task.active = 0 ∨ e.task.suspended ≠ 0 ∨ gs.getD e.task.group 0 ≠ 0) &&
    decide (now ≥ e.task.wake_time)

/-- The two stores before the call in the dispatch loop:
`t->last_run_time = millis(); t->watchdog_reset_time = millis() + WATCHDOG_TIMEOUT_MS;`,
in the case that both calls of `millis()` return `now`; `stamp_slot_clk` below keeps the
two reads apart. -/
def stamp_slot (now : Nat) (s : Sched) (i : Nat) : Sched :=
  let e := entry_at s.task_list i
  let t1 : Task := { e.task with last_run_time := now,
                                 watchdog_reset_time := u32 (now + WATCHDOG_TIMEOUT_MS) }
  { s with task_list := s.task_list.set i { e with task := t1 } }

/-- The statement after the call in the dispatch loop:
`if (t->state == -1) { t->active = 0; ... }`. -/
def reap_slot (s : Sched) (i : Nat) : Sched :=
  let r := entry_at s.task_list i
  if r.task.state = -1 then
    { s with task_list := s.task_list.set i { r with task := { r.task with active := 0 } } }
  else s

/-- The block of the dispatch loop run for a slot that passed the tests: re-arm the
watchdog, call `task_list[i].func(t)`, deactivate the slot if the body finished.
Returns the globals afterwards and the log record of the call. -/
def invoke_slot (bodies : Bodies) (now : Nat) (s : Sched) (i : Nat) : Sched × Invocation :=
  let e := entry_at s.task_list i
  let s2 := bodies (entry_at (stamp_slot now s i).task_list i).func now i (stamp_slot now s i)
  (reap_slot s2 i, { slot := i, entry := e, returned := (entry_at s2.task_list i).task })

/-- Body of the dispatch loop of `scheduler_tick` for slot `i`; the second component
is the invocation log. The read `group_suspended[t->group]` happens only for an
active, not suspended task; a group index outside the array reads 0. -/
def dispatch_slot (bodies : Bodies) (now : Nat) (acc : Sched × List Invocation)
    (i : Nat) : Sched × List Invocation :=
  let s := acc.1
  let e := entry_at s.task_list i
  if e.task.active = 0 ∨ e.task.suspended ≠ 0 ∨
      s.group_suspended.getD e.task.group 0 ≠ 0 then acc
  else if now ≥ e.task.wake_time then
    ((invoke_slot bodies now s i).1, acc.2 ++ [(invoke_slot bodies now s i).2])
  else acc

/-- The dispatch loop: `for (int i = 0; i < MAX_TASKS; i++)`. -/
def dispatch (bodies : Bodies) (now : Nat) (s : Sched) : Sched × List Invocation :=
  (List.range MAX_TASKS).foldl (dispatch_slot bodies now) (s, [])

/-- Source: `void scheduler_tick()`: sort, dispatch, watchdog. Returns the globals
after the tick and the invocation log of the tick. Every call of `millis()` made during
the tick returns `now`; `scheduler_tick_clk` below keeps the reads apart. -/
def scheduler_tick (bodies : Bodies) (s : Sched) (now : Nat) : Sched × List Invocation :=
  let d := dispatch bodies now { s with task_list := sort_pass s.task_list }
  (watchdog_check d.1 now, d.2)

/-- Several ticks in a row, one per clock value of the list; returns the globals at
the end and the invocation log of each tick. -/
def run_ticks (bodies : Bodies) (s : Sched) : List Nat → Sched × List (List Invocation)
  | [] => (s, [])
  | now :: rest =>
    ((run_ticks bodies (scheduler_tick bodies s now).1 rest).1,
      (scheduler_tick bodies s now).2 :: (run_ticks bodies (scheduler_tick bodies s now).1 rest).2)

/-! ## Predicates used in the statements -/

/-- The task bodies write nothing but the TCB they are handed: the registries, the
length of the table, every other slot and the two function pointers of their own
slot are as before the call (`user_mem` is theirs to change). -/
def OwnTCBOnly (bodies : Bodies) : Prop :=
  ∀ (f now i : Nat) (s : Sched),
    (bodies f now i s).group_suspended = s.group_suspended ∧
    (bodies f now i s).event_flags = s.event_flags ∧
    (bodies f now i s).task_list.length = s.task_list.length ∧
    (∀ k, k ≠ i → entry_at (bodies f now i s).task_list k = entry_at s.task_list k) ∧
    (entry_at (bodies f now i s).task_list i).func = (entry_at s.task_list i).func ∧
    (entry_at (bodies f now i s).task_list i).original_func =
      (entry_at s.task_list i).original_func

/-- The active slots of a table are in non-increasing priority by slot index. -/
def ActiveSorted (tl : List TaskEntry) : Prop :=
  ∀ j, j < MAX_TASKS → ∀ i, i < j → (entry_at tl i).task.active ≠ 0 →
    (entry_at tl j).task.active ≠ 0 →
    (entry_at tl j).task.priority ≤ (entry_at tl i).task.priority

instance (tl : List TaskEntry) : Decidable (ActiveSorted tl) := by
  unfold ActiveSorted; infer_instance

/-! ## Relations and invariants used in the proofs -/

/-- Frame of the sort between two tables: same length, inactive slots keep their
contents, active slots stay active. -/
def SortFrame (tl tl' : List TaskEntry) : Prop :=
  tl'.length = tl.length ∧
  (∀ k, (entry_at tl k).task.active = 0 → entry_at tl' k = entry_at tl k) ∧
  (∀ k, (entry_at tl k).task.active ≠ 0 → (entry_at tl' k).task.active ≠ 0)

/-- Effect of the inner loop for index `i` between two tables: slots below `i` are
untouched and an active entry in a slot from `i` on comes from an active slot from
`i` on. -/
def AboveOnly (i : Nat) (tl tl' : List TaskEntry) : Prop :=
  (∀ p, p < i → entry_at tl' p = entry_at tl p) ∧
  (∀ q, i ≤ q → q < MAX_TASKS → (entry_at tl' q).task.active ≠ 0 →
    ∃ q', i ≤ q' ∧ q' < MAX_TASKS ∧ (entry_at tl q').task.active ≠ 0 ∧
      entry_at tl' q = entry_at tl q')

/-- Slots `0 .. k-1` are final: each active one holds a priority at least that of
every active slot after it. -/
def SortedUpTo (k : Nat) (tl : List TaskEntry) : Prop :=
  ∀ p q, p < k → p < q → q < MAX_TASKS → (entry_at tl p).task.active ≠ 0 →
    (entry_at tl q).task.active ≠ 0 →
    (entry_at tl q).task.priority ≤ (entry_at tl p).task.priority

/-- Invariant of the dispatch loop once the slots `0 .. k-1` are done, started from
the globals `s1`: registries and table length as at the start, the slots from `k`
on and the slots that are not ready untouched, one log record per ready slot in
slot order, and every task that returned finished is inactive. -/
def DispatchInv (now : Nat) (s1 : Sched) (k : Nat) (acc : Sched × List Invocation) : Prop :=
  acc.1.group_suspended = s1.group_suspended ∧
  acc.1.event_flags = s1.event_flags ∧
  acc.1.task_list.length = s1.task_list.length ∧
  (∀ q, k ≤ q → entry_at acc.1.task_list q = entry_at s1.task_list q) ∧
  (∀ q, ready s1.group_suspended now (entry_at s1.task_list q) = false →
    entry_at acc.1.task_list q = entry_at s1.task_list q) ∧
  acc.2.map (fun r => (r.slot, r.entry)) =
    ((List.range k).filter (fun i => ready s1.group_suspended now (entry_at s1.task_list i))).map
      (fun i => (i, entry_at s1.task_list i)) ∧
  (∀ r ∈ acc.2, r.returned.state = -1 → (entry_at acc.1.task_list r.slot).task.active = 0)

/-- What `restart_task` and the watchdog pass leave alone: the registries, the table
length, the `active` flag of every slot and the whole of every inactive slot. -/
def KeepsActive (s s' : Sched) : Prop :=
  s'.group_suspended = s.group_suspended ∧
  s'.event_flags = s.event_flags ∧
  s'.user_mem = s.user_mem ∧
  s'.task_list.length = s.task_list.length ∧
  (∀ q, (entry_at s'.task_list q).task.active = (entry_at s.task_list q).task.active) ∧
  (∀ q, (entry_at s.task_list q).task.active = 0 →
    entry_at s'.task_list q = entry_at s.task_list q)

/-! ## Concrete tables and bodies used as inputs -/

/-- The globals at program start: zero-filled arrays (`memset` in `main`). -/
def empty_sched : Sched :=
  { task_list := List.replicate MAX_TASKS zero_entry,
    event_flags := List.replicate MAX_EVENTS 0,
    group_suspended := List.replicate MAX_GROUPS 0,
    user_mem := [] }

/-- Task bodies that return at once and write nothing. -/
def idle_bodies : Bodies := fun _ _ _ s => s

/-- Task bodies that set `task->state = -1` and return. -/
def finish_bodies : Bodies := fun _ _ i s =>
  let e := entry_at s.task_list i
  let e1 : TaskEntry := { e with task := { e.task with state := -1 } }
  { s with task_list := s.task_list.set i e1 }

/-- The five `register_task` calls of `main` in `coop_hc.c`, made on the empty table at
clock value 0: ids 0..4 with priorities 1, 3, 2, 2, 4 and groups 0, 0, 1, 1, 0. The
function pointers are numbered 1..5 and `&eid` is the address 64. -/
def coop_main_sched : Sched :=
  (register_task
    (register_task
      (register_task
        (register_task
          (register_task empty_sched 0 1 0 1 0 0).2
          0 2 1 3 0 0).2
        0 3 2 2 1 64).2
      0 4 3 2 1 64).2
    0 5 4 4 0 0).2

/-- Scenario B of the spec, registered in the unfavourable order: a task of priority 1
(id 10) and then a task of priority 5 (id 11), both ready at once. -/
def scenario_b_sched : Sched :=
  (register_task (register_task empty_sched 0 1 10 1 0 0).2 0 2 11 5 0 0).2

/-- A table already in priority order with a tie: priorities 3, 2, 2 (ids 0, 1, 2). -/
def tie_sorted_sched : Sched :=
  (register_task
    (register_task (register_task empty_sched 0 1 0 3 0 0).2 0 2 1 2 0 0).2
    0 3 2 2 0 0).2

/-- A table with one registered task: id 1, priority 1, in slot 0. -/
def one_task_sched : Sched := (register_task empty_sched 0 1 1 1 0 0).2

/-- `n` further registrations of the same task (id 7, priority 1, group 0). -/
def fill_sched : Nat → Sched → Sched
  | 0, s => s
  | n + 1, s => fill_sched n (register_task s 0 1 7 1 0 0).2

/-- A full table: `MAX_TASKS` registrations on the empty table. -/
def full_sched : Sched := fill_sched MAX_TASKS empty_sched

/-- A second registration on `one_task_sched`: id 2 with priority 5; the call returns
slot 1. The pair is the returned slot and the globals after the call. -/
def handle_call : Int × Sched := register_task one_task_sched 0 2 2 5 0 0

/-- The log record of the only invocation of the tick of `one_task_sched` at clock
value 0 with `finish_bodies`. -/
def finished_record : Invocation :=
  (scheduler_tick finish_bodies one_task_sched 0).2.getD 0
    { slot := 0, entry := zero_entry, returned := zero_task }

/-! ## Event and group registry -/

/-- Source: `void group_suspend(TaskGroup group)`. -/
def group_suspend (s : Sched) (group : Nat) : Sched :=
  if group < MAX_GROUPS then { s with group_suspended := s.group_suspended.set group 1 } else s

/-- Source: `void group_resume(TaskGroup group)`. -/
def group_resume (s : Sched) (group : Nat) : Sched :=
  if group < MAX_GROUPS then { s with group_suspended := s.group_suspended.set group 0 } else s

/-- Source: `void event_set(EventID id)`. -/
def event_set (s : Sched) (id : Nat) : Sched :=
  if id < MAX_EVENTS then { s with event_flags := s.event_flags.set id 1 } else s

/-- Source: `void event_clear(EventID id)`. -/
def event_clear (s : Sched) (id : Nat) : Sched :=
  if id < MAX_EVENTS then { s with event_flags := s.event_flags.set id 0 } else s

/-- Source: `uint8_t event_check(EventID id)`. -/
def event_check (s : Sched) (id : Nat) : Nat :=
  if id < MAX_EVENTS then s.event_flags.getD id 0 else 0

/-! ## Entries written by `restart_task` and by an invocation -/

/-- The entry that `restart_task` stores over an active entry `e` when both its reads of
the clock return `now`. -/
def restarted (now : Nat) (e : TaskEntry) : TaskEntry :=
  { task := { e.task with state := 0, wake_time := 0, last_run_time := now,
                          watchdog_reset_time := u32 (now + WATCHDOG_TIMEOUT_MS) },
    func := e.original_func, original_func := e.original_func }

/-- The test of `watchdog_check` for an entry: active, watchdog enabled and
`millis() > t->watchdog_reset_time`. -/
def wd_expired (now : Nat) (e : TaskEntry) : Bool :=
  decide (e.task.active ≠ 0 ∧ e.task.watchdog_enabled ≠ 0 ∧ now > e.task.watchdog_reset_time)

/-- The table of `coop_hc.c` after `group_suspend(1)`: the tasks with ids 2 and 3 are in
the suspended group. -/
def group1_suspended_sched : Sched := group_suspend coop_main_sched 1

/-- Task bodies given by a function `step` of the function pointer, the clock value,
the globals other than the task table, and the TCB: the body replaces its own TCB by
the result of `step` and writes nothing else. -/
def tcb_bodies (step : Nat → Nat → Sched → Task → Task) : Bodies := fun f now i s =>
  let e := entry_at s.task_list i
  let e1 : TaskEntry := { e with task := step f now { s with task_list := [] } e.task }
  { s with task_list := s.task_list.set i e1 }

/-- The entry `e` after the two stores that precede the call in the dispatch loop, both
reads of the clock returning `now`. -/
def stamped (now : Nat) (e : TaskEntry) : TaskEntry :=
  { e with task := { e.task with last_run_time := now,
                                 watchdog_reset_time := u32 (now + WATCHDOG_TIMEOUT_MS) } }

/-- The entry left in a slot by the dispatch loop when it invokes the entry `e` there
with a body of `tcb_bodies step`: stamped, run, and deactivated if finished. -/
def invoked_entry (step : Nat → Nat → Sched → Task → Task) (now : Nat) (g : Sched)
    (e : TaskEntry) : TaskEntry :=
  let t := step e.func now g (stamped now e).task
  { e with task := if t.state = -1 then { t with active := 0 } else t }

/-- The globals after each tick of a run, one per clock value of the list. -/
def tick_trace (bodies : Bodies) (s : Sched) : List Nat → List Sched
  | [] => []
  | now :: rest =>
    (scheduler_tick bodies s now).1 :: tick_trace bodies (scheduler_tick bodies s now).1 rest

/-! ## A task that waits for an event -/

/-- Source: `task_event_wait` of `coop_hc.c`, as a function of the value `flag` of
`event_check(id)` and of the TCB. The `hc_task_wait_until` stands on line 172 of the
file, so 172 is its resume marker: from state 0 the body stores the marker and returns;
resumed at the marker it returns again with the marker while the flag is 0 and otherwise
leaves the loop and ends with `task->state = -1`; with any other state no `case`
matches and the body ends with `task->state = -1`. -/
def task_event_wait (flag : Nat) (t : Task) : Task :=
  if t.state = 0 then { t with state := 172 }
  else if t.state = 172 then
    if flag ≠ 0 then { t with state := -1 } else { t with state := 172 }
  else { t with state := -1 }

/-- `task_event_wait` as a body: `EventID id = *(EventID*)task->user_data`, where
`user_data` is the index in `user_mem` of the cell it points to. -/
def wait_step : Nat → Nat → Sched → Task → Task := fun _ _ g t =>
  task_event_wait (event_check g (g.user_mem.getD t.user_data 0).toNat) t

/-- Bodies: every function pointer designates `task_event_wait`. -/
def wait_bodies : Bodies := tcb_bodies wait_step

/-- Scenario D of the spec: on the empty table, with `eid = 2` in cell 0 of `user_mem`,
the call `register_task(task_event_wait, 2, 2, 1, &eid)` of `coop_hc.c` at clock value 0.
Event 2 is never set. -/
def wait_sched : Sched := (register_task { empty_sched with user_mem := [2] } 0 3 2 2 1 0).2

/-- Clock values of one tick every 50 ms, from 0 to 4000. -/
def every_50ms : List Nat := (List.range 81).map (fun k => 50 * k)

/-! ## The delay macro and a task that uses it -/

/-- First half of the loop body of `hc_task_delay(task, ms)` expanded on source line
`line`: `(task)->wake_time = millis() + (ms); (task)->state = __LINE__; return;`. The
result is the TCB with which the body returns to its caller. -/
def hc_task_delay_arm (now ms line : Nat) (t : Task) : Task :=
  { t with wake_time := u32 (now + ms), state := (line : Int) }

/-- Resumption of `hc_task_delay(task, ms)` at its `case __LINE__:` label: the loop test
`(task)->wake_time > millis()` is evaluated; when it holds the loop body runs again
(`some` of the TCB with which the body returns), otherwise control leaves the macro
(`none`, the TCB is untouched). -/
def hc_task_delay_resume (now ms line : Nat) (t : Task) : Option Task :=
  if t.wake_time > now then some (hc_task_delay_arm now ms line t) else none

/-- Source: `task_once` of `multitest_sched.c` (delays on lines 119 and 121), with the
32-bit clock of `mega_sched.c`: step A and a delay of 100, step B and a delay of 200,
then `task->state = -1`; a state that matches no `case` goes straight to
`task->state = -1`. -/
def task_once (now : Nat) (t : Task) : Task :=
  if t.state = 0 then hc_task_delay_arm now 100 119 t
  else if t.state = 119 then
    match hc_task_delay_resume now 100 119 t with
    | some t1 => t1
    | none => hc_task_delay_arm now 200 121 t
  else if t.state = 121 then
    match hc_task_delay_resume now 200 121 t with
    | some t1 => t1
    | none => { t with state := -1 }
  else { t with state := -1 }

/-- Bodies: every function pointer designates `task_once`. -/
def once_bodies : Bodies := tcb_bodies (fun _ now _ t => task_once now t)

/-- A table with `task_once` alone (id 2, priority 1), registered at clock value
4294960000, a little more than 7 s before the 32-bit clock wraps. -/
def late_once_sched : Sched := (register_task empty_sched 4294960000 1 2 1 0 0).2

/-- Source: `task_flaky` of `super_sched.c` (delay on line 229), as a function of the
value of its static `fail`, the clock value and the TCB; the result is the new value of
`fail` and the TCB with which the body returns. From state 0 with `fail` set it clears
`fail` and enters `hc_task_delay(task, 5000)`; resumed in the delay it either suspends
again or leaves the delay and ends with `task->state = -1`. -/
def task_flaky (fail : Int) (now : Nat) (t : Task) : Int × Task :=
  if t.state = 0 then
    if fail ≠ 0 then (0, hc_task_delay_arm now 5000 229 t) else (fail, { t with state := -1 })
  else if t.state = 229 then
    match hc_task_delay_resume now 5000 229 t with
    | some t1 => (fail, t1)
    | none => (fail, { t with state := -1 })
  else (fail, { t with state := -1 })

/-- Bodies: every function pointer designates `task_flaky`; its static `fail` is cell 0
of `user_mem`. -/
def flaky_bodies : Bodies := fun _ now i s =>
  let e := entry_at s.task_list i
  let r := task_flaky (s.user_mem.getD 0 1) now e.task
  let e1 : TaskEntry := { e with task := r.2 }
  { s with task_list := s.task_list.set i e1, user_mem := s.user_mem.set 0 r.1 }

/-- The registration `register_task(task_flaky, 1, 3, 0, NULL)` of `main` in
`super_sched.c`, made on the empty table at clock value 4294960000, with `fail = 1`. -/
def late_flaky_sched : Sched :=
  (register_task { empty_sched with user_mem := [1] } 4294960000 1 1 3 0 0).2

/-- The TCB of `task_once` suspended in its first delay, armed at clock value 0. -/
def delayed_once_task : Task := task_once 0 (entry_at one_task_sched.task_list 0).task

/-! ## Reachable states and the watchdog invariant -/

/-- The task bodies leave `last_run_time` and `watchdog_reset_time` of the TCB they are
handed as they found them. -/
def KeepsWatchdogFields (bodies : Bodies) : Prop :=
  ∀ (f now i : Nat) (s : Sched),
    (entry_at (bodies f now i s).task_list i).task.last_run_time =
      (entry_at s.task_list i).task.last_run_time ∧
    (entry_at (bodies f now i s).task_list i).task.watchdog_reset_time =
      (entry_at s.task_list i).task.watchdog_reset_time

/-- The states of the globals reachable from the empty table by calls of
`register_task`, `restart_task`, `remove_task` and `scheduler_tick`, with any
arguments and at any clock values. -/
inductive Reachable (bodies : Bodies) : Sched → Prop
  | empty : Reachable bodies empty_sched
  | register (s : Sched) (now func id prio group data : Nat) :
      Reachable bodies s → Reachable bodies (register_task s now func id prio group data).2
  | restart (s : Sched) (now : Nat) (slot : Int) :
      Reachable bodies s → Reachable bodies (restart_task s now slot)
  | remove (s : Sched) (slot : Int) :
      Reachable bodies s → Reachable bodies (remove_task s slot)
  | tick (s : Sched) (now : Nat) :
      Reachable bodies s → Reachable bodies (scheduler_tick bodies s now).1

/-! ## Scenario A: one delay, then completion -/

/-- The body of Scenario A of the spec, written with `hc_task_delay` after
`task_event_trigger` of `coop_hc.c` (a delay, an action, `break`, then
`task->state = -1`), with the delay `ms` on source line `line`: from state 0 it enters
the delay; resumed in the delay it either suspends again or leaves the delay and ends
with `task->state = -1`; a state that matches no `case` goes to `task->state = -1`. -/
def task_delay_finish (ms line now : Nat) (t : Task) : Task :=
  if t.state = 0 then hc_task_delay_arm now ms line t
  else if t.state = (line : Int) then
    match hc_task_delay_resume now ms line t with
    | some t1 => t1
    | none => { t with state := -1 }
  else { t with state := -1 }

/-- The body of Scenario A with its delay of 100 ms, the macro standing on line 184. -/
def delay_step : Nat → Nat → Sched → Task → Task := fun _ now _ t =>
  task_delay_finish 100 184 now t

/-- Bodies: every function pointer designates the body of Scenario A. -/
def delay_bodies : Bodies := tcb_bodies delay_step

/-- Scenario A: one task (id 1, priority 1, group 0) registered on the empty table at
clock value `t0`. -/
def scenario_a_sched (t0 : Nat) : Sched := (register_task empty_sched t0 1 1 1 0 0).2

/-- A single-task table whose task is suspended in the delay of Scenario A with wake
time `wake` and watchdog deadline `deadline`. -/
def DelayedSolo (s : Sched) (wake deadline : Nat) : Prop :=
  s.task_list.length = MAX_TASKS ∧
  (∀ k, 1 ≤ k → entry_at s.task_list k = zero_entry) ∧
  s.group_suspended.getD 0 0 = 0 ∧
  (entry_at s.task_list 0).task.active = 1 ∧
  (entry_at s.task_list 0).task.suspended = 0 ∧
  (entry_at s.task_list 0).task.group = 0 ∧
  (entry_at s.task_list 0).task.watchdog_enabled = 1 ∧
  (entry_at s.task_list 0).task.state = 184 ∧
  (entry_at s.task_list 0).task.wake_time = wake ∧
  (entry_at s.task_list 0).task.watchdog_reset_time = deadline

/-- The table of `one_task_sched` after one tick at clock value 0 under `task_once`: the
task is suspended in its first delay (state 119, wake time 100). -/
def delayed_once_sched : Sched := (scheduler_tick once_bodies one_task_sched 0).1

/-- The invocation recorded by the tick at clock value 100 on `delayed_once_sched`. -/
def resumed_once_record : Invocation :=
  (scheduler_tick once_bodies delayed_once_sched 100).2.headD
    { slot := 0, entry := zero_entry, returned := zero_task }

/-! ## The rate-limited logger of `super_sched.c` -/

/-- Difference of two `uint32_t` values, as `millis() - _last_run` computes it. -/
def sub32 (a b : Nat) : Nat := (a + (2 ^ 32 - b % 2 ^ 32)) % 2 ^ 32

/-- What one invocation of `task_logger` leaves behind: the function static `_last_run`,
whether the `printf` was reached, and the TCB. -/
structure LoggerOutcome where
  last_run : Nat
  logged : Bool
  task : Task
deriving DecidableEq, Repr

/-- The body `task_logger` of `super_sched.c`, `hc_task_every(task, 1000)` followed by a
`printf`, with `last_run` the value of the static `_last_run` at entry and `now` the
value of `millis()`: `if (millis() - _last_run < 1000) return; _last_run = millis();`. -/
def task_logger (last_run now : Nat) (t : Task) : LoggerOutcome :=
  if sub32 now last_run < 1000 then { last_run := last_run, logged := false, task := t }
  else { last_run := now, logged := true, task := t }

/-- Bodies: every function pointer designates `task_logger`, its static `_last_run`
held in cell 0 of `user_mem`. -/
def logger_bodies : Bodies := fun _ now i s =>
  let e := entry_at s.task_list i
  let o := task_logger (s.user_mem.getD 0 0).toNat now e.task
  let e1 : TaskEntry := { e with task := o.task }
  { s with task_list := s.task_list.set i e1, user_mem := s.user_mem.set 0 (o.last_run : Int) }

/-- The call `register_task(task_logger, 2, 1, 1, NULL)` of `super_sched.c` on the empty
table at clock value 0, the static `_last_run` being 0. -/
def logger_sched : Sched := (register_task { empty_sched with user_mem := [0] } 0 5 2 1 1 0).2

/-! ## The yield test of `test_sched.c` -/

namespace TestSched

/-- The `Task` of `test_sched.c`: the resume marker and a counter, both `int`. -/
structure Task where
  state : Int
  counter : Int
deriving DecidableEq, Repr

/-- Largest value of an `int`. -/
def INT_MAX : Int := 2147483647

/-- The new value of an `int` after `++`; at `INT_MAX` the increment is undefined. -/
def post_incr (c : Int) : Option Int := if c < INT_MAX then some (c + 1) else none

/-- The body `task_print`: `switch (task->state)` with `case 0` and the three case labels
that `hc_task_yield` places on lines 23, 26 and 29. Each step evaluates
`task->counter++`, stores the marker and returns; from line 29 control reaches `break`
and `task->state = -1`; a state without a label skips the switch, then
`task->state = -1`. The result is `none` when an increment is undefined. -/
def task_print (t : Task) : Option Task :=
  if t.state = 0 then (post_incr t.counter).map (fun c => { state := 23, counter := c })
  else if t.state = 23 then (post_incr t.counter).map (fun c => { state := 26, counter := c })
  else if t.state = 26 then (post_incr t.counter).map (fun c => { state := 29, counter := c })
  else if t.state = 29 then some { t with state := -1 }
  else some { t with state := -1 }

/-- Outcome of the driver loop. -/
inductive Run where
  | finished (calls : Nat) (t : Task)
  | undefined_incr
  | out_of_fuel
deriving DecidableEq, Repr

/-- The loop `while (myTask.state != -1) task_print(&myTask);` of `main`, run for at most
`fuel` calls; `finished calls t` gives the number of calls made and the task at exit. -/
def main_loop : Nat → Task → Run
  | 0, t => if t.state = -1 then Run.finished 0 t else Run.out_of_fuel
  | fuel + 1, t =>
    if t.state = -1 then Run.finished 0 t
    else
      match task_print t with
      | none => Run.undefined_incr
      | some t1 =>
        match main_loop fuel t1 with
        | Run.finished calls t2 => Run.finished (calls + 1) t2
        | r => r

end TestSched

/-! ## The tick-counting scheduler of `advtest_hc.c` -/

namespace AdvTest

/-- `MAX_TASKS` of `advtest_hc.c`. -/
def MAX_TASKS : Nat := 3

/-- The `Task` of `advtest_hc.c`. -/
structure Task where
  state : Int
  delay : Int
  id : Int
deriving DecidableEq, Repr

/-- The `TaskEntry` of `advtest_hc.c`; `func` is a code for the function pointer. -/
structure TaskEntry where
  task : Task
  func : Nat
deriving DecidableEq, Repr

/-- The body of the do-while of `hc_task_delay(task, ticks)` standing on line `line`:
`task->delay = ticks; task->state = line; return;`. -/
def hc_task_delay_arm (ticks line : Int) (t : Task) : Task :=
  { t with delay := ticks, state := line }

/-- Resumption at `case line:` inside `hc_task_delay(task, ticks)`: the loop test
`task->delay > 0`. `some t1`: the body of the do-while ran again and the function
returned with `t1`; `none`: control leaves the macro. -/
def hc_task_delay_resume (ticks line : Int) (t : Task) : Option Task :=
  if t.delay > 0 then some (hc_task_delay_arm ticks line t) else none

/-- The body `task_blink`: the delays stand on lines 35 and 37 inside `while (1)`; a
state without a case label skips the switch and the function returns. -/
def task_blink (t : Task) : Task :=
  if t.state = 0 then hc_task_delay_arm 3 35 t
  else if t.state = 35 then
    match hc_task_delay_resume 3 35 t with
    | some t1 => t1
    | none => hc_task_delay_arm 3 37 t
  else if t.state = 37 then
    match hc_task_delay_resume 3 37 t with
    | some t1 => t1
    | none => hc_task_delay_arm 3 35 t
  else t

/-- The body `task_counter` as far as the TCB goes (its static `count` only feeds
`printf`): the delay stands on line 49 inside `while (1)`. -/
def task_counter (t : Task) : Task :=
  if t.state = 0 then hc_task_delay_arm 2 49 t
  else if t.state = 49 then
    match hc_task_delay_resume 2 49 t with
    | some t1 => t1
    | none => hc_task_delay_arm 2 49 t
  else t

/-- The body `task_once`: delays on lines 59 and 61, then `break` and
`task->state = -1`. -/
def task_once (t : Task) : Task :=
  if t.state = 0 then hc_task_delay_arm 1 59 t
  else if t.state = 59 then
    match hc_task_delay_resume 1 59 t with
    | some t1 => t1
    | none => hc_task_delay_arm 1 61 t
  else if t.state = 61 then
    match hc_task_delay_resume 1 61 t with
    | some t1 => t1
    | none => { t with state := -1 }
  else { t with state := -1 }

/-- The body of the loop of `scheduler_tick` for one task: skipped at state -1;
otherwise a positive `delay` is decremented, and the function is called when `delay` is
then 0. The flag tells whether the function was called. -/
def tick_task (body : Task → Task) (t : Task) : Task × Bool :=
  if t.state ≠ -1 then
    let t1 : Task := if t.delay > 0 then { t with delay := t.delay - 1 } else t
    if t1.delay = 0 then (body t1, true) else (t1, false)
  else (t, false)

/-- One step of the loop of `scheduler_tick` on slot `i`; the second component collects
the slots whose function was called. -/
def tick_slot (bodies : Nat → Task → Task) (acc : List TaskEntry × List Nat) (i : Nat) :
    List TaskEntry × List Nat :=
  let e := acc.1.getD i { task := { state := 0, delay := 0, id := 0 }, func := 0 }
  let r := tick_task (bodies e.func) e.task
  let e1 : TaskEntry := { e with task := r.1 }
  (acc.1.set i e1, if r.2 then acc.2 ++ [i] else acc.2)

/-- The function `scheduler_tick`: `for (int i = 0; i < MAX_TASKS; i++)`. -/
def scheduler_tick (bodies : Nat → Task → Task) (tasks : List TaskEntry) :
    List TaskEntry × List Nat :=
  (List.range MAX_TASKS).foldl (tick_slot bodies) (tasks, [])

/-- Successive ticks as seen by one task: the task after `k` ticks and, tick by tick,
whether its function was called. -/
def run_task (body : Task → Task) : Nat → Task → Task × List Bool
  | 0, t => (t, [])
  | k + 1, t =>
    ((run_task body k (tick_task body t).1).1,
      (tick_task body t).2 :: (run_task body k (tick_task body t).1).2)

/-- The function pointers of `main`: 0 for `task_blink`, 1 for `task_counter`, any other
code for `task_once`. -/
def main_bodies (f : Nat) : Task → Task :=
  if f = 0 then task_blink else if f = 1 then task_counter else task_once

/-- The table that `main` initialises. -/
def main_tasks : List TaskEntry :=
  [{ task := { state := 0, delay := 0, id := 0 }, func := 0 },
   { task := { state := 0, delay := 0, id := 1 }, func := 1 },
   { task := { state := 0, delay := 0, id := 2 }, func := 2 }]

/-- The slots called in each of `k` successive ticks. -/
def run_main (bodies : Nat → Task → Task) : Nat → List TaskEntry → List (List Nat)
  | 0, _ => []
  | k + 1, tasks =>
    (scheduler_tick bodies tasks).2 :: run_main bodies k (scheduler_tick bodies tasks).1

end AdvTest

/-! ## The traffic light of `trafficlight.c` -/

namespace TrafficLight

/-- Enumerators of `TrafficLightState`, by value. -/
def TRAFFIC_STOP : Nat := 0

/-- Enumerator `TRAFFIC_WARN_1`. -/
def TRAFFIC_WARN_1 : Nat := 1

/-- Enumerator `TRAFFIC_WARN_2`. -/
def TRAFFIC_WARN_2 : Nat := 2

/-- Enumerator `TRAFFIC_GO`. -/
def TRAFFIC_GO : Nat := 3

/-- Enumerator `TRAFFIC_FAULT_1`. -/
def TRAFFIC_FAULT_1 : Nat := 4

/-- Enumerator `TRAFFIC_FAULT_2`. -/
def TRAFFIC_FAULT_2 : Nat := 5

/-- Timing constant `STOP_TIME`. -/
def STOP_TIME : Int := 5

/-- Timing constant `WARN_1_TIME`. -/
def WARN_1_TIME : Int := 3

/-- Timing constant `WARN_2_TIME`. -/
def WARN_2_TIME : Int := 2

/-- Timing constant `GO_TIME`. -/
def GO_TIME : Int := 6

/-- The state variables `current_state` and `state_timer`. -/
structure Machine where
  current_state : Nat
  state_timer : Int
deriving DecidableEq, Repr

/-- The three lamps that a line printed by `set_lights` reports, `true` for ON. -/
structure Lights where
  red : Bool
  amber : Bool
  green : Bool
deriving DecidableEq, Repr

/-- The function `set_lights(state)`, which also reads the global `state_timer`; `%` is
the remainder of C, truncated towards zero. `none` stands for the line
`Unknown state`. -/
def set_lights (state : Nat) (state_timer : Int) : Option Lights :=
  if state = TRAFFIC_STOP then some { red := true, amber := false, green := false }
  else if state = TRAFFIC_WARN_1 then
    if state_timer.tmod 2 = 0 then some { red := false, amber := true, green := false }
    else some { red := false, amber := false, green := false }
  else if state = TRAFFIC_WARN_2 then some { red := false, amber := true, green := false }
  else if state = TRAFFIC_GO then some { red := false, amber := false, green := true }
  else if state = TRAFFIC_FAULT_1 then
    if state_timer.tmod 1 = 0 then some { red := false, amber := true, green := false }
    else some { red := false, amber := false, green := false }
  else if state = TRAFFIC_FAULT_2 then some { red := true, amber := true, green := true }
  else none

/-- The `switch` of `state_update`: in the four timed states `++state_timer` is compared
with the duration of the state; the fault states change nothing; an unknown state goes
to `TRAFFIC_STOP` with timer 0. -/
def next_state (m : Machine) : Machine :=
  if m.current_state = TRAFFIC_STOP then
    if m.state_timer + 1 ≥ STOP_TIME then { current_state := TRAFFIC_WARN_1, state_timer := 0 }
    else { m with state_timer := m.state_timer + 1 }
  else if m.current_state = TRAFFIC_WARN_1 then
    if m.state_timer + 1 ≥ WARN_1_TIME then { current_state := TRAFFIC_WARN_2, state_timer := 0 }
    else { m with state_timer := m.state_timer + 1 }
  else if m.current_state = TRAFFIC_WARN_2 then
    if m.state_timer + 1 ≥ WARN_2_TIME then { current_state := TRAFFIC_GO, state_timer := 0 }
    else { m with state_timer := m.state_timer + 1 }
  else if m.current_state = TRAFFIC_GO then
    if m.state_timer + 1 ≥ GO_TIME then { current_state := TRAFFIC_STOP, state_timer := 0 }
    else { m with state_timer := m.state_timer + 1 }
  else if m.current_state = TRAFFIC_FAULT_1 then m
  else if m.current_state = TRAFFIC_FAULT_2 then m
  else { current_state := TRAFFIC_STOP, state_timer := 0 }

/-- The function `state_update`: the `switch`, then `set_lights(current_state)`. The
result is the new value of the state variables and the lamps reported. -/
def state_update (m : Machine) : Machine × Option Lights :=
  (next_state m, set_lights (next_state m).current_state (next_state m).state_timer)

/-- The state variables after `k` calls of `state_update`. -/
def run_updates : Nat → Machine → Machine
  | 0, m => m
  | k + 1, m => run_updates k (state_update m).1

/-- The lamps reported by each of `k` successive calls of `state_update`. -/
def light_trace : Nat → Machine → List (Option Lights)
  | 0, _ => []
  | k + 1, m => (state_update m).2 :: light_trace k (state_update m).1

/-- The duration that the timing constants give to a timed state; 0 for the others. -/
def state_duration (state : Nat) : Int :=
  if state = TRAFFIC_STOP then STOP_TIME
  else if state = TRAFFIC_WARN_1 then WARN_1_TIME
  else if state = TRAFFIC_WARN_2 then WARN_2_TIME
  else if state = TRAFFIC_GO then GO_TIME
  else 0

/-- The initial values of the state variables. -/
def initial : Machine := { current_state := TRAFFIC_STOP, state_timer := 0 }

end TrafficLight

/-- The empty table after `register_task(f, 0, 1, 200, NULL)` at clock value 0: group 200
is a `uint8_t` value that is no index of `group_suspended`. -/
def wild_group_sched : Sched := (register_task empty_sched 0 1 0 1 200 0).2

/-! ## The scheduler with every read of the clock kept apart

`register_task`, `restart_task` and the dispatch loop call `millis()` once for
`last_run_time` and once more for `watchdog_reset_time`, and a tick reads the clock again
at the readiness test, inside the bodies and in the watchdog pass. The definitions of
this section take one clock value per read; `new_entry`, `restart_task`, `stamp_slot`
and `scheduler_tick` above are the case in which all the reads return the same value. -/

/-- The `Task` compound literal and the two pointer stores of `register_task`, with `t1`
the value of the `millis()` call that initialises `last_run_time` and `t2` the value of
the call that initialises `watchdog_reset_time`. -/
def new_entry_clk (t1 t2 func id prio group data : Nat) : TaskEntry :=
  { task :=
      { state := 0, id := id, active := 1, suspended := 0, group := group,
        priority := prio, wake_time := 0, last_run_time := t1, user_data := data,
        watchdog_enabled := 1, watchdog_reset_time := u32 (t2 + WATCHDOG_TIMEOUT_MS) },
    func := func, original_func := func }

/-- The scan of `register_task` from slot `i` with `k` slots left to look at, the two
reads of the clock being `t1` and `t2`. -/
def register_from_clk (s : Sched) (t1 t2 func id prio group data : Nat) (i : Nat) :
    Nat → Int × Sched
  | 0 => (-1, s)
  | k + 1 =>
    if (entry_at s.task_list i).task.active = 0 then
      ((i : Int),
        { s with task_list := s.task_list.set i (new_entry_clk t1 t2 func id prio group data) })
    else register_from_clk s t1 t2 func id prio group data (i + 1) k

/-- The function `register_task` with its two reads of the clock `t1` and `t2`. -/
def register_task_clk (s : Sched) (t1 t2 func id prio group data : Nat) : Int × Sched :=
  register_from_clk s t1 t2 func id prio group data 0 MAX_TASKS

/-- The function `restart_task` with its two reads of the clock:
`last_run_time = millis()` gives `t1`, `watchdog_reset_time = millis() + ...` reads `t2`. -/
def restart_task_clk (s : Sched) (t1 t2 : Nat) (slot : Int) : Sched :=
  if 0 ≤ slot ∧ slot < (MAX_TASKS : Int) ∧ (entry_at s.task_list slot.toNat).task.active ≠ 0 then
    let e := entry_at s.task_list slot.toNat
    let t : Task := { e.task with state := 0, wake_time := 0, last_run_time := t1,
                                  watchdog_reset_time := u32 (t2 + WATCHDOG_TIMEOUT_MS) }
    let e1 : TaskEntry := { task := t, func := e.original_func, original_func := e.original_func }
    { s with task_list := s.task_list.set slot.toNat e1 }
  else s

/-- The values that the calls of `millis()` return during one `scheduler_tick`, by call
site and by the slot `i` the loop is at (each site is reached at most once per slot):
`gate` in the test `millis() >= t->wake_time`, `run1` in `t->last_run_time = millis()`,
`run2` in `t->watchdog_reset_time = millis() + WATCHDOG_TIMEOUT_MS`, `body` inside the
task body, `wd` in the test of `watchdog_check`, `rst1` and `rst2` in the `restart_task`
that `watchdog_check` calls. -/
structure TickClock where
  gate : Nat → Nat
  run1 : Nat → Nat
  run2 : Nat → Nat
  body : Nat → Nat
  wd : Nat → Nat
  rst1 : Nat → Nat
  rst2 : Nat → Nat

/-- The clock that returns `now` at every read of a tick. -/
def const_clock (now : Nat) : TickClock :=
  { gate := fun _ => now, run1 := fun _ => now, run2 := fun _ => now, body := fun _ => now,
    wd := fun _ => now, rst1 := fun _ => now, rst2 := fun _ => now }

/-- Body of the loop of `watchdog_check` for slot `i`, reads of the clock apart. -/
def watchdog_step_clk (clk : TickClock) (s : Sched) (i : Nat) : Sched :=
  let t := (entry_at s.task_list i).task
  if t.active = 0 ∨ t.watchdog_enabled = 0 then s
  else if clk.wd i > t.watchdog_reset_time then
    restart_task_clk s (clk.rst1 i) (clk.rst2 i) (i : Int)
  else s

/-- The function `watchdog_check`, reads of the clock apart. -/
def watchdog_check_clk (s : Sched) (clk : TickClock) : Sched :=
  (List.range MAX_TASKS).foldl (watchdog_step_clk clk) s

/-- The two stores before the call in the dispatch loop, `t1` read for `last_run_time`
and `t2` read for `watchdog_reset_time`. -/
def stamp_slot_clk (t1 t2 : Nat) (s : Sched) (i : Nat) : Sched :=
  let e := entry_at s.task_list i
  let t : Task := { e.task with last_run_time := t1,
                                watchdog_reset_time := u32 (t2 + WATCHDOG_TIMEOUT_MS) }
  { s with task_list := s.task_list.set i { e with task := t } }

/-- The block of the dispatch loop run for a slot that passed the tests, reads of the
clock apart. -/
def invoke_slot_clk (bodies : Bodies) (clk : TickClock) (s : Sched) (i : Nat) :
    Sched × Invocation :=
  let e := entry_at s.task_list i
  let s1 := stamp_slot_clk (clk.run1 i) (clk.run2 i) s i
  let s2 := bodies (entry_at s1.task_list i).func (clk.body i) i s1
  (reap_slot s2 i, { slot := i, entry := e, returned := (entry_at s2.task_list i).task })

/-- Body of the dispatch loop of `scheduler_tick` for slot `i`, reads of the clock
apart. -/
def dispatch_slot_clk (bodies : Bodies) (clk : TickClock) (acc : Sched × List Invocation)
    (i : Nat) : Sched × List Invocation :=
  let s := acc.1
  let e := entry_at s.task_list i
  if e.task.active = 0 ∨ e.task.suspended ≠ 0 ∨
      s.group_suspended.getD e.task.group 0 ≠ 0 then acc
  else if clk.gate i ≥ e.task.wake_time then
    ((invoke_slot_clk bodies clk s i).1, acc.2 ++ [(invoke_slot_clk bodies clk s i).2])
  else acc

/-- The dispatch loop, reads of the clock apart. -/
def dispatch_clk (bodies : Bodies) (clk : TickClock) (s : Sched) : Sched × List Invocation :=
  (List.range MAX_TASKS).foldl (dispatch_slot_clk bodies clk) (s, [])

/-- The function `scheduler_tick`, reads of the clock apart: sort, dispatch, watchdog. -/
def scheduler_tick_clk (bodies : Bodies) (s : Sched) (clk : TickClock) :
    Sched × List Invocation :=
  let d := dispatch_clk bodies clk { s with task_list := sort_pass s.task_list }
  (watchdog_check_clk d.1 clk, d.2)

/-- Two reads of the clock that lie at most `gap` ms apart, by the wrap-safe difference
of `uint32_t`, in either order (C does not fix the order in which the two initialisers
of the compound literal of `register_task` are evaluated). -/
def ReadsWithin (gap t1 t2 : Nat) : Prop := sub32 t2 t1 ≤ gap ∨ sub32 t1 t2 ≤ gap

instance (gap t1 t2 : Nat) : Decidable (ReadsWithin gap t1 t2) := by
  unfold ReadsWithin; infer_instance

/-- The states of the globals reachable from the empty table by calls of
`register_task`, `restart_task`, `remove_task` and `scheduler_tick` when the two reads
of the clock of every pair of stores into `last_run_time` and `watchdog_reset_time` lie at
most `gap` ms apart; all other reads of the clock are arbitrary. -/
inductive ReachableClk (gap : Nat) (bodies : Bodies) : Sched → Prop
  | empty : ReachableClk gap bodies empty_sched
  | register (s : Sched) (t1 t2 func id prio group data : Nat) :
      ReadsWithin gap t1 t2 → ReachableClk gap bodies s →
      ReachableClk gap bodies (register_task_clk s t1 t2 func id prio group data).2
  | restart (s : Sched) (t1 t2 : Nat) (slot : Int) :
      ReadsWithin gap t1 t2 → ReachableClk gap bodies s →
      ReachableClk gap bodies (restart_task_clk s t1 t2 slot)
  | remove (s : Sched) (slot : Int) :
      ReachableClk gap bodies s → ReachableClk gap bodies (remove_task s slot)
  | tick (s : Sched) (clk : TickClock) :
      (∀ i, ReadsWithin gap (clk.run1 i) (clk.run2 i)) →
      (∀ i, ReadsWithin gap (clk.rst1 i) (clk.rst2 i)) →
      ReachableClk gap bodies s → ReachableClk gap bodies (scheduler_tick_clk bodies s clk).1

/-- The deadline of an active entry is a `uint32_t` value that lies
`WATCHDOG_TIMEOUT_MS` after its last-run time, up to `gap` ms either way, modulo
`2 ^ 32`. -/
def ArmedWithin (gap : Nat) (e : TaskEntry) : Prop :=
  e.task.active ≠ 0 →
    e.task.watchdog_reset_time < 2 ^ 32 ∧
    ∃ d, d ≤ gap ∧
      (e.task.watchdog_reset_time = (e.task.last_run_time + d + WATCHDOG_TIMEOUT_MS) % 2 ^ 32 ∨
       (e.task.watchdog_reset_time + d) % 2 ^ 32 =
         (e.task.last_run_time + WATCHDOG_TIMEOUT_MS) % 2 ^ 32)

/-- The empty table after one `register_task` whose two reads of the clock return 1000
and 1001. -/
def skewed_sched : Sched := (register_task_clk empty_sched 1000 1001 1 2 1 0 0).2

/-! ## A waiting task in any table -/

/-- An entry of a table whose body is the waiting body behind the function pointer `F`
and which the dispatch loop will invoke: active, not suspended, its group not suspended,
no wake time pending, at the start or at the resume marker of the wait, and the event it
waits for (the id behind `user_data`) not set. -/
def WaitingTask (F : Nat) (s : Sched) (e : TaskEntry) : Prop :=
  e.func = F ∧ e.task.active ≠ 0 ∧ e.task.suspended = 0 ∧
  s.group_suspended.getD e.task.group 0 = 0 ∧ e.task.wake_time = 0 ∧
  (e.task.state = 0 ∨ e.task.state = 172) ∧
  event_check s (s.user_mem.getD e.task.user_data 0).toNat = 0

instance (F : Nat) (s : Sched) (e : TaskEntry) : Decidable (WaitingTask F s e) := by
  unfold WaitingTask; infer_instance

/-- The entry of a waiting task after an invocation at clock value `now` that found the
event clear: at the resume marker 172, last-run time and deadline re-armed. -/
def waited (now : Nat) (e : TaskEntry) : TaskEntry :=
  { e with task := { e.task with state := 172, last_run_time := now,
                                 watchdog_reset_time := now + WATCHDOG_TIMEOUT_MS } }

/-- Bodies for a table with other tasks beside a waiting one: function pointer 3 is
`task_event_wait`, every other pointer a body that returns at once. -/
def wait_or_idle_step : Nat → Nat → Sched → Task → Task := fun f now g t =>
  if f = 3 then wait_step f now g t else t

/-- The table of Scenario D with a second task registered after the waiting one, of
higher priority (function pointer 7, id 9, priority 5, group 0). -/
def wait_pair_sched : Sched := (register_task wait_sched 0 7 9 5 0 0).2

/-! # Theorems -/

set_option maxRecDepth 100000


/-! ## Reading and writing slots -/

theorem entry_at_set (tl : List TaskEntry) (i k : Nat) (a : TaskEntry) :
    entry_at (tl.set i a) k = if k = i ∧ i < tl.length then a else entry_at tl k := by
  unfold entry_at
  simp only [List.getD_eq_getElem?_getD, List.getElem?_set]
  by_cases h : i = k
  · subst h
    by_cases h2 : i < tl.length
    · simp [h2]
    · simp [h2, List.getElem?_eq_none (Nat.le_of_not_lt h2)]
  · have h3 : ¬ (k = i ∧ i < tl.length) := fun c => h c.1.symm
    simp [h, h3]

theorem entry_at_of_length_le {tl : List TaskEntry} {i : Nat} (h : tl.length ≤ i) :
    entry_at tl i = zero_entry := by
  unfold entry_at
  rw [List.getD_eq_getElem?_getD, List.getElem?_eq_none h]
  rfl

theorem lt_length_of_active {tl : List TaskEntry} {i : Nat}
    (h : (entry_at tl i).task.active ≠ 0) : i < tl.length := by
  by_contra hc
  apply h
  rw [entry_at_of_length_le (Nat.le_of_not_lt hc)]
  rfl

theorem entry_at_mem {tl : List TaskEntry} {i : Nat} (h : i < tl.length) :
    entry_at tl i ∈ tl := by
  unfold entry_at
  rw [List.getD_eq_getElem?_getD, List.getElem?_eq_getElem h]
  exact List.getElem_mem h

theorem entry_at_eq_getElem {tl : List TaskEntry} {i : Nat} (h : i < tl.length) :
    entry_at tl i = tl[i] := by
  unfold entry_at
  rw [List.getD_eq_getElem?_getD, List.getElem?_eq_getElem h]
  rfl

theorem ext_entry_at {l1 l2 : List TaskEntry} (hl : l1.length = l2.length)
    (h : ∀ k, entry_at l1 k = entry_at l2 k) : l1 = l2 := by
  apply List.ext_getElem hl
  intro n h1 h2
  rw [← entry_at_eq_getElem h1, ← entry_at_eq_getElem h2]
  exact h n

theorem set_entry_at_self (tl : List TaskEntry) (i : Nat) :
    tl.set i (entry_at tl i) = tl := by
  apply ext_entry_at (by simp)
  intro k
  rw [entry_at_set]
  split
  · rename_i h; rw [h.1]
  · rfl

/-! ## One exchange of the sort -/

theorem sort_swap_length (tl : List TaskEntry) (i j : Nat) :
    (sort_swap tl i j).length = tl.length := by
  unfold sort_swap; split <;> simp

theorem sort_swap_of_not {tl : List TaskEntry} {i j : Nat}
    (h : ¬ ((entry_at tl j).task.active ≠ 0 ∧ (entry_at tl i).task.active ≠ 0 ∧
      (entry_at tl j).task.priority > (entry_at tl i).task.priority)) :
    sort_swap tl i j = tl := by
  unfold sort_swap; rw [if_neg h]

theorem sort_swap_of {tl : List TaskEntry} {i j : Nat}
    (h : (entry_at tl j).task.active ≠ 0 ∧ (entry_at tl i).task.active ≠ 0 ∧
      (entry_at tl j).task.priority > (entry_at tl i).task.priority) (k : Nat) :
    entry_at (sort_swap tl i j) k =
      if k = j then entry_at tl i else if k = i then entry_at tl j else entry_at tl k := by
  have hi := lt_length_of_active h.2.1
  have hj := lt_length_of_active h.1
  unfold sort_swap
  rw [if_pos h, entry_at_set, entry_at_set]
  simp only [List.length_set, hi, hj, and_true]

theorem sort_swap_perm (tl : List TaskEntry) (i j : Nat) : (sort_swap tl i j).Perm tl := by
  unfold sort_swap
  split
  · rename_i h
    have hi := lt_length_of_active h.2.1
    have hj := lt_length_of_active h.1
    rw [List.perm_iff_count]
    intro a
    rw [List.count_set _ _ _ _ (by simpa using hj), List.count_set _ _ _ _ hi]
    have hne : i ≠ j := by
      intro e; subst e; exact absurd h.2.2 (lt_irrefl _)
    rw [List.getElem_set, if_neg hne, entry_at_eq_getElem hi, entry_at_eq_getElem hj]
    have c1 : (if (tl[i] == a) = true then 1 else 0) ≤ List.count a tl := by
      split
      · rename_i hh
        have : a = tl[i] := by simpa using (beq_iff_eq.mp hh).symm
        rw [this]
        exact List.count_pos_iff.mpr (List.getElem_mem hi)
      · exact Nat.zero_le _
    have c2 : (if (tl[j] == a) = true then 1 else 0) ≤ List.count a tl := by
      split
      · rename_i hh
        have : a = tl[j] := by simpa using (beq_iff_eq.mp hh).symm
        rw [this]
        exact List.count_pos_iff.mpr (List.getElem_mem hj)
      · exact Nat.zero_le _
    omega
  · exact List.Perm.refl _

/-! ## Loops as folds -/

theorem foldl_rel {α β : Type} (R : α → α → Prop) (hr : ∀ a, R a a)
    (ht : ∀ a b c, R a b → R b c → R a c) (f : α → β → α) (xs : List β)
    (hf : ∀ a x, x ∈ xs → R a (f a x)) (a : α) : R a (xs.foldl f a) := by
  induction xs generalizing a with
  | nil => exact hr a
  | cons x xs ih =>
    rw [List.foldl_cons]
    exact ht _ _ _ (hf a x (List.mem_cons_self x xs))
      (ih (fun b y hy => hf b y (List.mem_cons_of_mem x hy)) (f a x))

theorem foldl_fixed {α β : Type} (f : α → β → α) (xs : List β) (a : α)
    (hf : ∀ x, x ∈ xs → f a x = a) : xs.foldl f a = a := by
  induction xs with
  | nil => rfl
  | cons x xs ih =>
    rw [List.foldl_cons, hf x (List.mem_cons_self x xs)]
    exact ih (fun y hy => hf y (List.mem_cons_of_mem x hy))

theorem mem_inner_range {i j : Nat} (h : j ∈ List.range' (i + 1) (MAX_TASKS - (i + 1))) :
    i < j ∧ j < MAX_TASKS := by
  rw [List.mem_range'] at h
  obtain ⟨k, hk, rfl⟩ := h
  omega

/-! ## The sort only permutes, and never touches an inactive slot -/

theorem sortFrame_refl (tl : List TaskEntry) : SortFrame tl tl :=
  ⟨rfl, fun _ _ => rfl, fun _ h => h⟩

theorem sortFrame_trans {a b c : List TaskEntry} (h1 : SortFrame a b) (h2 : SortFrame b c) :
    SortFrame a c := by
  refine ⟨h2.1.trans h1.1, ?_, ?_⟩
  · intro k hk
    have e := h1.2.1 k hk
    rw [h2.2.1 k (by rw [e]; exact hk), e]
  · intro k hk
    exact h2.2.2 k (h1.2.2 k hk)

theorem sort_swap_frame (tl : List TaskEntry) (i j : Nat) : SortFrame tl (sort_swap tl i j) := by
  by_cases h : (entry_at tl j).task.active ≠ 0 ∧ (entry_at tl i).task.active ≠ 0 ∧
      (entry_at tl j).task.priority > (entry_at tl i).task.priority
  · refine ⟨sort_swap_length tl i j, ?_, ?_⟩
    · intro k hk
      rw [sort_swap_of h]
      have hkj : k ≠ j := by intro e; subst e; exact h.1 hk
      have hki : k ≠ i := by intro e; subst e; exact h.2.1 hk
      rw [if_neg hkj, if_neg hki]
    · intro k hk
      rw [sort_swap_of h]
      split
      · exact h.2.1
      · split
        · exact h.1
        · exact hk
  · rw [sort_swap_of_not h]; exact sortFrame_refl tl

theorem sort_inner_frame (tl : List TaskEntry) (i : Nat) : SortFrame tl (sort_inner tl i) :=
  foldl_rel SortFrame sortFrame_refl (fun _ _ _ => sortFrame_trans) _ _
    (fun a j _ => sort_swap_frame a i j) tl

theorem sort_pass_frame (tl : List TaskEntry) : SortFrame tl (sort_pass tl) :=
  foldl_rel SortFrame sortFrame_refl (fun _ _ _ => sortFrame_trans) _ _
    (fun a i _ => sort_inner_frame a i) tl

theorem sort_inner_perm (tl : List TaskEntry) (i : Nat) : (sort_inner tl i).Perm tl :=
  foldl_rel (fun a b => b.Perm a) (fun a => List.Perm.refl a)
    (fun _ _ _ h1 h2 => h2.trans h1) _ _ (fun a j _ => sort_swap_perm a i j) tl

theorem sort_pass_perm (tl : List TaskEntry) : (sort_pass tl).Perm tl :=
  foldl_rel (fun a b => b.Perm a) (fun a => List.Perm.refl a)
    (fun _ _ _ h1 h2 => h2.trans h1) _ _ (fun a i _ => sort_inner_perm a i) tl


theorem sort_swap_at_left {tl : List TaskEntry} {i j : Nat} (hij : i ≠ j)
    (h : (entry_at tl j).task.active ≠ 0 ∧ (entry_at tl i).task.active ≠ 0 ∧
      (entry_at tl j).task.priority > (entry_at tl i).task.priority) :
    entry_at (sort_swap tl i j) i = entry_at tl j := by
  rw [sort_swap_of h, if_neg hij, if_pos rfl]

theorem sort_swap_at_right {tl : List TaskEntry} {i j : Nat}
    (h : (entry_at tl j).task.active ≠ 0 ∧ (entry_at tl i).task.active ≠ 0 ∧
      (entry_at tl j).task.priority > (entry_at tl i).task.priority) :
    entry_at (sort_swap tl i j) j = entry_at tl i := by
  rw [sort_swap_of h, if_pos rfl]

theorem sort_swap_at_other (tl : List TaskEntry) {i j k : Nat} (hi : k ≠ i) (hj : k ≠ j) :
    entry_at (sort_swap tl i j) k = entry_at tl k := by
  by_cases h : (entry_at tl j).task.active ≠ 0 ∧ (entry_at tl i).task.active ≠ 0 ∧
      (entry_at tl j).task.priority > (entry_at tl i).task.priority
  · rw [sort_swap_of h, if_neg hj, if_neg hi]
  · rw [sort_swap_of_not h]

/-! ## The sort orders the active slots -/

theorem aboveOnly_refl (i : Nat) (tl : List TaskEntry) : AboveOnly i tl tl :=
  ⟨fun _ _ => rfl, fun q hq hq8 ha => ⟨q, hq, hq8, ha, rfl⟩⟩

theorem aboveOnly_trans {i : Nat} {a b c : List TaskEntry} (h1 : AboveOnly i a b)
    (h2 : AboveOnly i b c) : AboveOnly i a c := by
  refine ⟨fun p hp => (h2.1 p hp).trans (h1.1 p hp), ?_⟩
  intro q hq hq8 ha
  obtain ⟨q1, hq1, hq18, ha1, e1⟩ := h2.2 q hq hq8 ha
  obtain ⟨q2, hq2, hq28, ha2, e2⟩ := h1.2 q1 hq1 hq18 ha1
  exact ⟨q2, hq2, hq28, ha2, e1.trans e2⟩

theorem sort_swap_above (tl : List TaskEntry) {i j : Nat} (hij : i < j) (hj : j < MAX_TASKS) :
    AboveOnly i tl (sort_swap tl i j) := by
  by_cases h : (entry_at tl j).task.active ≠ 0 ∧ (entry_at tl i).task.active ≠ 0 ∧
      (entry_at tl j).task.priority > (entry_at tl i).task.priority
  · refine ⟨?_, ?_⟩
    · intro p hp
      exact sort_swap_at_other tl (by omega) (by omega)
    · intro q hq hq8 ha
      by_cases h1 : q = j
      · subst h1
        exact ⟨i, le_refl i, by omega, h.2.1, sort_swap_at_right h⟩
      · by_cases h2 : q = i
        · subst h2
          exact ⟨j, le_of_lt hij, hj, h.1, sort_swap_at_left (ne_of_lt hij) h⟩
        · have e := @sort_swap_at_other tl i j q h2 h1
          rw [e] at ha
          exact ⟨q, hq, hq8, ha, e⟩
  · rw [sort_swap_of_not h]; exact aboveOnly_refl i tl

theorem sort_inner_above (tl : List TaskEntry) (i : Nat) : AboveOnly i tl (sort_inner tl i) :=
  foldl_rel (AboveOnly i) (aboveOnly_refl i) (fun _ _ _ => aboveOnly_trans) _ _
    (fun a _ hj => sort_swap_above a (mem_inner_range hj).1 (mem_inner_range hj).2) tl

/-- After the inner loop has compared slot `i` with the slots `js` (all above `i`),
an active slot `i` holds a priority at least that of every active slot in `js`. -/
theorem sort_inner_max (i : Nat) (js : List Nat) (hjs : ∀ j ∈ js, i < j) (tl : List TaskEntry) :
    (entry_at (js.foldl (fun l j => sort_swap l i j) tl) i).task.active ≠ 0 →
    ∀ j ∈ js, (entry_at (js.foldl (fun l j => sort_swap l i j) tl) j).task.active ≠ 0 →
      (entry_at (js.foldl (fun l j => sort_swap l i j) tl) j).task.priority ≤
        (entry_at (js.foldl (fun l j => sort_swap l i j) tl) i).task.priority := by
  induction js using List.reverseRecOn with
  | nil => intro _ j hj; simp at hj
  | append_singleton js x ih =>
    have hjs' : ∀ j ∈ js, i < j := fun j hj => hjs j (List.mem_append_left _ hj)
    have hx : i < x := hjs x (by simp)
    rw [List.foldl_append, List.foldl_cons, List.foldl_nil]
    have ih := ih hjs'
    generalize js.foldl (fun l j => sort_swap l i j) tl = m at ih
    intro hai j hj haj
    have hj' : j = x ∨ (j ≠ x ∧ j ∈ js) := by
      by_cases h1 : j = x
      · exact Or.inl h1
      · rcases List.mem_append.mp hj with hh | hh
        · exact Or.inr ⟨h1, hh⟩
        · simp at hh; exact absurd hh h1
    by_cases h : (entry_at m x).task.active ≠ 0 ∧ (entry_at m i).task.active ≠ 0 ∧
        (entry_at m x).task.priority > (entry_at m i).task.priority
    · rw [sort_swap_at_left (ne_of_lt hx) h]
      rcases hj' with h1 | ⟨h1, hjm⟩
      · subst h1
        rw [sort_swap_at_right h]
        exact le_of_lt h.2.2
      · have hji : j ≠ i := ne_of_gt (hjs' j hjm)
        rw [sort_swap_at_other m hji h1] at haj ⊢
        exact le_trans (ih h.2.1 j hjm haj) (le_of_lt h.2.2)
    · rw [sort_swap_of_not h] at hai haj ⊢
      rcases hj' with h1 | ⟨_, hjm⟩
      · subst h1
        by_contra hc
        exact h ⟨haj, hai, by omega⟩
      · exact ih hai j hjm haj

theorem sort_inner_sorted {k : Nat} {tl : List TaskEntry} (h : SortedUpTo k tl) :
    SortedUpTo (k + 1) (sort_inner tl k) := by
  have hab := sort_inner_above tl k
  intro p q hp hpq hq hap haq
  by_cases hpk : p < k
  · rw [hab.1 p hpk] at hap ⊢
    by_cases hqk : q < k
    · rw [hab.1 q hqk] at haq ⊢
      exact h p q hpk hpq hq hap haq
    · obtain ⟨q', hq', hq'8, haq', e⟩ := hab.2 q (by omega) hq haq
      rw [e]
      exact h p q' hpk (by omega) hq'8 hap haq'
  · have hpk' : p = k := by omega
    subst hpk'
    have hmem : q ∈ List.range' (p + 1) (MAX_TASKS - (p + 1)) := by
      rw [List.mem_range']
      exact ⟨q - (p + 1), by omega, by omega⟩
    exact sort_inner_max p _ (fun j hj => (mem_inner_range hj).1) tl hap q hmem haq

theorem sort_outer_sorted (n : Nat) (tl : List TaskEntry) :
    SortedUpTo n ((List.range n).foldl sort_inner tl) := by
  induction n with
  | zero => intro p q hp; omega
  | succ n ih =>
    rw [List.range_succ, List.foldl_append, List.foldl_cons, List.foldl_nil]
    exact sort_inner_sorted ih

theorem sort_pass_sorted (tl : List TaskEntry) : ActiveSorted (sort_pass tl) := by
  have h : SortedUpTo (MAX_TASKS - 1) (sort_pass tl) := sort_outer_sorted (MAX_TASKS - 1) tl
  intro j hj i hij hai haj
  exact h i j (by omega) hij hj hai haj

theorem sort_pass_of_sorted {tl : List TaskEntry} (h : ActiveSorted tl) : sort_pass tl = tl := by
  apply foldl_fixed
  intro i _
  apply foldl_fixed
  intro j hj
  have hj' := mem_inner_range hj
  apply sort_swap_of_not
  intro hc
  have := h j hj'.2 i hj'.1 hc.2.1 hc.1
  omega


/-! ## The dispatch loop -/

theorem ready_eq_true {gs : List Nat} {now : Nat} {e : TaskEntry} :
    ready gs now e = true ↔
      e.task.active ≠ 0 ∧ e.task.suspended = 0 ∧ gs.getD e.task.group 0 = 0 ∧
        e.task.wake_time ≤ now := by
  unfold ready
  simp only [Bool.and_eq_true, Bool.not_eq_true', decide_eq_false_iff_not, decide_eq_true_eq,
    not_or, not_not, ge_iff_le, ne_eq]
  tauto

theorem dispatch_slot_ready {bodies : Bodies} {now : Nat} {acc : Sched × List Invocation}
    {i : Nat} (h : ready acc.1.group_suspended now (entry_at acc.1.task_list i) = true) :
    dispatch_slot bodies now acc i =
      ((invoke_slot bodies now acc.1 i).1, acc.2 ++ [(invoke_slot bodies now acc.1 i).2]) := by
  rw [ready_eq_true] at h
  unfold dispatch_slot
  simp only
  rw [if_neg (by simp only [not_or, not_not]; exact ⟨h.1, h.2.1, h.2.2.1⟩), if_pos h.2.2.2]

theorem dispatch_slot_not_ready {bodies : Bodies} {now : Nat} {acc : Sched × List Invocation}
    {i : Nat} (h : ready acc.1.group_suspended now (entry_at acc.1.task_list i) = false) :
    dispatch_slot bodies now acc i = acc := by
  have h' : ¬ (ready acc.1.group_suspended now (entry_at acc.1.task_list i) = true) := by
    rw [h]; simp
  rw [ready_eq_true] at h'
  unfold dispatch_slot
  simp only
  split
  · rfl
  · rename_i h1
    simp only [not_or, not_not] at h1
    split
    · rename_i h2
      exact absurd ⟨h1.1, h1.2.1, h1.2.2, h2⟩ h'
    · rfl

theorem invoke_slot_record (bodies : Bodies) (now : Nat) (s : Sched) (i : Nat) :
    (invoke_slot bodies now s i).2.slot = i ∧
      (invoke_slot bodies now s i).2.entry = entry_at s.task_list i := ⟨rfl, rfl⟩

theorem stamp_slot_frame (now : Nat) (s : Sched) (i : Nat) :
    (stamp_slot now s i).group_suspended = s.group_suspended ∧
    (stamp_slot now s i).event_flags = s.event_flags ∧
    (stamp_slot now s i).task_list.length = s.task_list.length ∧
    (∀ k, k ≠ i → entry_at (stamp_slot now s i).task_list k = entry_at s.task_list k) := by
  refine ⟨rfl, rfl, by simp [stamp_slot], ?_⟩
  intro k hk
  simp only [stamp_slot]
  rw [entry_at_set, if_neg (fun c => hk c.1)]

theorem reap_slot_frame (s : Sched) (i : Nat) :
    (reap_slot s i).group_suspended = s.group_suspended ∧
    (reap_slot s i).event_flags = s.event_flags ∧
    (reap_slot s i).task_list.length = s.task_list.length ∧
    (∀ k, k ≠ i → entry_at (reap_slot s i).task_list k = entry_at s.task_list k) := by
  unfold reap_slot
  simp only
  split
  · refine ⟨rfl, rfl, by simp, ?_⟩
    intro k hk
    simp only
    rw [entry_at_set, if_neg (fun c => hk c.1)]
  · exact ⟨rfl, rfl, rfl, fun _ _ => rfl⟩

theorem reap_slot_finished (s : Sched) (i : Nat) (h : (entry_at s.task_list i).task.state = -1) :
    (entry_at (reap_slot s i).task_list i).task.active = 0 := by
  unfold reap_slot
  simp only
  rw [if_pos h]
  simp only
  rw [entry_at_set]
  split
  · rfl
  · rename_i hc
    have hlen : ¬ (i < s.task_list.length) := fun c => hc ⟨rfl, c⟩
    rw [entry_at_of_length_le (Nat.le_of_not_lt hlen)]
    rfl

theorem invoke_slot_frame {bodies : Bodies} (hb : OwnTCBOnly bodies) (now : Nat) (s : Sched)
    (i : Nat) :
    (invoke_slot bodies now s i).1.group_suspended = s.group_suspended ∧
    (invoke_slot bodies now s i).1.event_flags = s.event_flags ∧
    (invoke_slot bodies now s i).1.task_list.length = s.task_list.length ∧
    (∀ k, k ≠ i → entry_at (invoke_slot bodies now s i).1.task_list k = entry_at s.task_list k) := by
  unfold invoke_slot
  simp only
  have h1 := stamp_slot_frame now s i
  have h2 := hb (entry_at (stamp_slot now s i).task_list i).func now i (stamp_slot now s i)
  have h3 := reap_slot_frame
    (bodies (entry_at (stamp_slot now s i).task_list i).func now i (stamp_slot now s i)) i
  refine ⟨?_, ?_, ?_, ?_⟩
  · rw [h3.1, h2.1, h1.1]
  · rw [h3.2.1, h2.2.1, h1.2.1]
  · rw [h3.2.2.1, h2.2.2.1, h1.2.2.1]
  · intro k hk
    rw [h3.2.2.2 k hk, h2.2.2.2.1 k hk, h1.2.2.2 k hk]

theorem invoke_slot_finished (bodies : Bodies) (now : Nat) (s : Sched) (i : Nat)
    (h : (invoke_slot bodies now s i).2.returned.state = -1) :
    (entry_at (invoke_slot bodies now s i).1.task_list i).task.active = 0 :=
  reap_slot_finished _ i h


theorem dispatchInv_slot_lt {now : Nat} {s1 : Sched} {k : Nat} {acc : Sched × List Invocation}
    (h : DispatchInv now s1 k acc) {r : Invocation} (hr : r ∈ acc.2) :
    r.slot < k ∧ r.entry = entry_at s1.task_list r.slot ∧
      ready s1.group_suspended now (entry_at s1.task_list r.slot) = true := by
  have hm : (r.slot, r.entry) ∈ acc.2.map (fun r => (r.slot, r.entry)) :=
    List.mem_map.mpr ⟨r, hr, rfl⟩
  rw [h.2.2.2.2.2.1] at hm
  obtain ⟨i, hi, e⟩ := List.mem_map.mp hm
  rw [List.mem_filter, List.mem_range] at hi
  have e1 : i = r.slot := congrArg Prod.fst e
  have e2 : entry_at s1.task_list i = r.entry := congrArg Prod.snd e
  subst e1
  exact ⟨hi.1, e2.symm, hi.2⟩

theorem dispatch_upto {bodies : Bodies} (hb : OwnTCBOnly bodies) (now : Nat) (s1 : Sched)
    (k : Nat) :
    DispatchInv now s1 k ((List.range k).foldl (dispatch_slot bodies now) (s1, [])) := by
  induction k with
  | zero =>
    exact ⟨rfl, rfl, rfl, fun _ _ => rfl, fun _ _ => rfl, rfl, fun r hr => by simp at hr⟩
  | succ k ih =>
    rw [List.range_succ, List.foldl_append, List.foldl_cons, List.foldl_nil]
    generalize (List.range k).foldl (dispatch_slot bodies now) (s1, []) = acc at ih
    have hk : entry_at acc.1.task_list k = entry_at s1.task_list k := ih.2.2.2.1 k (le_refl k)
    cases hready : ready s1.group_suspended now (entry_at s1.task_list k) with
    | false =>
      have hr' : ready acc.1.group_suspended now (entry_at acc.1.task_list k) = false := by
        rw [ih.1, hk]; exact hready
      rw [dispatch_slot_not_ready hr']
      refine ⟨ih.1, ih.2.1, ih.2.2.1, fun q hq => ih.2.2.2.1 q (by omega), ih.2.2.2.2.1, ?_,
        ih.2.2.2.2.2.2⟩
      rw [ih.2.2.2.2.2.1, List.range_succ, List.filter_append]
      simp [hready]
    | true =>
      have hr' : ready acc.1.group_suspended now (entry_at acc.1.task_list k) = true := by
        rw [ih.1, hk]; exact hready
      rw [dispatch_slot_ready hr']
      have hf := invoke_slot_frame hb now acc.1 k
      refine ⟨hf.1.trans ih.1, hf.2.1.trans ih.2.1, hf.2.2.1.trans ih.2.2.1, ?_, ?_, ?_, ?_⟩
      · intro q hq
        rw [hf.2.2.2 q (by omega)]
        exact ih.2.2.2.1 q (by omega)
      · intro q hq
        have hqk : q ≠ k := by
          intro e; subst e; rw [hready] at hq; exact Bool.noConfusion hq
        rw [hf.2.2.2 q hqk]
        exact ih.2.2.2.2.1 q hq
      · simp only [List.map_append, List.map_cons, List.map_nil]
        rw [ih.2.2.2.2.2.1, List.range_succ, List.filter_append]
        simp [hready, invoke_slot, hk]
      · intro r hr hfin
        simp only at hr
        rcases List.mem_append.mp hr with h1 | h1
        · have hlt := (dispatchInv_slot_lt ih h1).1
          simp only
          rw [hf.2.2.2 r.slot (by omega)]
          exact ih.2.2.2.2.2.2 r h1 hfin
        · have e : r = (invoke_slot bodies now acc.1 k).2 := by simpa using h1
          subst e
          exact invoke_slot_finished bodies now acc.1 k hfin

theorem dispatch_inv {bodies : Bodies} (hb : OwnTCBOnly bodies) (now : Nat) (s1 : Sched) :
    DispatchInv now s1 MAX_TASKS (dispatch bodies now s1) :=
  dispatch_upto hb now s1 MAX_TASKS

/-! ## The watchdog pass and `restart_task`, as far as the frame goes -/

theorem keepsActive_refl (s : Sched) : KeepsActive s s :=
  ⟨rfl, rfl, rfl, rfl, fun _ => rfl, fun _ _ => rfl⟩

theorem keepsActive_trans {a b c : Sched} (h1 : KeepsActive a b) (h2 : KeepsActive b c) :
    KeepsActive a c := by
  refine ⟨h2.1.trans h1.1, h2.2.1.trans h1.2.1, h2.2.2.1.trans h1.2.2.1,
    h2.2.2.2.1.trans h1.2.2.2.1, fun q => (h2.2.2.2.2.1 q).trans (h1.2.2.2.2.1 q), ?_⟩
  intro q hq
  have e := h1.2.2.2.2.2 q hq
  rw [h2.2.2.2.2.2 q (by rw [e]; exact hq), e]

theorem restart_task_keeps (s : Sched) (now : Nat) (slot : Int) :
    KeepsActive s (restart_task s now slot) := by
  unfold restart_task
  split
  · rename_i h
    have hlt := lt_length_of_active h.2.2
    refine ⟨rfl, rfl, rfl, by simp, ?_, ?_⟩
    · intro q
      simp only
      rw [entry_at_set]
      split
      · rename_i hq; rw [hq.1]
      · rfl
    · intro q hq
      simp only
      rw [entry_at_set, if_neg]
      intro c
      rw [c.1] at hq
      exact h.2.2 hq
  · exact keepsActive_refl s

theorem watchdog_step_keeps (now : Nat) (s : Sched) (i : Nat) :
    KeepsActive s (watchdog_step now s i) := by
  unfold watchdog_step
  simp only
  split
  · exact keepsActive_refl s
  · split
    · exact restart_task_keeps s now i
    · exact keepsActive_refl s

theorem watchdog_check_keeps (s : Sched) (now : Nat) : KeepsActive s (watchdog_check s now) :=
  foldl_rel KeepsActive keepsActive_refl (fun _ _ _ => keepsActive_trans) _ _
    (fun a i _ => watchdog_step_keeps now a i) s


/-! ## A whole tick -/

theorem map_entry_at_range (l : List TaskEntry) : (List.range l.length).map (entry_at l) = l := by
  apply List.ext_getElem (by simp)
  intro n h1 h2
  simp [entry_at_eq_getElem h2]

/-- The globals between the sort pass and the dispatch loop of a tick. -/
theorem scheduler_tick_fst (bodies : Bodies) (s : Sched) (now : Nat) :
    (scheduler_tick bodies s now).1 =
      watchdog_check (dispatch bodies now
        ⟨sort_pass s.task_list, s.event_flags, s.group_suspended, s.user_mem⟩).1 now := by
  simp only [scheduler_tick]

theorem scheduler_tick_snd (bodies : Bodies) (s : Sched) (now : Nat) :
    (scheduler_tick bodies s now).2 =
      (dispatch bodies now
        ⟨sort_pass s.task_list, s.event_flags, s.group_suspended, s.user_mem⟩).2 := by
  simp only [scheduler_tick]

theorem tick_dispatch_inv {bodies : Bodies} (hb : OwnTCBOnly bodies) (s : Sched) (now : Nat) :
    (dispatch bodies now ⟨sort_pass s.task_list, s.event_flags, s.group_suspended,
      s.user_mem⟩).1.group_suspended = s.group_suspended ∧
    (dispatch bodies now ⟨sort_pass s.task_list, s.event_flags, s.group_suspended,
      s.user_mem⟩).1.event_flags = s.event_flags ∧
    (dispatch bodies now ⟨sort_pass s.task_list, s.event_flags, s.group_suspended,
      s.user_mem⟩).1.task_list.length = (sort_pass s.task_list).length ∧
    (∀ q, ready s.group_suspended now (entry_at (sort_pass s.task_list) q) = false →
      entry_at (dispatch bodies now ⟨sort_pass s.task_list, s.event_flags, s.group_suspended,
        s.user_mem⟩).1.task_list q = entry_at (sort_pass s.task_list) q) ∧
    (dispatch bodies now ⟨sort_pass s.task_list, s.event_flags, s.group_suspended,
      s.user_mem⟩).2.map (fun r => (r.slot, r.entry)) =
      ((List.range MAX_TASKS).filter
        (fun i => ready s.group_suspended now (entry_at (sort_pass s.task_list) i))).map
        (fun i => (i, entry_at (sort_pass s.task_list) i)) ∧
    (∀ r ∈ (dispatch bodies now ⟨sort_pass s.task_list, s.event_flags, s.group_suspended,
        s.user_mem⟩).2, r.returned.state = -1 →
      (entry_at (dispatch bodies now ⟨sort_pass s.task_list, s.event_flags, s.group_suspended,
        s.user_mem⟩).1.task_list r.slot).task.active = 0) := by
  have h := dispatch_inv hb now
    ⟨sort_pass s.task_list, s.event_flags, s.group_suspended, s.user_mem⟩
  unfold DispatchInv at h
  dsimp only at h
  exact ⟨h.1, h.2.1, h.2.2.1, h.2.2.2.2.1, h.2.2.2.2.2.1, h.2.2.2.2.2.2⟩

theorem tick_slot_lt {bodies : Bodies} (hb : OwnTCBOnly bodies) (s : Sched) (now : Nat)
    {r : Invocation} (hr : r ∈ (scheduler_tick bodies s now).2) :
    r.slot < MAX_TASKS ∧ r.entry = entry_at (sort_pass s.task_list) r.slot ∧
      ready s.group_suspended now (entry_at (sort_pass s.task_list) r.slot) = true := by
  rw [scheduler_tick_snd] at hr
  have h := dispatchInv_slot_lt (dispatch_inv hb now
    ⟨sort_pass s.task_list, s.event_flags, s.group_suspended, s.user_mem⟩) hr
  dsimp only at h
  exact h

theorem tick_log {bodies : Bodies} (hb : OwnTCBOnly bodies) (s : Sched) (now : Nat) :
    (scheduler_tick bodies s now).2.map (fun r => (r.slot, r.entry)) =
      ((List.range MAX_TASKS).filter
        (fun i => ready s.group_suspended now (entry_at (sort_pass s.task_list) i))).map
        (fun i => (i, entry_at (sort_pass s.task_list) i)) := by
  rw [scheduler_tick_snd]
  exact (tick_dispatch_inv hb s now).2.2.2.2.1

theorem tick_log_slots {bodies : Bodies} (hb : OwnTCBOnly bodies) (s : Sched) (now : Nat) :
    (scheduler_tick bodies s now).2.map Invocation.slot =
      (List.range MAX_TASKS).filter
        (fun i => ready s.group_suspended now (entry_at (sort_pass s.task_list) i)) := by
  have h := congrArg (List.map Prod.fst) (tick_log hb s now)
  simp only [List.map_map] at h
  generalize sort_pass s.task_list = sorted at h ⊢
  have e1 : (Prod.fst ∘ fun r : Invocation => (r.slot, r.entry)) = Invocation.slot := rfl
  have e2 : (Prod.fst ∘ fun i : Nat => (i, entry_at sorted i)) = id := rfl
  rw [e1, e2, List.map_id] at h
  exact h

theorem tick_log_entries {bodies : Bodies} (hb : OwnTCBOnly bodies) (s : Sched) (now : Nat)
    (hlen : s.task_list.length = MAX_TASKS) :
    (scheduler_tick bodies s now).2.map Invocation.entry =
      (sort_pass s.task_list).filter (fun e => ready s.group_suspended now e) := by
  have h := congrArg (List.map Prod.snd) (tick_log hb s now)
  simp only [List.map_map] at h
  have hl : (sort_pass s.task_list).length = MAX_TASKS := by
    rw [(sort_pass_frame s.task_list).1, hlen]
  generalize sort_pass s.task_list = sorted at h hl ⊢
  have e1 : (Prod.snd ∘ fun r : Invocation => (r.slot, r.entry)) = Invocation.entry := rfl
  have e2 : (Prod.snd ∘ fun i : Nat => (i, entry_at sorted i)) = entry_at sorted := rfl
  rw [e1, e2] at h
  rw [h]
  have hm := map_entry_at_range sorted
  rw [hl] at hm
  conv_rhs => rw [← hm]
  rw [List.filter_map]
  rfl

theorem tick_finished {bodies : Bodies} (hb : OwnTCBOnly bodies) (s : Sched) (now : Nat)
    {r : Invocation} (hr : r ∈ (scheduler_tick bodies s now).2) (hfin : r.returned.state = -1) :
    r.slot < MAX_TASKS ∧
      (entry_at (scheduler_tick bodies s now).1.task_list r.slot).task.active = 0 := by
  refine ⟨(tick_slot_lt hb s now hr).1, ?_⟩
  rw [scheduler_tick_snd] at hr
  rw [scheduler_tick_fst]
  have h2 := (tick_dispatch_inv hb s now).2.2.2.2.2 r hr hfin
  have hw := watchdog_check_keeps (dispatch bodies now
    ⟨sort_pass s.task_list, s.event_flags, s.group_suspended, s.user_mem⟩).1 now
  exact (hw.2.2.2.2.1 r.slot).trans h2

theorem tick_inactive {bodies : Bodies} (hb : OwnTCBOnly bodies) (s : Sched) (now : Nat) {i : Nat}
    (hi : (entry_at s.task_list i).task.active = 0) :
    entry_at (scheduler_tick bodies s now).1.task_list i = entry_at s.task_list i ∧
      ∀ r ∈ (scheduler_tick bodies s now).2, r.slot ≠ i := by
  have hs := (sort_pass_frame s.task_list).2.1 i hi
  have hnr : ready s.group_suspended now (entry_at (sort_pass s.task_list) i) = false := by
    rw [hs]
    cases hc : ready s.group_suspended now (entry_at s.task_list i) with
    | false => rfl
    | true => exact absurd hi (ready_eq_true.mp hc).1
  refine ⟨?_, ?_⟩
  · rw [scheduler_tick_fst]
    have h5 := (tick_dispatch_inv hb s now).2.2.2.1 i hnr
    have hw := watchdog_check_keeps (dispatch bodies now
      ⟨sort_pass s.task_list, s.event_flags, s.group_suspended, s.user_mem⟩).1 now
    have h6 := hw.2.2.2.2.2 i (by rw [h5, hs]; exact hi)
    exact h6.trans (h5.trans hs)
  · intro r hr e
    have h1 := (tick_slot_lt hb s now hr).2.2
    rw [e] at h1
    exact Bool.noConfusion (hnr.symm.trans h1)

theorem run_ticks_inactive {bodies : Bodies} (hb : OwnTCBOnly bodies) (nows : List Nat) (s : Sched)
    {i : Nat} (hi : (entry_at s.task_list i).task.active = 0) :
    entry_at (run_ticks bodies s nows).1.task_list i = entry_at s.task_list i ∧
      ∀ l ∈ (run_ticks bodies s nows).2, ∀ r ∈ l, r.slot ≠ i := by
  induction nows generalizing s with
  | nil => exact ⟨rfl, fun l hl => by simp [run_ticks] at hl⟩
  | cons now rest ih =>
    have h1 := tick_inactive hb s now hi
    have h2 := ih (scheduler_tick bodies s now).1 (by rw [h1.1]; exact hi)
    refine ⟨?_, ?_⟩
    · simp only [run_ticks]
      exact h2.1.trans h1.1
    · intro l hl
      simp only [run_ticks, List.mem_cons] at hl
      rcases hl with e | hl
      · rw [e]; exact h1.2
      · exact h2.2 l hl

/-! ## The scan of `register_task` -/

theorem register_from_full (s : Sched) (now func id prio group data : Nat) (k i : Nat)
    (h : ∀ m, i ≤ m → m < i + k → (entry_at s.task_list m).task.active ≠ 0) :
    register_from s now func id prio group data i k = (-1, s) := by
  induction k generalizing i with
  | zero => rfl
  | succ k ih =>
    unfold register_from
    rw [if_neg (h i (le_refl i) (by omega))]
    exact ih (i + 1) (fun m h1 h2 => h m (by omega) (by omega))

theorem register_from_free (s : Sched) (now func id prio group data : Nat) (k i r : Nat)
    (h1 : i ≤ r) (h2 : r < i + k) (hr : (entry_at s.task_list r).task.active = 0)
    (h : ∀ m, i ≤ m → m < r → (entry_at s.task_list m).task.active ≠ 0) :
    register_from s now func id prio group data i k =
      ((r : Int), { s with task_list := s.task_list.set r (new_entry now func id prio group data) }) := by
  induction k generalizing i with
  | zero => omega
  | succ k ih =>
    unfold register_from
    by_cases hir : i = r
    · subst hir
      rw [if_pos hr]
    · rw [if_neg (h i (le_refl i) (by omega))]
      exact ih (i + 1) (by omega) (by omega) (fun m h3 h4 => h m (by omega) h4)

theorem register_task_full (s : Sched) (now func id prio group data : Nat)
    (h : ∀ m, m < MAX_TASKS → (entry_at s.task_list m).task.active ≠ 0) :
    register_task s now func id prio group data = (-1, s) :=
  register_from_full s now func id prio group data MAX_TASKS 0 (fun m _ h2 => h m (by omega))

theorem register_task_free (s : Sched) (now func id prio group data : Nat) (r : Nat)
    (h2 : r < MAX_TASKS) (hr : (entry_at s.task_list r).task.active = 0)
    (h : ∀ m, m < r → (entry_at s.task_list m).task.active ≠ 0) :
    register_task s now func id prio group data =
      ((r : Int), { s with task_list := s.task_list.set r (new_entry now func id prio group data) }) :=
  register_from_free s now func id prio group data MAX_TASKS 0 r (Nat.zero_le r) (by omega) hr
    (fun m _ h4 => h m h4)

/-- Some slot below `n` is inactive, then there is a first one. -/
theorem first_inactive_exists (tl : List TaskEntry) (n : Nat)
    (h : ∃ i, i < n ∧ (entry_at tl i).task.active = 0) :
    ∃ r, r < n ∧ (entry_at tl r).task.active = 0 ∧
      ∀ m, m < r → (entry_at tl m).task.active ≠ 0 := by
  classical
  refine ⟨Nat.find h, (Nat.find_spec h).1, (Nat.find_spec h).2, ?_⟩
  intro m hm hc
  exact Nat.find_min h hm ⟨lt_trans hm (Nat.find_spec h).1, hc⟩


/-! ## Bodies used as inputs write only their own TCB -/

theorem idle_bodies_own : OwnTCBOnly idle_bodies :=
  fun _ _ _ _ => ⟨rfl, rfl, rfl, fun _ _ => rfl, rfl, rfl⟩

theorem finish_bodies_own : OwnTCBOnly finish_bodies := by
  intro f now i s
  refine ⟨rfl, rfl, by simp [finish_bodies], ?_, ?_, ?_⟩
  · intro k hk
    simp only [finish_bodies]
    rw [entry_at_set, if_neg (fun c => hk c.1)]
  · simp only [finish_bodies]
    rw [entry_at_set]
    split <;> rfl
  · simp only [finish_bodies]
    rw [entry_at_set]
    split <;> rfl

/-! ## Order of invocation -/

theorem tick_log_priorities {bodies : Bodies} (hb : OwnTCBOnly bodies) (s : Sched) (now : Nat) :
    ((scheduler_tick bodies s now).2.map (fun r => r.entry.task.priority)).Pairwise
      (fun a b => b ≤ a) := by
  have h := congrArg (List.map (fun p : Nat × TaskEntry => p.2.task.priority)) (tick_log hb s now)
  simp only [List.map_map] at h
  have hs := sort_pass_sorted s.task_list
  generalize sort_pass s.task_list = sorted at h hs
  have e1 : ((fun p : Nat × TaskEntry => p.2.task.priority) ∘
      fun r : Invocation => (r.slot, r.entry)) = fun r => r.entry.task.priority := rfl
  have e2 : ((fun p : Nat × TaskEntry => p.2.task.priority) ∘
      fun i : Nat => (i, entry_at sorted i)) = fun i => (entry_at sorted i).task.priority := rfl
  rw [e1, e2] at h
  rw [h, List.pairwise_map]
  have hlt : ((List.range MAX_TASKS).filter
      (fun i => ready s.group_suspended now (entry_at sorted i))).Pairwise (fun a b => a < b) :=
    List.Pairwise.filter _ (List.pairwise_lt_range MAX_TASKS)
  refine List.Pairwise.imp_of_mem ?_ hlt
  intro a b ha hb' hab
  rw [List.mem_filter, List.mem_range] at ha hb'
  exact hs b hb'.1 a hab (ready_eq_true.mp ha.2).1 (ready_eq_true.mp hb'.2).1

/-- C1: for every task table the sort pass at the start of `scheduler_tick` leaves the
active slots in non-increasing priority by slot index; hence, with task bodies that
write only their own TCB, the priorities of the tasks invoked in one tick, in order of
invocation, are non-increasing, and a task of higher priority (5, say) is invoked
before a task of lower priority (1, say). -/
theorem tick_invokes_by_priority (s : Sched) :
    (∀ i j, i < j → j < MAX_TASKS →
      (entry_at (sort_pass s.task_list) i).task.active ≠ 0 →
      (entry_at (sort_pass s.task_list) j).task.active ≠ 0 →
      (entry_at (sort_pass s.task_list) j).task.priority ≤
        (entry_at (sort_pass s.task_list) i).task.priority) ∧
    (∀ (bodies : Bodies) (now : Nat), OwnTCBOnly bodies →
      ((scheduler_tick bodies s now).2.map (fun r => r.entry.task.priority)).Pairwise
        (fun a b => b ≤ a) ∧
      ∀ (i j : Nat) (hi : i < (scheduler_tick bodies s now).2.length)
        (hj : j < (scheduler_tick bodies s now).2.length),
        ((scheduler_tick bodies s now).2[j]).entry.task.priority <
          ((scheduler_tick bodies s now).2[i]).entry.task.priority → i < j) := by
  refine ⟨fun i j hij hj hai haj => sort_pass_sorted s.task_list j hj i hij hai haj, ?_⟩
  intro bodies now hb
  have hp := tick_log_priorities hb s now
  refine ⟨hp, ?_⟩
  generalize (scheduler_tick bodies s now).2 = log at hp
  intro i j hi hj hlt
  by_contra hc
  have hji : j ≤ i := Nat.le_of_not_lt hc
  rcases Nat.lt_or_eq_of_le hji with h1 | h1
  · rw [List.pairwise_map, List.pairwise_iff_getElem] at hp
    have := hp j i hj hi h1
    omega
  · subst h1
    exact absurd hlt (lt_irrefl _)

/-- C1, Scenario B at a concrete input: tasks of priority 1 (id 10) and 5 (id 11) are
registered in that order; in the tick the priorities run 5 then 1. -/
theorem tick_invokes_by_priority_witness :
    OwnTCBOnly idle_bodies ∧
    (scheduler_tick idle_bodies scenario_b_sched 0).2.map (fun r => r.entry.task.id) = [11, 10] ∧
    ((scheduler_tick idle_bodies scenario_b_sched 0).2.map
      (fun r => r.entry.task.priority)).Pairwise (fun a b => b ≤ a) :=
  ⟨idle_bodies_own, by decide,
    ((tick_invokes_by_priority scenario_b_sched).2 idle_bodies 0 idle_bodies_own).1⟩

/-! ## Stability -/

/-- C2 fails on the registrations of `coop_hc.c`: the tasks with ids 2 and 3 both have
priority 2 and sit in slots 2 and 3 in registration order; after the sort pass id 3 is
in slot 2 and id 2 in slot 3, and the tick invokes id 3 before id 2. -/
theorem sort_pass_not_stable :
    (entry_at coop_main_sched.task_list 2).task.id = 2 ∧
    (entry_at coop_main_sched.task_list 3).task.id = 3 ∧
    (entry_at coop_main_sched.task_list 2).task.priority = 2 ∧
    (entry_at coop_main_sched.task_list 3).task.priority = 2 ∧
    (entry_at coop_main_sched.task_list 2).task.active = 1 ∧
    (entry_at coop_main_sched.task_list 3).task.active = 1 ∧
    (sort_pass coop_main_sched.task_list).map (fun e => e.task.id) = [4, 1, 3, 2, 0, 0, 0, 0] ∧
    (scheduler_tick idle_bodies coop_main_sched 0).2.map (fun r => r.entry.task.id) =
      [4, 1, 3, 2, 0] := by
  decide

/-- C2 as amended: on a table whose active slots are already in non-increasing priority
order the sort pass changes nothing, so equal-priority tasks keep their relative slot
order there; and sorting a second time changes nothing for any table. -/
theorem sort_pass_keeps_sorted_table (tl : List TaskEntry) :
    (ActiveSorted tl → sort_pass tl = tl) ∧ sort_pass (sort_pass tl) = sort_pass tl :=
  ⟨fun h => sort_pass_of_sorted h, sort_pass_of_sorted (sort_pass_sorted tl)⟩

/-- C2 as amended, at a table with priorities 3, 2, 2: the tie keeps its order. -/
theorem sort_pass_keeps_sorted_table_witness :
    ActiveSorted tie_sorted_sched.task_list ∧
    sort_pass tie_sorted_sched.task_list = tie_sorted_sched.task_list :=
  ⟨by decide, (sort_pass_keeps_sorted_table tie_sorted_sched.task_list).1 (by decide)⟩

/-! ## Which tasks a tick invokes -/

/-- C3: in one `scheduler_tick` at clock value `now`, with task bodies that write only
their own TCB, an entry of the table is invoked as often as it occurs in the table (once
for a task that occurs once) if it is active, not suspended, its group is not suspended
and `wake_time <= now`, and not at all otherwise; slot by slot of the sorted table each
ready slot is invoked exactly once and no other slot is; every invoked task has
`wake_time <= now`. -/
theorem tick_invokes_ready_once (bodies : Bodies) (hb : OwnTCBOnly bodies) (s : Sched)
    (hlen : s.task_list.length = MAX_TASKS) (now : Nat) :
    (∀ e : TaskEntry,
      (e.task.active ≠ 0 ∧ e.task.suspended = 0 ∧ s.group_suspended.getD e.task.group 0 = 0 ∧
          e.task.wake_time ≤ now →
        ((scheduler_tick bodies s now).2.map Invocation.entry).count e = s.task_list.count e) ∧
      (¬ (e.task.active ≠ 0 ∧ e.task.suspended = 0 ∧
            s.group_suspended.getD e.task.group 0 = 0 ∧ e.task.wake_time ≤ now) →
        ((scheduler_tick bodies s now).2.map Invocation.entry).count e = 0)) ∧
    (∀ i, i < MAX_TASKS →
      ((scheduler_tick bodies s now).2.map Invocation.slot).count i =
        if ready s.group_suspended now (entry_at (sort_pass s.task_list) i) then 1 else 0) ∧
    (∀ r ∈ (scheduler_tick bodies s now).2,
      r.entry = entry_at (sort_pass s.task_list) r.slot ∧ r.entry.task.wake_time ≤ now) := by
  refine ⟨?_, ?_, ?_⟩
  · intro e
    rw [tick_log_entries hb s now hlen]
    refine ⟨?_, ?_⟩
    · intro h
      have hr : ready s.group_suspended now e = true := ready_eq_true.mpr h
      rw [List.count_filter hr]
      exact (sort_pass_perm s.task_list).count_eq e
    · intro h
      rw [List.count_eq_zero]
      intro hm
      rw [List.mem_filter] at hm
      exact h (ready_eq_true.mp hm.2)
  · intro i hi
    rw [tick_log_slots hb s now]
    generalize sort_pass s.task_list = sorted
    cases hr : ready s.group_suspended now (entry_at sorted i) with
    | false =>
      simp only [Bool.false_eq_true, if_false]
      rw [List.count_eq_zero]
      intro hm
      rw [List.mem_filter] at hm
      rw [hr] at hm
      exact Bool.noConfusion hm.2
    | true =>
      simp only [if_true]
      have hc : List.count i ((List.range MAX_TASKS).filter
          (fun i => ready s.group_suspended now (entry_at sorted i))) =
          List.count i (List.range MAX_TASKS) := List.count_filter hr
      rw [hc]
      exact List.count_eq_one_of_mem (List.nodup_range MAX_TASKS) (List.mem_range.mpr hi)
  · intro r hr
    have h := tick_slot_lt hb s now hr
    refine ⟨h.2.1, ?_⟩
    rw [h.2.1]
    exact (ready_eq_true.mp h.2.2).2.2.2

/-- C3 at the table of `coop_hc.c` with idle bodies at clock value 5: all five tasks
are ready and each is invoked once. -/
theorem tick_invokes_ready_once_witness :
    OwnTCBOnly idle_bodies ∧ coop_main_sched.task_list.length = MAX_TASKS ∧
    (scheduler_tick idle_bodies coop_main_sched 5).2.map Invocation.slot = [0, 1, 2, 3, 4] ∧
    (∀ r ∈ (scheduler_tick idle_bodies coop_main_sched 5).2,
      r.entry = entry_at (sort_pass coop_main_sched.task_list) r.slot ∧
        r.entry.task.wake_time ≤ 5) :=
  ⟨idle_bodies_own, by decide, by decide,
    (tick_invokes_ready_once idle_bodies idle_bodies_own coop_main_sched (by decide) 5).2.2⟩


/-! ## `register_task` -/

/-- C4: when some slot is inactive, `register_task(func, id, prio, group, data)` returns
the smallest index `r` of an inactive slot; afterwards slot `r` is active with the given
id, priority, group and user_data, state 0, wake_time 0, suspended 0, watchdog_enabled 1,
last_run_time `now`, watchdog_reset_time `now + WATCHDOG_TIMEOUT_MS` (as a `uint32_t`
sum, which is the plain sum unless it passes `2 ^ 32`), func and original_func equal to
`func`; every other slot and the registries are unchanged. -/
theorem register_task_first_free (s : Sched) (hlen : s.task_list.length = MAX_TASKS)
    (now func id prio group data : Nat)
    (h : ∃ i, i < MAX_TASKS ∧ (entry_at s.task_list i).task.active = 0) :
    ∃ r : Nat, r < MAX_TASKS ∧ (entry_at s.task_list r).task.active = 0 ∧
      (∀ m, m < r → (entry_at s.task_list m).task.active ≠ 0) ∧
      (register_task s now func id prio group data).1 = (r : Int) ∧
      entry_at (register_task s now func id prio group data).2.task_list r =
        { task :=
            { state := 0, id := id, active := 1, suspended := 0, group := group,
              priority := prio, wake_time := 0, last_run_time := now, user_data := data,
              watchdog_enabled := 1,
              watchdog_reset_time := (now + WATCHDOG_TIMEOUT_MS) % 2 ^ 32 },
          func := func, original_func := func } ∧
      (now + WATCHDOG_TIMEOUT_MS < 2 ^ 32 →
        (entry_at (register_task s now func id prio group data).2.task_list r).task.watchdog_reset_time
          = now + WATCHDOG_TIMEOUT_MS) ∧
      (∀ k, k ≠ r → entry_at (register_task s now func id prio group data).2.task_list k =
        entry_at s.task_list k) ∧
      (register_task s now func id prio group data).2.task_list.length = MAX_TASKS ∧
      (register_task s now func id prio group data).2.event_flags = s.event_flags ∧
      (register_task s now func id prio group data).2.group_suspended = s.group_suspended ∧
      (register_task s now func id prio group data).2.user_mem = s.user_mem := by
  obtain ⟨r, hr, hfree, hmin⟩ := first_inactive_exists s.task_list MAX_TASKS h
  have e := register_task_free s now func id prio group data r hr hfree hmin
  have hslot : entry_at (s.task_list.set r (new_entry now func id prio group data)) r =
      new_entry now func id prio group data := by
    rw [entry_at_set, if_pos ⟨rfl, by omega⟩]
  refine ⟨r, hr, hfree, hmin, ?_, ?_, ?_, ?_, ?_, ?_, ?_, ?_⟩
  · rw [e]
  · rw [e]; exact hslot
  · intro hno
    rw [e]
    simp only
    rw [hslot]
    exact Nat.mod_eq_of_lt hno
  · intro k hk
    rw [e]
    simp only
    rw [entry_at_set, if_neg (fun c => hk c.1)]
  · rw [e]; simp [hlen]
  · rw [e]
  · rw [e]
  · rw [e]

/-- C4 at the table of `coop_hc.c` (slots 0..4 taken): the next registration gets slot 5. -/
theorem register_task_first_free_witness :
    coop_main_sched.task_list.length = MAX_TASKS ∧
    (∃ i, i < MAX_TASKS ∧ (entry_at coop_main_sched.task_list i).task.active = 0) ∧
    (register_task coop_main_sched 100 9 6 3 1 0).1 = 5 ∧
    ∃ r : Nat, r < MAX_TASKS ∧ (entry_at coop_main_sched.task_list r).task.active = 0 ∧
      (∀ m, m < r → (entry_at coop_main_sched.task_list m).task.active ≠ 0) ∧
      (register_task coop_main_sched 100 9 6 3 1 0).1 = (r : Int) :=
  ⟨by decide, ⟨5, by decide⟩, by decide,
    (register_task_first_free coop_main_sched (by decide) 100 9 6 3 1 0 ⟨5, by decide⟩).imp
      (fun _ hr => ⟨hr.1, hr.2.1, hr.2.2.1, hr.2.2.2.1⟩)⟩

/-- C5: `register_task` returns -1 if and only if all `MAX_TASKS` slots are active, and
when it returns -1 the globals, the task table among them, are unchanged. -/
theorem register_task_fails_iff_full (s : Sched) (now func id prio group data : Nat) :
    ((register_task s now func id prio group data).1 = -1 ↔
      ∀ i, i < MAX_TASKS → (entry_at s.task_list i).task.active ≠ 0) ∧
    ((register_task s now func id prio group data).1 = -1 →
      (register_task s now func id prio group data).2 = s) := by
  by_cases hfull : ∀ i, i < MAX_TASKS → (entry_at s.task_list i).task.active ≠ 0
  · have e := register_task_full s now func id prio group data hfull
    rw [e]
    exact ⟨⟨fun _ => hfull, fun _ => rfl⟩, fun _ => rfl⟩
  · have hex : ∃ i, i < MAX_TASKS ∧ (entry_at s.task_list i).task.active = 0 := by
      by_contra hc
      apply hfull
      intro i hi ha
      exact hc ⟨i, hi, ha⟩
    obtain ⟨r, hr, hfree, hmin⟩ := first_inactive_exists s.task_list MAX_TASKS hex
    have e := register_task_free s now func id prio group data r hr hfree hmin
    rw [e]
    have hne : ¬ ((r : Int) = -1) := by omega
    exact ⟨⟨fun h => absurd h hne, fun h => absurd h hfull⟩, fun h => absurd h hne⟩

/-- C5 at a full table: the registration returns -1 and changes nothing. -/
theorem register_task_fails_iff_full_witness :
    (register_task full_sched 0 1 9 1 0 0).1 = -1 ∧
    (register_task full_sched 0 1 9 1 0 0).2 = full_sched :=
  ⟨by decide, (register_task_fails_iff_full full_sched 0 1 9 1 0 0).2 (by decide)⟩

/-! ## `remove_task` -/

theorem clear_active_of_inactive (e : TaskEntry) (h : e.task.active = 0) :
    ({ e with task := { e.task with active := 0 } } : TaskEntry) = e := by
  cases e with
  | mk task func original_func =>
    cases task
    simp only at h
    subst h
    rfl

theorem remove_task_slot (s : Sched) (slot : Int) (h0 : 0 ≤ slot) (h1 : slot < (MAX_TASKS : Int)) :
    (entry_at (remove_task s slot).task_list slot.toNat).task.active = 0 ∧
    (∀ k, k ≠ slot.toNat →
      entry_at (remove_task s slot).task_list k = entry_at s.task_list k) := by
  unfold remove_task
  rw [if_pos ⟨h0, h1⟩]
  simp only
  refine ⟨?_, ?_⟩
  · rw [entry_at_set]
    split
    · rfl
    · rename_i hc
      have hlen : ¬ (slot.toNat < s.task_list.length) := fun c => hc ⟨rfl, c⟩
      rw [entry_at_of_length_le (Nat.le_of_not_lt hlen)]
      rfl
  · intro k hk
    rw [entry_at_set, if_neg (fun c => hk c.1)]

theorem remove_task_of_inactive (s : Sched) (slot : Int)
    (h : (entry_at s.task_list slot.toNat).task.active = 0) : remove_task s slot = s := by
  unfold remove_task
  split
  · simp only
    rw [clear_active_of_inactive _ h, set_entry_at_self]
  · rfl

/-- C6: on a full table (all `MAX_TASKS` slots active, so that `register_task` returns
-1), for every slot `k` in range: after `remove_task(k)` the next `register_task`
returns exactly `k` and stores the new task in slot `k`, the other slots being as in
the full table. -/
theorem register_after_remove_reuses_slot (s : Sched)
    (hfull : ∀ i, i < MAX_TASKS → (entry_at s.task_list i).task.active ≠ 0)
    (k : Int) (hk0 : 0 ≤ k) (hk : k < (MAX_TASKS : Int)) (now func id prio group data : Nat) :
    (register_task s now func id prio group data).1 = -1 ∧
    (register_task (remove_task s k) now func id prio group data).1 = k ∧
    (entry_at (register_task (remove_task s k) now func id prio group data).2.task_list
      k.toNat).task.id = id ∧
    (entry_at (register_task (remove_task s k) now func id prio group data).2.task_list
      k.toNat).task.active = 1 ∧
    (entry_at (register_task (remove_task s k) now func id prio group data).2.task_list
      k.toNat).func = func ∧
    (∀ i, i ≠ k.toNat →
      entry_at (register_task (remove_task s k) now func id prio group data).2.task_list i =
        entry_at s.task_list i) := by
  have hkn : k.toNat < MAX_TASKS := by omega
  have hrm := remove_task_slot s k hk0 hk
  have hlt : k.toNat < s.task_list.length := lt_length_of_active (hfull k.toNat hkn)
  have hlen : (remove_task s k).task_list.length = s.task_list.length := by
    unfold remove_task; split <;> simp
  have e := register_task_free (remove_task s k) now func id prio group data k.toNat hkn hrm.1
    (fun m hm => by rw [hrm.2 m (by omega)]; exact hfull m (by omega))
  have hslot : entry_at ((remove_task s k).task_list.set k.toNat
      (new_entry now func id prio group data)) k.toNat = new_entry now func id prio group data := by
    rw [entry_at_set, if_pos ⟨rfl, by omega⟩]
  refine ⟨?_, ?_, ?_, ?_, ?_, ?_⟩
  · rw [register_task_full s now func id prio group data hfull]
  · rw [e]; simp only; omega
  · rw [e]; simp only; rw [hslot]; rfl
  · rw [e]; simp only; rw [hslot]; rfl
  · rw [e]; simp only; rw [hslot]; rfl
  · intro i hi
    rw [e]
    simp only
    rw [entry_at_set, if_neg (fun c => hi c.1), hrm.2 i hi]

/-- C6 at a full table and slot 3. -/
theorem register_after_remove_reuses_slot_witness :
    (∀ i, i < MAX_TASKS → (entry_at full_sched.task_list i).task.active ≠ 0) ∧
    (register_task full_sched 0 2 9 1 0 0).1 = -1 ∧
    (register_task (remove_task full_sched 3) 0 2 9 1 0 0).1 = 3 :=
  ⟨by decide,
    (register_after_remove_reuses_slot full_sched (by decide) 3 (by decide) (by decide)
      0 2 9 1 0 0).1,
    (register_after_remove_reuses_slot full_sched (by decide) 3 (by decide) (by decide)
      0 2 9 1 0 0).2.1⟩

/-- C9: `remove_task(slot)` with `0 <= slot < MAX_TASKS` sets the `active` flag of that
slot to 0 and changes no other field of any slot nor the registries; with a slot out of
range, or a slot that is already inactive, it changes nothing; so removing twice is the
same as removing once. -/
theorem remove_task_frame (s : Sched) (hlen : s.task_list.length = MAX_TASKS) (slot : Int) :
    (0 ≤ slot → slot < (MAX_TASKS : Int) →
      entry_at (remove_task s slot).task_list slot.toNat =
        { task :=
            { state := (entry_at s.task_list slot.toNat).task.state,
              id := (entry_at s.task_list slot.toNat).task.id,
              active := 0,
              suspended := (entry_at s.task_list slot.toNat).task.suspended,
              group := (entry_at s.task_list slot.toNat).task.group,
              priority := (entry_at s.task_list slot.toNat).task.priority,
              wake_time := (entry_at s.task_list slot.toNat).task.wake_time,
              last_run_time := (entry_at s.task_list slot.toNat).task.last_run_time,
              user_data := (entry_at s.task_list slot.toNat).task.user_data,
              watchdog_enabled := (entry_at s.task_list slot.toNat).task.watchdog_enabled,
              watchdog_reset_time := (entry_at s.task_list slot.toNat).task.watchdog_reset_time },
          func := (entry_at s.task_list slot.toNat).func,
          original_func := (entry_at s.task_list slot.toNat).original_func } ∧
      (∀ k, k ≠ slot.toNat →
        entry_at (remove_task s slot).task_list k = entry_at s.task_list k)) ∧
    (remove_task s slot).task_list.length = MAX_TASKS ∧
    (remove_task s slot).event_flags = s.event_flags ∧
    (remove_task s slot).group_suspended = s.group_suspended ∧
    (remove_task s slot).user_mem = s.user_mem ∧
    (slot < 0 ∨ (MAX_TASKS : Int) ≤ slot → remove_task s slot = s) ∧
    ((entry_at s.task_list slot.toNat).task.active = 0 → remove_task s slot = s) ∧
    remove_task (remove_task s slot) slot = remove_task s slot := by
  refine ⟨?_, ?_, ?_, ?_, ?_, ?_, ?_, ?_⟩
  · intro h0 h1
    refine ⟨?_, (remove_task_slot s slot h0 h1).2⟩
    unfold remove_task
    rw [if_pos ⟨h0, h1⟩]
    simp only
    rw [entry_at_set, if_pos ⟨rfl, by omega⟩]
  · unfold remove_task; split <;> simp [hlen]
  · unfold remove_task; split <;> rfl
  · unfold remove_task; split <;> rfl
  · unfold remove_task; split <;> rfl
  · intro h
    unfold remove_task
    rw [if_neg (by omega)]
  · exact remove_task_of_inactive s slot
  · by_cases hr : 0 ≤ slot ∧ slot < (MAX_TASKS : Int)
    · exact remove_task_of_inactive _ slot (remove_task_slot s slot hr.1 hr.2).1
    · have e : remove_task s slot = s := by unfold remove_task; rw [if_neg hr]
      rw [e, e]

/-- C9 at the table of `coop_hc.c`: removing slot 2 clears its flag, removing slot 9 or
the free slot 6 changes nothing. -/
theorem remove_task_frame_witness :
    coop_main_sched.task_list.length = MAX_TASKS ∧
    (entry_at (remove_task coop_main_sched 2).task_list 2).task.active = 0 ∧
    (entry_at (remove_task coop_main_sched 2).task_list 2).task.id = 2 ∧
    remove_task coop_main_sched 9 = coop_main_sched ∧
    remove_task coop_main_sched 6 = coop_main_sched :=
  ⟨by decide, by decide, by decide,
    (remove_task_frame coop_main_sched (by decide) 9).2.2.2.2.2.1 (by decide),
    (remove_task_frame coop_main_sched (by decide) 6).2.2.2.2.2.2.1 (by decide)⟩

/-! ## `restart_task` -/

/-- C10: `restart_task(slot)` on an active slot in range sets state 0, wake_time 0,
last_run_time `now`, watchdog_reset_time `now + WATCHDOG_TIMEOUT_MS` (as a `uint32_t`
sum) and func to original_func, and leaves id, priority, group, suspended, user_data,
watchdog_enabled, active and original_func as they were, as well as every other slot
and the registries; on a slot out of range or inactive it changes nothing. -/
theorem restart_task_effect (s : Sched) (now : Nat) (slot : Int) :
    (0 ≤ slot → slot < (MAX_TASKS : Int) →
      (entry_at s.task_list slot.toNat).task.active ≠ 0 →
      entry_at (restart_task s now slot).task_list slot.toNat =
        { task :=
            { state := 0,
              id := (entry_at s.task_list slot.toNat).task.id,
              active := (entry_at s.task_list slot.toNat).task.active,
              suspended := (entry_at s.task_list slot.toNat).task.suspended,
              group := (entry_at s.task_list slot.toNat).task.group,
              priority := (entry_at s.task_list slot.toNat).task.priority,
              wake_time := 0,
              last_run_time := now,
              user_data := (entry_at s.task_list slot.toNat).task.user_data,
              watchdog_enabled := (entry_at s.task_list slot.toNat).task.watchdog_enabled,
              watchdog_reset_time := (now + WATCHDOG_TIMEOUT_MS) % 2 ^ 32 },
          func := (entry_at s.task_list slot.toNat).original_func,
          original_func := (entry_at s.task_list slot.toNat).original_func } ∧
      ((entry_at s.task_list slot.toNat).task.active = 1 →
        (entry_at (restart_task s now slot).task_list slot.toNat).task.active = 1) ∧
      (∀ k, k ≠ slot.toNat →
        entry_at (restart_task s now slot).task_list k = entry_at s.task_list k)) ∧
    (restart_task s now slot).task_list.length = s.task_list.length ∧
    (restart_task s now slot).event_flags = s.event_flags ∧
    (restart_task s now slot).group_suspended = s.group_suspended ∧
    (restart_task s now slot).user_mem = s.user_mem ∧
    (slot < 0 ∨ (MAX_TASKS : Int) ≤ slot ∨ (entry_at s.task_list slot.toNat).task.active = 0 →
      restart_task s now slot = s) := by
  have hk := restart_task_keeps s now slot
  refine ⟨?_, hk.2.2.2.1, hk.2.1, hk.1, hk.2.2.1, ?_⟩
  · intro h0 h1 ha
    have hlt := lt_length_of_active ha
    have e : entry_at (restart_task s now slot).task_list slot.toNat =
        { task :=
            { (entry_at s.task_list slot.toNat).task with
              state := 0, wake_time := 0, last_run_time := now,
              watchdog_reset_time := u32 (now + WATCHDOG_TIMEOUT_MS) },
          func := (entry_at s.task_list slot.toNat).original_func,
          original_func := (entry_at s.task_list slot.toNat).original_func } := by
      unfold restart_task
      rw [if_pos ⟨h0, h1, ha⟩]
      simp only
      rw [entry_at_set, if_pos ⟨rfl, hlt⟩]
    refine ⟨?_, ?_, ?_⟩
    · rw [e]; rfl
    · intro h; rw [e]; exact h
    · intro k hk'
      unfold restart_task
      rw [if_pos ⟨h0, h1, ha⟩]
      simp only
      rw [entry_at_set, if_neg (fun c => hk' c.1)]
  · intro h
    unfold restart_task
    rw [if_neg]
    intro hc
    rcases h with h | h | h
    · omega
    · omega
    · exact hc.2.2 h

/-- C10 at the table of `coop_hc.c`, slot 1 restarted at clock value 700; slots 9 and 6
(out of range, inactive) change nothing. -/
theorem restart_task_effect_witness :
    (entry_at coop_main_sched.task_list 1).task.active ≠ 0 ∧
    (entry_at (restart_task coop_main_sched 700 1).task_list 1).task.watchdog_reset_time = 3700 ∧
    (entry_at (restart_task coop_main_sched 700 1).task_list 1).task.last_run_time = 700 ∧
    (entry_at (restart_task coop_main_sched 700 1).task_list 1).task.active = 1 ∧
    restart_task coop_main_sched 700 9 = coop_main_sched ∧
    restart_task coop_main_sched 700 6 = coop_main_sched :=
  ⟨by decide, by decide, by decide,
    ((restart_task_effect coop_main_sched 700 1).1 (by decide) (by decide) (by decide)).2.1
      (by decide),
    (restart_task_effect coop_main_sched 700 9).2.2.2.2.2 (Or.inr (Or.inl (by decide))),
    (restart_task_effect coop_main_sched 700 6).2.2.2.2.2 (Or.inr (Or.inr (by decide)))⟩


/-! ## The slot returned by `register_task` and the sort -/

/-- C7 fails: with a task of id 1 and priority 1 in slot 0, registering id 2 with
priority 5 returns slot 1; one tick later, no task having been removed or having
finished, slot 1 holds the task with id 1 and the registered task is in slot 0, so
`remove_task(1)` deactivates the task with id 1 and leaves the registered one active. -/
theorem register_slot_moves_on_sort :
    handle_call.1 = 1 ∧
    (entry_at handle_call.2.task_list 1).task.id = 2 ∧
    (scheduler_tick idle_bodies handle_call.2 0).2.map (fun r => r.returned.state) = [0, 0] ∧
    (entry_at (scheduler_tick idle_bodies handle_call.2 0).1.task_list 1).task.id = 1 ∧
    (entry_at (scheduler_tick idle_bodies handle_call.2 0).1.task_list 0).task.id = 2 ∧
    (entry_at (scheduler_tick idle_bodies handle_call.2 0).1.task_list 0).task.active = 1 ∧
    (entry_at (remove_task (scheduler_tick idle_bodies handle_call.2 0).1 handle_call.1).task_list
      0).task.active = 1 ∧
    (entry_at (remove_task (scheduler_tick idle_bodies handle_call.2 0).1 handle_call.1).task_list
      1).task.id = 1 ∧
    (entry_at (remove_task (scheduler_tick idle_bodies handle_call.2 0).1 handle_call.1).task_list
      1).task.active = 0 := by
  decide

/-- C7 as amended: the slot index returned by `register_task` addresses the registered
task directly after the call (the slot holds the registered id); the sort pass of a
later `scheduler_tick` keeps that entry in the table, in some slot, and keeps it in the
returned slot when the active slots are already in non-increasing priority order. -/
theorem register_slot_until_sort (s : Sched) (hlen : s.task_list.length = MAX_TASKS)
    (now func id prio group data : Nat) (r : Nat)
    (hr : (register_task s now func id prio group data).1 = (r : Int)) :
    r < MAX_TASKS ∧
    (entry_at (register_task s now func id prio group data).2.task_list r).task.id = id ∧
    (entry_at (register_task s now func id prio group data).2.task_list r).task.active = 1 ∧
    (∃ k, k < MAX_TASKS ∧
      entry_at (sort_pass (register_task s now func id prio group data).2.task_list) k =
        entry_at (register_task s now func id prio group data).2.task_list r) ∧
    (ActiveSorted (register_task s now func id prio group data).2.task_list →
      entry_at (sort_pass (register_task s now func id prio group data).2.task_list) r =
        entry_at (register_task s now func id prio group data).2.task_list r) := by
  have hex : ∃ i, i < MAX_TASKS ∧ (entry_at s.task_list i).task.active = 0 := by
    by_contra hc
    have hfull : ∀ i, i < MAX_TASKS → (entry_at s.task_list i).task.active ≠ 0 :=
      fun i hi ha => hc ⟨i, hi, ha⟩
    rw [register_task_full s now func id prio group data hfull] at hr
    simp only at hr
    omega
  obtain ⟨r', hr', hfree, hmin⟩ := first_inactive_exists s.task_list MAX_TASKS hex
  have e := register_task_free s now func id prio group data r' hr' hfree hmin
  rw [e] at hr ⊢
  simp only at hr ⊢
  have hrr : r' = r := by omega
  subst hrr
  have hslot : entry_at (s.task_list.set r' (new_entry now func id prio group data)) r' =
      new_entry now func id prio group data := by
    rw [entry_at_set, if_pos ⟨rfl, by omega⟩]
  generalize hT : s.task_list.set r' (new_entry now func id prio group data) = T at hslot
  have hTlen : T.length = MAX_TASKS := by rw [← hT]; simp [hlen]
  refine ⟨hr', by rw [hslot]; rfl, by rw [hslot]; rfl, ?_, ?_⟩
  · have hm : entry_at T r' ∈ sort_pass T :=
      (sort_pass_perm T).mem_iff.mpr (entry_at_mem (by omega))
    obtain ⟨k, hk, hke⟩ := List.mem_iff_getElem.mp hm
    have hkl : k < MAX_TASKS := by
      rw [(sort_pass_frame T).1, hTlen] at hk; exact hk
    exact ⟨k, hkl, by rw [entry_at_eq_getElem hk]; exact hke⟩
  · intro hs
    rw [sort_pass_of_sorted hs]

/-- C7 as amended, at the second registration on `one_task_sched`: the call returns
slot 1, and the entry is in slot 0 after the sort. -/
theorem register_slot_until_sort_witness :
    one_task_sched.task_list.length = MAX_TASKS ∧
    (register_task one_task_sched 0 2 2 5 0 0).1 = ((1 : Nat) : Int) ∧
    (entry_at (register_task one_task_sched 0 2 2 5 0 0).2.task_list 1).task.id = 2 ∧
    entry_at (sort_pass (register_task one_task_sched 0 2 2 5 0 0).2.task_list) 0 =
      entry_at (register_task one_task_sched 0 2 2 5 0 0).2.task_list 1 :=
  ⟨by decide, by decide,
    (register_slot_until_sort one_task_sched (by decide) 0 2 2 5 0 0 1 (by decide)).2.1,
    by decide⟩

/-! ## Finished tasks -/

theorem register_task_succeeds (s : Sched) (now func id prio group data : Nat) (i : Nat)
    (hi : i < MAX_TASKS) (h : (entry_at s.task_list i).task.active = 0) :
    ∃ r : Nat, r ≤ i ∧ (register_task s now func id prio group data).1 = (r : Int) := by
  obtain ⟨r, hr, hfree, hmin⟩ := first_inactive_exists s.task_list MAX_TASKS ⟨i, hi, h⟩
  refine ⟨r, ?_, ?_⟩
  · by_contra hc
    exact hmin i (by omega) h
  · rw [register_task_free s now func id prio group data r hr hfree hmin]

/-- C8: with task bodies that write only their own TCB, if a body invoked during
`scheduler_tick` returns with `state == -1`, then at the end of that tick its slot is
inactive; over any further ticks, at any clock values, no invocation is made from that
slot and it stays inactive; and a `register_task` call made then, or right after the
tick, succeeds (returns a slot index, not -1). -/
theorem finished_task_is_reaped (bodies : Bodies) (hb : OwnTCBOnly bodies) (s : Sched)
    (now : Nat) (r : Invocation) (hr : r ∈ (scheduler_tick bodies s now).2)
    (hfin : r.returned.state = -1) :
    r.slot < MAX_TASKS ∧
    (entry_at (scheduler_tick bodies s now).1.task_list r.slot).task.active = 0 ∧
    ∀ nows : List Nat,
      (∀ l ∈ (run_ticks bodies (scheduler_tick bodies s now).1 nows).2,
        ∀ r' ∈ l, r'.slot ≠ r.slot) ∧
      (entry_at (run_ticks bodies (scheduler_tick bodies s now).1 nows).1.task_list
        r.slot).task.active = 0 ∧
      ∀ now' func id prio group data : Nat,
        (register_task (run_ticks bodies (scheduler_tick bodies s now).1 nows).1
          now' func id prio group data).1 ≠ -1 ∧
        0 ≤ (register_task (run_ticks bodies (scheduler_tick bodies s now).1 nows).1
          now' func id prio group data).1 ∧
        (register_task (run_ticks bodies (scheduler_tick bodies s now).1 nows).1
          now' func id prio group data).1 < (MAX_TASKS : Int) := by
  have h1 := tick_finished hb s now hr hfin
  refine ⟨h1.1, h1.2, ?_⟩
  intro nows
  have h2 := run_ticks_inactive hb nows (scheduler_tick bodies s now).1 h1.2
  have h3 : (entry_at (run_ticks bodies (scheduler_tick bodies s now).1 nows).1.task_list
      r.slot).task.active = 0 := by rw [h2.1]; exact h1.2
  refine ⟨h2.2, h3, ?_⟩
  intro now' func id prio group data
  obtain ⟨q, hq, e⟩ := register_task_succeeds
    (run_ticks bodies (scheduler_tick bodies s now).1 nows).1 now' func id prio group data
    r.slot h1.1 h3
  rw [e]
  have := h1.1
  refine ⟨by omega, by omega, by omega⟩

/-- C8 at `one_task_sched` with `finish_bodies`: the task finishes in the first tick,
slot 0 is inactive afterwards and two more ticks invoke nothing from slot 0. -/
theorem finished_task_is_reaped_witness :
    OwnTCBOnly finish_bodies ∧
    finished_record ∈ (scheduler_tick finish_bodies one_task_sched 0).2 ∧
    finished_record.returned.state = -1 ∧
    finished_record.slot = 0 ∧
    (entry_at (scheduler_tick finish_bodies one_task_sched 0).1.task_list
      finished_record.slot).task.active = 0 ∧
    (∀ l ∈ (run_ticks finish_bodies (scheduler_tick finish_bodies one_task_sched 0).1
        [50, 100]).2, ∀ r' ∈ l, r'.slot ≠ finished_record.slot) :=
  ⟨finish_bodies_own, by decide, by decide, by decide,
    (finished_task_is_reaped finish_bodies finish_bodies_own one_task_sched 0 finished_record
      (by decide) (by decide)).2.1,
    ((finished_task_is_reaped finish_bodies finish_bodies_own one_task_sched 0 finished_record
      (by decide) (by decide)).2.2 [50, 100]).1⟩

/-! ## Event and group registry -/

theorem getD_set_nat (l : List Nat) (i k a : Nat) :
    (l.set i a).getD k 0 = if k = i ∧ i < l.length then a else l.getD k 0 := by
  simp only [List.getD_eq_getElem?_getD, List.getElem?_set]
  by_cases h : i = k
  · subst h
    by_cases h2 : i < l.length
    · simp [h2]
    · simp [h2, List.getElem?_eq_none (Nat.le_of_not_lt h2)]
  · have h3 : ¬ (k = i ∧ i < l.length) := fun c => h c.1.symm
    simp [h, h3]

/-- C11: for every event id below `MAX_EVENTS`, `event_check(id)` returns 1 after
`event_set(id)` and 0 after `event_clear(id)`, and neither call changes the flag of any
other event id, nor the task table or the group flags. -/
theorem event_set_clear_check (s : Sched) (hlen : s.event_flags.length = MAX_EVENTS)
    (id : Nat) (hid : id < MAX_EVENTS) :
    event_check (event_set s id) id = 1 ∧
    event_check (event_clear s id) id = 0 ∧
    (∀ j, j ≠ id →
      event_check (event_set s id) j = event_check s j ∧
      event_check (event_clear s id) j = event_check s j ∧
      (event_set s id).event_flags.getD j 0 = s.event_flags.getD j 0 ∧
      (event_clear s id).event_flags.getD j 0 = s.event_flags.getD j 0) ∧
    (event_set s id).task_list = s.task_list ∧
    (event_set s id).group_suspended = s.group_suspended ∧
    (event_clear s id).task_list = s.task_list ∧
    (event_clear s id).group_suspended = s.group_suspended := by
  have hs : (event_set s id).event_flags = s.event_flags.set id 1 := by
    unfold event_set; rw [if_pos hid]
  have hc : (event_clear s id).event_flags = s.event_flags.set id 0 := by
    unfold event_clear; rw [if_pos hid]
  refine ⟨?_, ?_, ?_, ?_, ?_, ?_, ?_⟩
  · unfold event_check
    rw [if_pos hid, hs, getD_set_nat, if_pos ⟨rfl, by omega⟩]
  · unfold event_check
    rw [if_pos hid, hc, getD_set_nat, if_pos ⟨rfl, by omega⟩]
  · intro j hj
    have e1 : (event_set s id).event_flags.getD j 0 = s.event_flags.getD j 0 := by
      rw [hs, getD_set_nat, if_neg (fun c => hj c.1)]
    have e2 : (event_clear s id).event_flags.getD j 0 = s.event_flags.getD j 0 := by
      rw [hc, getD_set_nat, if_neg (fun c => hj c.1)]
    refine ⟨?_, ?_, e1, e2⟩
    · unfold event_check; rw [e1]
    · unfold event_check; rw [e2]
  · unfold event_set; rw [if_pos hid]
  · unfold event_set; rw [if_pos hid]
  · unfold event_clear; rw [if_pos hid]
  · unfold event_clear; rw [if_pos hid]

/-- C11 at the empty registry and event 2. -/
theorem event_set_clear_check_witness :
    empty_sched.event_flags.length = MAX_EVENTS ∧ 2 < MAX_EVENTS ∧
    event_check (event_set empty_sched 2) 2 = 1 ∧
    event_check (event_clear (event_set empty_sched 2) 2) 2 = 0 :=
  ⟨by decide, by decide, (event_set_clear_check empty_sched (by decide) 2 (by decide)).1,
    by decide⟩

/-- C12: for every id from `MAX_EVENTS` on, `event_set(id)` and `event_clear(id)` change
nothing and `event_check(id)` returns 0; for every group from `MAX_GROUPS` on,
`group_suspend(group)` and `group_resume(group)` change nothing. -/
theorem registry_out_of_range_noop (s : Sched) :
    (∀ id, MAX_EVENTS ≤ id →
      event_set s id = s ∧ event_clear s id = s ∧ event_check s id = 0) ∧
    (∀ group, MAX_GROUPS ≤ group → group_suspend s group = s ∧ group_resume s group = s) := by
  refine ⟨?_, ?_⟩
  · intro id h
    have hn : ¬ id < MAX_EVENTS := by omega
    refine ⟨?_, ?_, ?_⟩
    · unfold event_set; rw [if_neg hn]
    · unfold event_clear; rw [if_neg hn]
    · unfold event_check; rw [if_neg hn]
  · intro g h
    have hn : ¬ g < MAX_GROUPS := by omega
    refine ⟨?_, ?_⟩
    · unfold group_suspend; rw [if_neg hn]
    · unfold group_resume; rw [if_neg hn]

/-- C12 at the registry of `coop_hc.c`: event 8, event 255 and group 4 are out of range. -/
theorem registry_out_of_range_noop_witness :
    MAX_EVENTS ≤ 8 ∧ MAX_GROUPS ≤ 4 ∧
    event_set coop_main_sched 8 = coop_main_sched ∧
    event_check (event_set coop_main_sched 255) 255 = 0 ∧
    group_suspend coop_main_sched 4 = coop_main_sched :=
  ⟨by decide, by decide, ((registry_out_of_range_noop coop_main_sched).1 8 (by decide)).1,
    by decide, ((registry_out_of_range_noop coop_main_sched).2 4 (by decide)).1⟩

/-- C13: `group_suspend` is idempotent for every group and every state of the globals;
`group_resume(g)` after `group_suspend(g)` leaves the flag of group `g` at 0 and every
other group flag, the event flags and the task table as they were before the two calls. -/
theorem group_suspend_idempotent (s : Sched) (g : Nat) :
    group_suspend (group_suspend s g) g = group_suspend s g ∧
    (s.group_suspended.length = MAX_GROUPS →
      (group_resume (group_suspend s g) g).group_suspended.getD g 0 = 0) ∧
    (∀ h, h ≠ g →
      (group_resume (group_suspend s g) g).group_suspended.getD h 0 =
        s.group_suspended.getD h 0) ∧
    (group_resume (group_suspend s g) g).group_suspended.length = s.group_suspended.length ∧
    (group_resume (group_suspend s g) g).event_flags = s.event_flags ∧
    (group_resume (group_suspend s g) g).task_list = s.task_list := by
  by_cases hg : g < MAX_GROUPS
  · have e1 : group_suspend s g = { s with group_suspended := s.group_suspended.set g 1 } := by
      unfold group_suspend; rw [if_pos hg]
    have e2 : group_resume (group_suspend s g) g =
        { s with group_suspended := (s.group_suspended.set g 1).set g 0 } := by
      rw [e1]; unfold group_resume; rw [if_pos hg]
    refine ⟨?_, ?_, ?_, ?_, ?_, ?_⟩
    · rw [e1]; unfold group_suspend; rw [if_pos hg]; simp only [List.set_set]
    · intro _
      rw [e2]
      simp only [List.set_set]
      rw [getD_set_nat]
      split
      · rfl
      · rename_i hc
        have hl : ¬ g < s.group_suspended.length := fun c => hc ⟨rfl, c⟩
        rw [List.getD_eq_getElem?_getD, List.getElem?_eq_none (Nat.le_of_not_lt hl)]
        rfl
    · intro h hh
      rw [e2]
      simp only [List.set_set]
      rw [getD_set_nat, if_neg (fun c => hh c.1)]
    · rw [e2]; simp
    · rw [e2]
    · rw [e2]
  · have e1 : group_suspend s g = s := by unfold group_suspend; rw [if_neg hg]
    have e2 : group_resume s g = s := by unfold group_resume; rw [if_neg hg]
    rw [e1, e2]
    refine ⟨e1, ?_, fun _ _ => rfl, rfl, rfl, rfl⟩
    intro hl
    rw [List.getD_eq_getElem?_getD, List.getElem?_eq_none (by omega)]
    rfl

/-- C13 at the registry of `coop_hc.c` and group 1. -/
theorem group_suspend_idempotent_witness :
    coop_main_sched.group_suspended.length = MAX_GROUPS ∧
    (group_suspend coop_main_sched 1).group_suspended = [0, 1, 0, 0] ∧
    group_suspend (group_suspend coop_main_sched 1) 1 = group_suspend coop_main_sched 1 ∧
    (group_resume (group_suspend coop_main_sched 1) 1).group_suspended.getD 1 0 = 0 :=
  ⟨by decide, by decide, (group_suspend_idempotent coop_main_sched 1).1,
    (group_suspend_idempotent coop_main_sched 1).2.1 (by decide)⟩


/-! ## The watchdog pass, slot by slot -/

theorem wd_expired_eq_true {now : Nat} {e : TaskEntry} :
    wd_expired now e = true ↔
      e.task.active ≠ 0 ∧ e.task.watchdog_enabled ≠ 0 ∧ now > e.task.watchdog_reset_time := by
  unfold wd_expired
  exact decide_eq_true_iff

theorem restart_task_entry (s : Sched) (now : Nat) (i k : Nat) (hi : i < MAX_TASKS)
    (ha : (entry_at s.task_list i).task.active ≠ 0) :
    entry_at (restart_task s now (i : Int)).task_list k =
      if k = i then restarted now (entry_at s.task_list i) else entry_at s.task_list k := by
  have hlt := lt_length_of_active ha
  unfold restart_task
  have hc : 0 ≤ (i : Int) ∧ (i : Int) < (MAX_TASKS : Int) ∧
      (entry_at s.task_list (i : Int).toNat).task.active ≠ 0 := by
    refine ⟨by omega, by omega, ?_⟩
    rw [Int.toNat_ofNat]; exact ha
  rw [if_pos hc]
  simp only [Int.toNat_ofNat]
  rw [entry_at_set]
  by_cases hk : k = i
  · rw [if_pos ⟨hk, hlt⟩, if_pos hk]; rfl
  · rw [if_neg (fun c => hk c.1), if_neg hk]

theorem watchdog_step_entry (now : Nat) (s : Sched) (i k : Nat) (hi : i < MAX_TASKS) :
    entry_at (watchdog_step now s i).task_list k =
      if k = i ∧ wd_expired now (entry_at s.task_list i) = true then
        restarted now (entry_at s.task_list i)
      else entry_at s.task_list k := by
  unfold watchdog_step
  simp only
  split
  · rename_i h
    rw [if_neg]
    intro c
    have := wd_expired_eq_true.mp c.2
    rcases h with h | h
    · exact this.1 h
    · exact this.2.1 h
  · rename_i h
    simp only [not_or] at h
    split
    · rename_i h2
      rw [restart_task_entry s now i k hi h.1]
      have he : wd_expired now (entry_at s.task_list i) = true :=
        wd_expired_eq_true.mpr ⟨h.1, h.2, h2⟩
      by_cases hk : k = i
      · rw [if_pos hk, if_pos ⟨hk, he⟩]
      · rw [if_neg hk, if_neg (fun c => hk c.1)]
    · rename_i h2
      rw [if_neg]
      intro c
      exact h2 (wd_expired_eq_true.mp c.2).2.2

theorem watchdog_upto (now : Nat) (s : Sched) (n : Nat) (hn : n ≤ MAX_TASKS) (k : Nat) :
    entry_at ((List.range n).foldl (watchdog_step now) s).task_list k =
      if k < n ∧ wd_expired now (entry_at s.task_list k) = true then
        restarted now (entry_at s.task_list k)
      else entry_at s.task_list k := by
  induction n generalizing k with
  | zero => simp
  | succ n ih =>
    rw [List.range_succ, List.foldl_append, List.foldl_cons, List.foldl_nil]
    have ihn := ih (by omega)
    generalize (List.range n).foldl (watchdog_step now) s = m at ihn
    rw [watchdog_step_entry now m n k (by omega)]
    have hn' : entry_at m.task_list n = entry_at s.task_list n := by
      rw [ihn n, if_neg (fun c => absurd c.1 (lt_irrefl n))]
    rw [hn']
    by_cases hk : k = n
    · subst hk
      by_cases he : wd_expired now (entry_at s.task_list k) = true
      · rw [if_pos ⟨rfl, he⟩, if_pos ⟨by omega, he⟩]
      · rw [if_neg (fun c => he c.2), if_neg (fun c => he c.2), hn']
    · rw [if_neg (fun c => hk c.1), ihn k]
      by_cases he : wd_expired now (entry_at s.task_list k) = true
      · by_cases hlt : k < n
        · rw [if_pos ⟨hlt, he⟩, if_pos ⟨by omega, he⟩]
        · rw [if_neg (fun c => hlt c.1), if_neg (fun c => by omega)]
      · rw [if_neg (fun c => he c.2), if_neg (fun c => he c.2)]

theorem watchdog_check_entry (s : Sched) (now : Nat) (k : Nat) :
    entry_at (watchdog_check s now).task_list k =
      if k < MAX_TASKS ∧ wd_expired now (entry_at s.task_list k) = true then
        restarted now (entry_at s.task_list k)
      else entry_at s.task_list k :=
  watchdog_upto now s MAX_TASKS (le_refl _) k


/-- C15: `watchdog_check` at clock value `now` resets exactly the slots that are active,
watchdog-enabled and have `now > watchdog_reset_time`: such a slot gets state 0,
wake_time 0 and watchdog_reset_time `now + WATCHDOG_TIMEOUT_MS` (as a `uint32_t` sum),
the very entry `restart_task` stores, and every other slot and the registries are
unchanged; hence in a tick (bodies writing only their own TCB) a slot of the sorted table
that is not invoked, its group being suspended say, is reset if it is active,
watchdog-enabled and `now` exceeds its deadline, and is left as it is otherwise. -/
theorem watchdog_resets_expired_tasks (s : Sched) (now : Nat) :
    (∀ k, k < MAX_TASKS →
      ((entry_at s.task_list k).task.active ≠ 0 ∧
          (entry_at s.task_list k).task.watchdog_enabled ≠ 0 ∧
          now > (entry_at s.task_list k).task.watchdog_reset_time →
        (entry_at (watchdog_check s now).task_list k).task.state = 0 ∧
        (entry_at (watchdog_check s now).task_list k).task.wake_time = 0 ∧
        (entry_at (watchdog_check s now).task_list k).task.watchdog_reset_time =
          (now + WATCHDOG_TIMEOUT_MS) % 2 ^ 32 ∧
        entry_at (watchdog_check s now).task_list k =
          entry_at (restart_task s now (k : Int)).task_list k) ∧
      (¬ ((entry_at s.task_list k).task.active ≠ 0 ∧
            (entry_at s.task_list k).task.watchdog_enabled ≠ 0 ∧
            now > (entry_at s.task_list k).task.watchdog_reset_time) →
        entry_at (watchdog_check s now).task_list k = entry_at s.task_list k)) ∧
    (∀ k, MAX_TASKS ≤ k →
      entry_at (watchdog_check s now).task_list k = entry_at s.task_list k) ∧
    (watchdog_check s now).task_list.length = s.task_list.length ∧
    (watchdog_check s now).event_flags = s.event_flags ∧
    (watchdog_check s now).group_suspended = s.group_suspended ∧
    (∀ bodies : Bodies, OwnTCBOnly bodies → ∀ i, i < MAX_TASKS →
      ready s.group_suspended now (entry_at (sort_pass s.task_list) i) = false →
      ((entry_at (sort_pass s.task_list) i).task.active ≠ 0 ∧
          (entry_at (sort_pass s.task_list) i).task.watchdog_enabled ≠ 0 ∧
          now > (entry_at (sort_pass s.task_list) i).task.watchdog_reset_time →
        (entry_at (scheduler_tick bodies s now).1.task_list i).task.state = 0 ∧
        (entry_at (scheduler_tick bodies s now).1.task_list i).task.wake_time = 0 ∧
        (entry_at (scheduler_tick bodies s now).1.task_list i).task.watchdog_reset_time =
          (now + WATCHDOG_TIMEOUT_MS) % 2 ^ 32 ∧
        (entry_at (scheduler_tick bodies s now).1.task_list i).task.id =
          (entry_at (sort_pass s.task_list) i).task.id) ∧
      (¬ ((entry_at (sort_pass s.task_list) i).task.active ≠ 0 ∧
            (entry_at (sort_pass s.task_list) i).task.watchdog_enabled ≠ 0 ∧
            now > (entry_at (sort_pass s.task_list) i).task.watchdog_reset_time) →
        entry_at (scheduler_tick bodies s now).1.task_list i =
          entry_at (sort_pass s.task_list) i)) := by
  have hk := watchdog_check_keeps s now
  refine ⟨?_, ?_, hk.2.2.2.1, hk.2.1, hk.1, ?_⟩
  · intro k hlt
    refine ⟨?_, ?_⟩
    · intro hc
      have he : wd_expired now (entry_at s.task_list k) = true := wd_expired_eq_true.mpr hc
      rw [watchdog_check_entry, if_pos ⟨hlt, he⟩, restart_task_entry s now k k hlt hc.1,
        if_pos rfl]
      exact ⟨rfl, rfl, rfl, rfl⟩
    · intro hc
      rw [watchdog_check_entry, if_neg (fun c => hc (wd_expired_eq_true.mp c.2))]
  · intro k hge
    rw [watchdog_check_entry, if_neg (fun c => by omega)]
  · intro bodies hb i hi hnr
    have hd := (tick_dispatch_inv hb s now).2.2.2.1 i hnr
    rw [scheduler_tick_fst, watchdog_check_entry, hd]
    generalize entry_at (sort_pass s.task_list) i = e
    refine ⟨?_, ?_⟩
    · intro hc
      rw [if_pos ⟨hi, wd_expired_eq_true.mpr hc⟩]
      exact ⟨rfl, rfl, rfl, rfl⟩
    · intro hc
      rw [if_neg (fun c => hc (wd_expired_eq_true.mp c.2))]

/-- C15 at the table of `coop_hc.c` with group 1 suspended, ticked at clock value 3001:
slot 2 of the sorted table (group 1, deadline 3000) is not invoked and is reset. -/
theorem watchdog_resets_expired_tasks_witness :
    OwnTCBOnly idle_bodies ∧
    ready group1_suspended_sched.group_suspended 3001
      (entry_at (sort_pass group1_suspended_sched.task_list) 2) = false ∧
    (entry_at (sort_pass group1_suspended_sched.task_list) 2).task.watchdog_reset_time = 3000 ∧
    (entry_at (scheduler_tick idle_bodies group1_suspended_sched 3001).1.task_list
      2).task.state = 0 ∧
    (entry_at (scheduler_tick idle_bodies group1_suspended_sched 3001).1.task_list
      2).task.watchdog_reset_time = 6001 :=
  ⟨idle_bodies_own, by decide, by decide,
    (((watchdog_resets_expired_tasks group1_suspended_sched 3001).2.2.2.2.2 idle_bodies
      idle_bodies_own 2 (by decide) (by decide)).1 (by decide)).1,
    by decide⟩


/-! ## Group suspension over several ticks -/

theorem tick_registries {bodies : Bodies} (hb : OwnTCBOnly bodies) (s : Sched) (now : Nat) :
    (scheduler_tick bodies s now).1.group_suspended = s.group_suspended ∧
    (scheduler_tick bodies s now).1.event_flags = s.event_flags ∧
    (scheduler_tick bodies s now).1.task_list.length = s.task_list.length := by
  have hd := tick_dispatch_inv hb s now
  have hw := watchdog_check_keeps (dispatch bodies now
    ⟨sort_pass s.task_list, s.event_flags, s.group_suspended, s.user_mem⟩).1 now
  rw [scheduler_tick_fst]
  exact ⟨hw.1.trans hd.1, hw.2.1.trans hd.2.1,
    hw.2.2.2.1.trans (hd.2.2.1.trans (sort_pass_frame s.task_list).1)⟩

theorem run_ticks_registries {bodies : Bodies} (hb : OwnTCBOnly bodies) (nows : List Nat)
    (s : Sched) :
    (run_ticks bodies s nows).1.group_suspended = s.group_suspended ∧
    (run_ticks bodies s nows).1.event_flags = s.event_flags ∧
    (run_ticks bodies s nows).1.task_list.length = s.task_list.length := by
  induction nows generalizing s with
  | nil => exact ⟨rfl, rfl, rfl⟩
  | cons now rest ih =>
    have h1 := tick_registries hb s now
    have h2 := ih (scheduler_tick bodies s now).1
    simp only [run_ticks]
    exact ⟨h2.1.trans h1.1, h2.2.1.trans h1.2.1, h2.2.2.trans h1.2.2⟩

theorem tick_group_blocked {bodies : Bodies} (hb : OwnTCBOnly bodies) (s : Sched) (now : Nat)
    (g : Nat) (hflag : s.group_suspended.getD g 0 ≠ 0) :
    ∀ r ∈ (scheduler_tick bodies s now).2, r.entry.task.group ≠ g := by
  intro r hr hc
  have h := tick_slot_lt hb s now hr
  rw [← h.2.1] at h
  have h3 := (ready_eq_true.mp h.2.2).2.2.1
  rw [hc] at h3
  exact hflag h3

theorem run_ticks_group_blocked {bodies : Bodies} (hb : OwnTCBOnly bodies) (nows : List Nat)
    (s : Sched) (g : Nat) (hflag : s.group_suspended.getD g 0 ≠ 0) :
    ∀ l ∈ (run_ticks bodies s nows).2, ∀ r ∈ l, r.entry.task.group ≠ g := by
  induction nows generalizing s with
  | nil => intro l hl; simp [run_ticks] at hl
  | cons now rest ih =>
    intro l hl
    simp only [run_ticks, List.mem_cons] at hl
    rcases hl with e | hl
    · rw [e]; exact tick_group_blocked hb s now g hflag
    · exact ih (scheduler_tick bodies s now).1
        (by rw [(tick_registries hb s now).1]; exact hflag) l hl

theorem group_suspend_flag (s : Sched) (hgs : s.group_suspended.length = MAX_GROUPS) (g : Nat)
    (hg : g < MAX_GROUPS) : (group_suspend s g).group_suspended.getD g 0 = 1 := by
  unfold group_suspend
  rw [if_pos hg]
  simp only
  rw [getD_set_nat, if_pos ⟨rfl, by omega⟩]

theorem group_resume_flag (s : Sched) (hgs : s.group_suspended.length = MAX_GROUPS) (g : Nat)
    (hg : g < MAX_GROUPS) : (group_resume s g).group_suspended.getD g 0 = 0 := by
  unfold group_resume
  rw [if_pos hg]
  simp only
  rw [getD_set_nat, if_pos ⟨rfl, by omega⟩]

theorem group_resume_task_list (s : Sched) (g : Nat) :
    (group_resume s g).task_list = s.task_list := by
  unfold group_resume; split <;> rfl

/-- C14: for a group `g` below `MAX_GROUPS` and task bodies that write only their own
TCB: after `group_suspend(g)`, over any number of ticks at any clock values, no task of
group `g` is invoked; after `group_resume(g)`, in the next tick and in every later one,
an active, not individually suspended task of group `g` is invoked if `now >= wake_time`
(as often as its entry occurs in the table) and is not invoked if `now < wake_time`. -/
theorem group_suspend_blocks_until_resume (bodies : Bodies) (hb : OwnTCBOnly bodies)
    (g : Nat) (hg : g < MAX_GROUPS) :
    (∀ (s : Sched), s.group_suspended.length = MAX_GROUPS → ∀ nows : List Nat,
      ∀ l ∈ (run_ticks bodies (group_suspend s g) nows).2, ∀ r ∈ l, r.entry.task.group ≠ g) ∧
    (∀ (s : Sched), s.group_suspended.length = MAX_GROUPS →
      s.task_list.length = MAX_TASKS → ∀ (nows : List Nat) (now : Nat) (e : TaskEntry),
      e.task.group = g → e.task.active ≠ 0 → e.task.suspended = 0 →
      (e.task.wake_time ≤ now →
        ((scheduler_tick bodies (run_ticks bodies (group_resume s g) nows).1 now).2.map
          Invocation.entry).count e =
          (run_ticks bodies (group_resume s g) nows).1.task_list.count e) ∧
      (now < e.task.wake_time →
        ((scheduler_tick bodies (run_ticks bodies (group_resume s g) nows).1 now).2.map
          Invocation.entry).count e = 0)) := by
  refine ⟨?_, ?_⟩
  · intro s hgs nows
    exact run_ticks_group_blocked hb nows (group_suspend s g) g
      (by rw [group_suspend_flag s hgs g hg]; decide)
  · intro s hgs hlen nows now e heg hea hes
    have hr := run_ticks_registries hb nows (group_resume s g)
    have hl : (run_ticks bodies (group_resume s g) nows).1.task_list.length = MAX_TASKS := by
      rw [hr.2.2, group_resume_task_list, hlen]
    have hf : (run_ticks bodies (group_resume s g) nows).1.group_suspended.getD e.task.group 0
        = 0 := by
      rw [hr.1, heg]; exact group_resume_flag s hgs g hg
    generalize (run_ticks bodies (group_resume s g) nows).1 = u at hl hf
    rw [tick_log_entries hb u now hl]
    refine ⟨?_, ?_⟩
    · intro hw
      have hrd : ready u.group_suspended now e = true := ready_eq_true.mpr ⟨hea, hes, hf, hw⟩
      rw [List.count_filter hrd]
      exact (sort_pass_perm u.task_list).count_eq e
    · intro hw
      rw [List.count_eq_zero]
      intro hm
      rw [List.mem_filter] at hm
      have := (ready_eq_true.mp hm.2).2.2.2
      omega

/-- C14 at the table of `coop_hc.c` and group 1: with the group suspended, three ticks
invoke only the tasks with ids 4, 1, 0; after `group_resume(1)` the next tick invokes
all five. -/
theorem group_suspend_blocks_until_resume_witness :
    OwnTCBOnly idle_bodies ∧ 1 < MAX_GROUPS ∧
    coop_main_sched.group_suspended.length = MAX_GROUPS ∧
    (run_ticks idle_bodies (group_suspend coop_main_sched 1) [0, 50, 100]).2.map
      (fun l => l.map (fun r => r.entry.task.id)) = [[4, 1, 0], [4, 1, 0], [4, 1, 0]] ∧
    (∀ l ∈ (run_ticks idle_bodies (group_suspend coop_main_sched 1) [0, 50, 100]).2,
      ∀ r ∈ l, r.entry.task.group ≠ 1) ∧
    (scheduler_tick idle_bodies
      (group_resume (run_ticks idle_bodies (group_suspend coop_main_sched 1) [0, 50, 100]).1 1)
      150).2.map (fun r => r.entry.task.id) = [4, 1, 3, 2, 0] :=
  ⟨idle_bodies_own, by decide, by decide, by decide,
    (group_suspend_blocks_until_resume idle_bodies idle_bodies_own 1 (by decide)).1
      coop_main_sched (by decide) [0, 50, 100],
    by decide⟩


/-! ## Ticks with bodies that are functions of the TCB -/

theorem tcb_bodies_own (step : Nat → Nat → Sched → Task → Task) : OwnTCBOnly (tcb_bodies step) := by
  intro f now i s
  refine ⟨rfl, rfl, by simp [tcb_bodies], ?_, ?_, ?_⟩
  · intro k hk
    simp only [tcb_bodies]
    rw [entry_at_set, if_neg (fun c => hk c.1)]
  · simp only [tcb_bodies]
    rw [entry_at_set]
    split <;> rfl
  · simp only [tcb_bodies]
    rw [entry_at_set]
    split <;> rfl

theorem invoke_slot_tcb (step : Nat → Nat → Sched → Task → Task) (now : Nat) (s : Sched)
    (i : Nat) (hi : i < s.task_list.length) :
    (invoke_slot (tcb_bodies step) now s i).1.user_mem = s.user_mem ∧
    entry_at (invoke_slot (tcb_bodies step) now s i).1.task_list i =
      invoked_entry step now { s with task_list := [] } (entry_at s.task_list i) := by
  have h1 : entry_at (stamp_slot now s i).task_list i = stamped now (entry_at s.task_list i) := by
    simp only [stamp_slot]
    rw [entry_at_set, if_pos ⟨rfl, hi⟩]
    rfl
  have hl1 : i < (stamp_slot now s i).task_list.length := by simp [stamp_slot, hi]
  have hg : ({ stamp_slot now s i with task_list := [] } : Sched) = { s with task_list := [] } :=
    rfl
  have hum : (stamp_slot now s i).user_mem = s.user_mem := rfl
  unfold invoke_slot
  simp only
  generalize stamp_slot now s i = S at h1 hl1 hg hum
  have hl2 : i < (tcb_bodies step (entry_at S.task_list i).func now i S).task_list.length := by
    simp [tcb_bodies, hl1]
  have h2 : (entry_at (tcb_bodies step (entry_at S.task_list i).func now i S).task_list i).task =
      step (entry_at s.task_list i).func now { s with task_list := [] }
        (stamped now (entry_at s.task_list i)).task := by
    simp only [tcb_bodies]
    rw [entry_at_set, if_pos ⟨rfl, hl1⟩, hg, h1]
    rfl
  have h3 : (entry_at (tcb_bodies step (entry_at S.task_list i).func now i S).task_list i).func =
      (entry_at s.task_list i).func ∧
      (entry_at (tcb_bodies step (entry_at S.task_list i).func now i S).task_list
        i).original_func = (entry_at s.task_list i).original_func := by
    simp only [tcb_bodies]
    rw [entry_at_set, if_pos ⟨rfl, hl1⟩, h1]
    exact ⟨rfl, rfl⟩
  have hum2 : (tcb_bodies step (entry_at S.task_list i).func now i S).user_mem = S.user_mem := rfl
  generalize tcb_bodies step (entry_at S.task_list i).func now i S = B at h2 h3 hl2 hum2
  refine ⟨?_, ?_⟩
  · unfold reap_slot
    simp only
    split
    · exact hum2.trans hum
    · exact hum2.trans hum
  · unfold reap_slot invoked_entry
    simp only
    rw [← h2]
    split
    · simp only
      rw [entry_at_set, if_pos ⟨rfl, hl2⟩, h3.1, h3.2]
    · rcases hB : entry_at B.task_list i with ⟨bt, bf, bo⟩
      rw [hB] at h3
      simp only at h3
      rw [h3.1, h3.2]

theorem dispatch_tcb_upto (step : Nat → Nat → Sched → Task → Task) (now : Nat) (s1 : Sched)
    (n : Nat) :
    ((List.range n).foldl (dispatch_slot (tcb_bodies step) now) (s1, [])).1.user_mem =
      s1.user_mem ∧
    ∀ k, entry_at ((List.range n).foldl (dispatch_slot (tcb_bodies step) now)
        (s1, [])).1.task_list k =
      if k < n ∧ ready s1.group_suspended now (entry_at s1.task_list k) = true then
        invoked_entry step now { s1 with task_list := [] } (entry_at s1.task_list k)
      else entry_at s1.task_list k := by
  induction n with
  | zero => exact ⟨rfl, fun k => by simp⟩
  | succ n ih =>
    have hinv := dispatch_upto (tcb_bodies_own step) now s1 n
    rw [List.range_succ, List.foldl_append, List.foldl_cons, List.foldl_nil]
    generalize (List.range n).foldl (dispatch_slot (tcb_bodies step) now) (s1, []) = acc
      at ih hinv
    have hn : entry_at acc.1.task_list n = entry_at s1.task_list n := hinv.2.2.2.1 n (le_refl n)
    have hg : ({ acc.1 with task_list := [] } : Sched) = { s1 with task_list := [] } := by
      cases hacc : acc.1 with
      | mk tl ef gs um =>
        have e1 := hinv.1; have e2 := hinv.2.1; have e3 := ih.1
        rw [hacc] at e1 e2 e3
        simp only at e1 e2 e3
        simp only [e1, e2, e3]
    cases hready : ready s1.group_suspended now (entry_at s1.task_list n) with
    | false =>
      have hr' : ready acc.1.group_suspended now (entry_at acc.1.task_list n) = false := by
        rw [hinv.1, hn]; exact hready
      rw [dispatch_slot_not_ready hr']
      refine ⟨ih.1, ?_⟩
      intro k
      rw [ih.2 k]
      by_cases hk : k = n
      · subst hk
        rw [if_neg (fun c => absurd c.1 (lt_irrefl k)), if_neg]
        intro c; rw [hready] at c; exact Bool.noConfusion c.2
      · by_cases hr : ready s1.group_suspended now (entry_at s1.task_list k) = true
        · by_cases hlt : k < n
          · rw [if_pos ⟨hlt, hr⟩, if_pos ⟨by omega, hr⟩]
          · rw [if_neg (fun c => hlt c.1), if_neg (fun c => by omega)]
        · rw [if_neg (fun c => hr c.2), if_neg (fun c => hr c.2)]
    | true =>
      have hr' : ready acc.1.group_suspended now (entry_at acc.1.task_list n) = true := by
        rw [hinv.1, hn]; exact hready
      rw [dispatch_slot_ready hr']
      have hlt : n < acc.1.task_list.length :=
        lt_length_of_active (by rw [hn]; exact (ready_eq_true.mp hready).1)
      have hi := invoke_slot_tcb step now acc.1 n hlt
      have hf := invoke_slot_frame (tcb_bodies_own step) now acc.1 n
      refine ⟨hi.1.trans ih.1, ?_⟩
      intro k
      simp only
      by_cases hk : k = n
      · subst hk
        rw [hi.2, hg, hn, if_pos ⟨by omega, hready⟩]
      · rw [hf.2.2.2 k hk, ih.2 k]
        by_cases hr : ready s1.group_suspended now (entry_at s1.task_list k) = true
        · by_cases hlt' : k < n
          · rw [if_pos ⟨hlt', hr⟩, if_pos ⟨by omega, hr⟩]
          · rw [if_neg (fun c => hlt' c.1), if_neg (fun c => by omega)]
        · rw [if_neg (fun c => hr c.2), if_neg (fun c => hr c.2)]

/-- Slot by slot, the table after a tick with bodies of `tcb_bodies step`: the entry of
the sorted table, invoked if it is ready, then reset if its deadline has passed. -/
theorem tick_tcb_entry (step : Nat → Nat → Sched → Task → Task) (s : Sched) (now : Nat)
    (k : Nat) (hk : k < MAX_TASKS) :
    entry_at (scheduler_tick (tcb_bodies step) s now).1.task_list k =
      if wd_expired now
          (if ready s.group_suspended now (entry_at (sort_pass s.task_list) k) = true then
            invoked_entry step now { s with task_list := [] } (entry_at (sort_pass s.task_list) k)
          else entry_at (sort_pass s.task_list) k) = true then
        restarted now
          (if ready s.group_suspended now (entry_at (sort_pass s.task_list) k) = true then
            invoked_entry step now { s with task_list := [] } (entry_at (sort_pass s.task_list) k)
          else entry_at (sort_pass s.task_list) k)
      else
        (if ready s.group_suspended now (entry_at (sort_pass s.task_list) k) = true then
          invoked_entry step now { s with task_list := [] } (entry_at (sort_pass s.task_list) k)
        else entry_at (sort_pass s.task_list) k) := by
  rw [scheduler_tick_fst, watchdog_check_entry]
  generalize sort_pass s.task_list = sorted
  have h := (dispatch_tcb_upto step now
    ⟨sorted, s.event_flags, s.group_suspended, s.user_mem⟩ MAX_TASKS).2 k
  dsimp only at h
  have hd : entry_at (dispatch (tcb_bodies step) now
      ⟨sorted, s.event_flags, s.group_suspended, s.user_mem⟩).1.task_list k =
      if ready s.group_suspended now (entry_at sorted k) = true then
        invoked_entry step now { s with task_list := [] } (entry_at sorted k)
      else entry_at sorted k := by
    unfold dispatch
    rw [h]
    by_cases hr : ready s.group_suspended now (entry_at sorted k) = true
    · rw [if_pos ⟨hk, hr⟩, if_pos hr]
    · rw [if_neg (fun c => hr c.2), if_neg hr]
  rw [hd]
  by_cases he : wd_expired now
      (if ready s.group_suspended now (entry_at sorted k) = true then
        invoked_entry step now { s with task_list := [] } (entry_at sorted k)
      else entry_at sorted k) = true
  · rw [if_pos ⟨hk, he⟩, if_pos he]
  · rw [if_neg (fun c => he c.2), if_neg he]

theorem tick_tcb_user_mem (step : Nat → Nat → Sched → Task → Task) (s : Sched) (now : Nat) :
    (scheduler_tick (tcb_bodies step) s now).1.user_mem = s.user_mem := by
  rw [scheduler_tick_fst]
  generalize sort_pass s.task_list = sorted
  have h := (dispatch_tcb_upto step now
    ⟨sorted, s.event_flags, s.group_suspended, s.user_mem⟩ MAX_TASKS).1
  dsimp only at h
  rw [(watchdog_check_keeps (dispatch (tcb_bodies step) now
    ⟨sorted, s.event_flags, s.group_suspended, s.user_mem⟩).1 now).2.2.1]
  unfold dispatch
  exact h


/-! ## The watchdog and a task that waits for an event -/

theorem ready_zero_entry (gs : List Nat) (now : Nat) : ready gs now zero_entry = false := by
  simp [ready, zero_entry, zero_task]

theorem wd_expired_zero_entry (now : Nat) : wd_expired now zero_entry = false := by
  simp [wd_expired, zero_entry, zero_task]

/-! ## Clock wrap-around and the delay macro -/

/-- C17 fails near the wrap of the clock: `task_once` is invoked in the tick at clock value 4294966000
and returns suspended in its delay (state 119, wake_time 4294966100); the deadline
stored before the call is `(4294966000 + 3000) mod 2 ^ 32 = 1704`, which the raw
comparison `millis() > watchdog_reset_time` of the watchdog pass of the same tick takes
as passed, so after the tick state and wake_time are 0 and not what the body left. -/
theorem watchdog_trips_in_same_tick_near_wrap :
    (scheduler_tick once_bodies late_once_sched 4294966000).2.map
      (fun r => (r.slot, r.returned.state, r.returned.wake_time, r.returned.watchdog_reset_time))
      = [(0, 119, 4294966100, 1704)] ∧
    (entry_at (scheduler_tick once_bodies late_once_sched 4294966000).1.task_list 0).task.state
      = 0 ∧
    (entry_at (scheduler_tick once_bodies late_once_sched 4294966000).1.task_list
      0).task.wake_time = 0 := by
  decide

/-- C18 fails at the wrap of the clock. Wake time: `task_flaky` is invoked in the tick at
`t0 = 4294963296` and enters its delay of `ms = 5000`, which stores
`wake_time = (t0 + 5000) mod 2 ^ 32 = 1000`; the next tick, at `t0 + 50`, finds
`millis() >= wake_time` and invokes the task, which leaves the delay and finishes, 50 ms
into a delay of 5000. Deadline: in the tick of `task_once` at `t0 = 4294966000` the
deadline stored is `(t0 + 3000) mod 2 ^ 32 = 1704`, and the watchdog pass of that tick
(`d = 0`) takes it as passed and resets the task. -/
theorem raw_time_comparisons_break_at_wrap :
    u32 (4294963296 + 5000) = 1000 ∧
    (scheduler_tick flaky_bodies late_flaky_sched 4294963296).2.map
      (fun r => (r.slot, r.returned.state, r.returned.wake_time)) = [(0, 229, 1000)] ∧
    (entry_at (scheduler_tick flaky_bodies late_flaky_sched 4294963296).1.task_list
      0).task.wake_time = 1000 ∧
    (scheduler_tick flaky_bodies (scheduler_tick flaky_bodies late_flaky_sched 4294963296).1
      4294963346).2.map (fun r => (r.slot, r.entry.task.wake_time, r.returned.state)) =
      [(0, 1000, -1)] ∧
    u32 (4294966000 + WATCHDOG_TIMEOUT_MS) = 1704 ∧
    (scheduler_tick once_bodies late_once_sched 4294966000).2.map
      (fun r => (r.slot, r.returned.watchdog_reset_time)) = [(0, 1704)] ∧
    (entry_at (scheduler_tick once_bodies late_once_sched 4294966000).1.task_list 0).task.state
      = 0 := by
  decide

theorem foldl_inv {α β : Type} (P : α → Prop) (f : α → β → α) (xs : List β)
    (hf : ∀ a x, P a → P (f a x)) (a : α) (h : P a) : P (xs.foldl f a) := by
  induction xs generalizing a with
  | nil => exact h
  | cons x xs ih => exact ih (f a x) (hf a x h)

theorem idle_bodies_keep_watchdog : KeepsWatchdogFields idle_bodies :=
  fun _ _ _ _ => ⟨rfl, rfl⟩

/-! ## `task_event_wait`, invocation by invocation -/

/-- C23: `task_event_wait` invoked from state 0 suspends at the resume marker 172 of its
`hc_task_wait_until` without finishing, whatever the value of the event flag (also when
the event is already set); invoked at the marker it suspends again at the same marker
while the flag is 0 and ends with `state = -1` when the flag is set, so that from the
marker it completes exactly when the event is set; no other field of the TCB changes. -/
theorem task_event_wait_suspends_until_set (flag : Nat) (t : Task) :
    (t.state = 0 → task_event_wait flag t = { t with state := 172 }) ∧
    (t.state = 172 → flag = 0 → task_event_wait flag t = { t with state := 172 }) ∧
    (t.state = 172 → flag ≠ 0 → task_event_wait flag t = { t with state := -1 }) ∧
    (t.state = 172 → ((task_event_wait flag t).state = -1 ↔ flag ≠ 0)) ∧
    (∀ (f now : Nat) (g : Sched),
      wait_step f now g t =
        task_event_wait (event_check g (g.user_mem.getD t.user_data 0).toNat) t) := by
  refine ⟨?_, ?_, ?_, ?_, fun _ _ _ => rfl⟩
  · intro h
    unfold task_event_wait
    rw [if_pos h]
  · intro h hf
    unfold task_event_wait
    rw [if_neg (by rw [h]; decide), if_pos h, if_neg (by simp [hf])]
  · intro h hf
    unfold task_event_wait
    rw [if_neg (by rw [h]; decide), if_pos h, if_pos hf]
  · intro h
    unfold task_event_wait
    rw [if_neg (by rw [h]; decide), if_pos h]
    by_cases hf : flag ≠ 0
    · rw [if_pos hf]; exact ⟨fun _ => hf, fun _ => rfl⟩
    · rw [if_neg hf]
      refine ⟨fun hc => ?_, fun hc => absurd hc hf⟩
      simp at hc

/-- C23 at the task of `wait_sched`: from state 0 with the event already set the first
invocation suspends at 172; the second one completes with the flag set and suspends
again with the flag clear. -/
theorem task_event_wait_suspends_until_set_witness :
    (entry_at wait_sched.task_list 0).task.state = 0 ∧
    (task_event_wait 1 (entry_at wait_sched.task_list 0).task).state = 172 ∧
    (task_event_wait 1 (task_event_wait 1 (entry_at wait_sched.task_list 0).task)).state = -1 ∧
    (task_event_wait 0 (task_event_wait 1 (entry_at wait_sched.task_list 0).task)).state = 172 ∧
    task_event_wait 1 (entry_at wait_sched.task_list 0).task =
      { (entry_at wait_sched.task_list 0).task with state := 172 } :=
  ⟨by decide, by decide, by decide, by decide,
    (task_event_wait_suspends_until_set 1 (entry_at wait_sched.task_list 0).task).1 (by decide)⟩

/-! ## The sort and the free slots -/

theorem register_task_fst_congr (s s' : Sched) (now func id prio group data : Nat)
    (h : ∀ k, (entry_at s'.task_list k).task.active = 0 ↔ (entry_at s.task_list k).task.active = 0) :
    (register_task s' now func id prio group data).1 =
      (register_task s now func id prio group data).1 := by
  by_cases hfull : ∀ i, i < MAX_TASKS → (entry_at s.task_list i).task.active ≠ 0
  · have hfull' : ∀ i, i < MAX_TASKS → (entry_at s'.task_list i).task.active ≠ 0 :=
      fun i hi hc => hfull i hi ((h i).mp hc)
    rw [register_task_full s now func id prio group data hfull,
      register_task_full s' now func id prio group data hfull']
  · have hex : ∃ i, i < MAX_TASKS ∧ (entry_at s.task_list i).task.active = 0 := by
      by_contra hc
      exact hfull (fun i hi ha => hc ⟨i, hi, ha⟩)
    obtain ⟨r, hr, hfree, hmin⟩ := first_inactive_exists s.task_list MAX_TASKS hex
    rw [register_task_free s now func id prio group data r hr hfree hmin,
      register_task_free s' now func id prio group data r hr ((h r).mpr hfree)
        (fun m hm hc => hmin m hm ((h m).mp hc))]

/-- C25: the sort pass of `scheduler_tick` only permutes the entries: for every table the
sorted table is a permutation of it (every `TaskEntry` value occurs as often before as
after), every inactive slot keeps its index and its contents, a slot is inactive after
the sort exactly if it was before, and `register_task` returns the same slot on the
sorted table as on the unsorted one. -/
theorem sort_pass_keeps_free_slots (s : Sched) :
    (sort_pass s.task_list).Perm s.task_list ∧
    (∀ e : TaskEntry, (sort_pass s.task_list).count e = s.task_list.count e) ∧
    (sort_pass s.task_list).length = s.task_list.length ∧
    (∀ k, (entry_at s.task_list k).task.active = 0 →
      entry_at (sort_pass s.task_list) k = entry_at s.task_list k) ∧
    (∀ k, (entry_at (sort_pass s.task_list) k).task.active = 0 ↔
      (entry_at s.task_list k).task.active = 0) ∧
    (∀ now func id prio group data : Nat,
      (register_task ⟨sort_pass s.task_list, s.event_flags, s.group_suspended, s.user_mem⟩
        now func id prio group data).1 = (register_task s now func id prio group data).1) := by
  have hf := sort_pass_frame s.task_list
  have hiff : ∀ k, (entry_at (sort_pass s.task_list) k).task.active = 0 ↔
      (entry_at s.task_list k).task.active = 0 := by
    intro k
    refine ⟨fun h => ?_, fun h => ?_⟩
    · by_contra hc
      exact hf.2.2 k hc h
    · rw [hf.2.1 k h]; exact h
  refine ⟨sort_pass_perm s.task_list, fun e => (sort_pass_perm s.task_list).count_eq e, hf.1,
    hf.2.1, hiff, ?_⟩
  intro now func id prio group data
  generalize sort_pass s.task_list = sorted at hiff
  exact register_task_fst_congr s ⟨sorted, s.event_flags, s.group_suspended, s.user_mem⟩
    now func id prio group data hiff

/-- C25 at the table of `coop_hc.c`: the sort moves the five active entries, the free
slots stay 5, 6, 7 and the next registration gets slot 5 either way. -/
theorem sort_pass_keeps_free_slots_witness :
    sort_pass coop_main_sched.task_list ≠ coop_main_sched.task_list ∧
    (sort_pass coop_main_sched.task_list).Perm coop_main_sched.task_list ∧
    (register_task ⟨sort_pass coop_main_sched.task_list, coop_main_sched.event_flags,
      coop_main_sched.group_suspended, coop_main_sched.user_mem⟩ 0 9 9 9 0 0).1 = 5 ∧
    (register_task coop_main_sched 0 9 9 9 0 0).1 = 5 :=
  ⟨by decide, (sort_pass_keeps_free_slots coop_main_sched).1, by decide, by decide⟩


/-! ## What the dispatch loop hands to a body -/

theorem dispatch_log_passed (bodies : Bodies) (now : Nat) (s : Sched) :
    ∀ r ∈ (dispatch bodies now s).2,
      r.entry.task.active ≠ 0 ∧ r.entry.task.suspended = 0 ∧ r.entry.task.wake_time ≤ now := by
  unfold dispatch
  apply foldl_inv (fun acc : Sched × List Invocation => ∀ r ∈ acc.2,
    r.entry.task.active ≠ 0 ∧ r.entry.task.suspended = 0 ∧ r.entry.task.wake_time ≤ now)
  · intro acc i hacc r hr
    unfold dispatch_slot at hr
    simp only at hr
    split at hr
    · exact hacc r hr
    · rename_i h1
      simp only [not_or, not_not] at h1
      split at hr
      · rename_i h2
        rcases List.mem_append.mp hr with h | h
        · exact hacc r h
        · have e : r = (invoke_slot bodies now acc.1 i).2 := by simpa using h
          rw [e, (invoke_slot_record bodies now acc.1 i).2]
          exact ⟨h1.1, h1.2.1, h2⟩
      · exact hacc r hr
  · intro r hr
    simp at hr

theorem invoke_slot_tcb_returned (step : Nat → Nat → Sched → Task → Task) (now : Nat) (s : Sched)
    (i : Nat) (hi : i < s.task_list.length) :
    (invoke_slot (tcb_bodies step) now s i).2.returned =
      step (entry_at s.task_list i).func now { s with task_list := [] }
        (stamped now (entry_at s.task_list i)).task := by
  have h1 : entry_at (stamp_slot now s i).task_list i = stamped now (entry_at s.task_list i) := by
    simp only [stamp_slot]
    rw [entry_at_set, if_pos ⟨rfl, hi⟩]
    rfl
  have hl1 : i < (stamp_slot now s i).task_list.length := by simp [stamp_slot, hi]
  have hg : ({ stamp_slot now s i with task_list := [] } : Sched) = { s with task_list := [] } :=
    rfl
  unfold invoke_slot
  simp only
  generalize stamp_slot now s i = S at h1 hl1 hg
  simp only [tcb_bodies]
  rw [entry_at_set, if_pos ⟨rfl, hl1⟩, hg, h1]
  rfl

theorem dispatch_tcb_log (step : Nat → Nat → Sched → Task → Task) (now : Nat) (s1 : Sched) :
    ∀ r ∈ (dispatch (tcb_bodies step) now s1).2,
      r.returned = step r.entry.func now { s1 with task_list := [] } (stamped now r.entry).task := by
  have key : (({ (dispatch (tcb_bodies step) now s1).1 with task_list := [] } : Sched) =
      { s1 with task_list := [] }) ∧
      ∀ r ∈ (dispatch (tcb_bodies step) now s1).2,
        r.returned = step r.entry.func now { s1 with task_list := [] }
          (stamped now r.entry).task := by
    unfold dispatch
    apply foldl_inv (fun acc : Sched × List Invocation =>
      (({ acc.1 with task_list := [] } : Sched) = { s1 with task_list := [] }) ∧
      ∀ r ∈ acc.2, r.returned = step r.entry.func now { s1 with task_list := [] }
        (stamped now r.entry).task)
    · intro acc i hacc
      unfold dispatch_slot
      simp only
      split
      · exact hacc
      · rename_i h1
        simp only [not_or, not_not] at h1
        split
        · have hlt : i < acc.1.task_list.length := lt_length_of_active h1.1
          have hf := invoke_slot_frame (tcb_bodies_own step) now acc.1 i
          have hu := (invoke_slot_tcb step now acc.1 i hlt).1
          have hret := invoke_slot_tcb_returned step now acc.1 i hlt
          refine ⟨?_, ?_⟩
          · rw [← hacc.1]
            simp only [Sched.mk.injEq, true_and]
            exact ⟨hf.2.1, hf.1, hu⟩
          · intro r hr
            rcases List.mem_append.mp hr with h | h
            · exact hacc.2 r h
            · have e : r = (invoke_slot (tcb_bodies step) now acc.1 i).2 := by simpa using h
              rw [e, hret, (invoke_slot_record (tcb_bodies step) now acc.1 i).2, hacc.1]
        · exact hacc
    · exact ⟨rfl, fun r hr => by simp at hr⟩
  exact key.2

theorem tick_tcb_log (step : Nat → Nat → Sched → Task → Task) (s : Sched) (now : Nat) :
    ∀ r ∈ (scheduler_tick (tcb_bodies step) s now).2,
      r.returned = step r.entry.func now { s with task_list := [] } (stamped now r.entry).task := by
  rw [scheduler_tick_snd]
  generalize sort_pass s.task_list = sorted
  have h := dispatch_tcb_log step now ⟨sorted, s.event_flags, s.group_suspended, s.user_mem⟩
  dsimp only at h
  exact h

/-! ## Tables with a single task, in slot 0 -/

theorem solo_sorted (tl : List TaskEntry) (hz : ∀ k, 1 ≤ k → entry_at tl k = zero_entry) :
    sort_pass tl = tl := by
  apply sort_pass_of_sorted
  intro j _ i hij _ haj
  exfalso
  apply haj
  rw [hz j (by omega)]
  rfl

theorem solo_ready_slots (tl : List TaskEntry) (hz : ∀ k, 1 ≤ k → entry_at tl k = zero_entry)
    (gs : List Nat) (now : Nat) :
    (List.range MAX_TASKS).filter (fun i => ready gs now (entry_at tl i)) =
      if ready gs now (entry_at tl 0) = true then [0] else [] := by
  have hr : List.range MAX_TASKS = 0 :: List.range' 1 7 := by decide
  have ht : (List.range' 1 7).filter (fun i => ready gs now (entry_at tl i)) = [] := by
    rw [List.filter_eq_nil_iff]
    intro a ha
    rw [List.mem_range'] at ha
    obtain ⟨i, _, rfl⟩ := ha
    rw [hz (1 + 1 * i) (by omega), ready_zero_entry]
    simp
  rw [hr, List.filter_cons, ht]

/-- One tick of a single-task table with bodies of `tcb_bodies step`. -/
theorem solo_tick (step : Nat → Nat → Sched → Task → Task) (s : Sched)
    (hlen : s.task_list.length = MAX_TASKS)
    (hz : ∀ k, 1 ≤ k → entry_at s.task_list k = zero_entry) (now : Nat) :
    (scheduler_tick (tcb_bodies step) s now).1.task_list.length = MAX_TASKS ∧
    (∀ k, 1 ≤ k → entry_at (scheduler_tick (tcb_bodies step) s now).1.task_list k = zero_entry) ∧
    (scheduler_tick (tcb_bodies step) s now).1.group_suspended = s.group_suspended ∧
    (scheduler_tick (tcb_bodies step) s now).1.event_flags = s.event_flags ∧
    (scheduler_tick (tcb_bodies step) s now).1.user_mem = s.user_mem ∧
    (ready s.group_suspended now (entry_at s.task_list 0) = false →
      (scheduler_tick (tcb_bodies step) s now).2 = [] ∧
      entry_at (scheduler_tick (tcb_bodies step) s now).1.task_list 0 =
        if wd_expired now (entry_at s.task_list 0) = true then
          restarted now (entry_at s.task_list 0)
        else entry_at s.task_list 0) ∧
    (ready s.group_suspended now (entry_at s.task_list 0) = true →
      (scheduler_tick (tcb_bodies step) s now).2.map Invocation.slot = [0] ∧
      (∀ r ∈ (scheduler_tick (tcb_bodies step) s now).2,
        r.entry = entry_at s.task_list 0 ∧
        r.returned = step (entry_at s.task_list 0).func now { s with task_list := [] }
          (stamped now (entry_at s.task_list 0)).task) ∧
      entry_at (scheduler_tick (tcb_bodies step) s now).1.task_list 0 =
        if wd_expired now (invoked_entry step now { s with task_list := [] }
            (entry_at s.task_list 0)) = true then
          restarted now (invoked_entry step now { s with task_list := [] }
            (entry_at s.task_list 0))
        else invoked_entry step now { s with task_list := [] } (entry_at s.task_list 0)) := by
  have hsp := solo_sorted s.task_list hz
  have hreg := tick_registries (tcb_bodies_own step) s now
  have hslots := tick_log_slots (tcb_bodies_own step) s now
  rw [hsp, solo_ready_slots s.task_list hz] at hslots
  have h0 := tick_tcb_entry step s now 0 (by decide)
  rw [hsp] at h0
  refine ⟨by rw [hreg.2.2, hlen], ?_, hreg.1, hreg.2.1, tick_tcb_user_mem step s now, ?_, ?_⟩
  · intro k hk1
    by_cases h8 : k < MAX_TASKS
    · rw [tick_tcb_entry step s now k h8, hsp, hz k hk1, ready_zero_entry]
      simp [wd_expired_zero_entry]
    · exact entry_at_of_length_le (by rw [hreg.2.2, hlen]; omega)
  · intro hr
    rw [hr] at hslots h0
    simp only [Bool.false_eq_true, if_false] at hslots h0
    exact ⟨List.map_eq_nil_iff.mp hslots, h0⟩
  · intro hr
    rw [hr] at hslots h0
    simp only [if_true] at hslots h0
    refine ⟨hslots, ?_, h0⟩
    intro r hrm
    have h1 := tick_slot_lt (tcb_bodies_own step) s now hrm
    have hs0 : r.slot = 0 := by
      have : r.slot ∈ (scheduler_tick (tcb_bodies step) s now).2.map Invocation.slot :=
        List.mem_map.mpr ⟨r, hrm, rfl⟩
      rw [hslots] at this
      simpa using this
    have he : r.entry = entry_at s.task_list 0 := by
      rw [h1.2.1, hsp, hs0]
    refine ⟨he, ?_⟩
    rw [tick_tcb_log step s now r hrm, he]


/-! ## The dispatcher and the delay macro -/

/-- C30: whenever `scheduler_tick` invokes a task, the TCB handed to its body has
`wake_time <= now` (the dispatcher stores only the two watchdog fields before the call);
so for a task suspended inside `hc_task_delay`, at any clock value from `now` on the loop
test `wake_time > millis()` is false at resumption: control leaves the macro with the
TCB untouched and `wake_time` is not re-armed. For `task_once` this means that resumed
in its first delay it goes on to the second delay, and resumed in the second it ends. -/
theorem delay_resuspend_unreachable (bodies : Bodies) (s : Sched) (now : Nat) (r : Invocation)
    (hr : r ∈ (scheduler_tick bodies s now).2) :
    r.entry.task.wake_time ≤ now ∧
    (stamped now r.entry).task.wake_time = r.entry.task.wake_time ∧
    (stamped now r.entry).task.state = r.entry.task.state ∧
    (∀ now' ms line : Nat, now ≤ now' →
      hc_task_delay_resume now' ms line (stamped now r.entry).task = none) ∧
    (∀ now' : Nat, now ≤ now' → r.entry.task.state = 119 →
      task_once now' (stamped now r.entry).task =
        hc_task_delay_arm now' 200 121 (stamped now r.entry).task) ∧
    (∀ now' : Nat, now ≤ now' → r.entry.task.state = 121 →
      task_once now' (stamped now r.entry).task =
        { (stamped now r.entry).task with state := -1 }) ∧
    (∀ step : Nat → Nat → Sched → Task → Task, bodies = tcb_bodies step →
      r.returned = step r.entry.func now { s with task_list := [] } (stamped now r.entry).task) := by
  have hw : r.entry.task.wake_time ≤ now := by
    rw [scheduler_tick_snd] at hr
    exact (dispatch_log_passed bodies now _ r hr).2.2
  have hres : ∀ now' ms line : Nat, now ≤ now' →
      hc_task_delay_resume now' ms line (stamped now r.entry).task = none := by
    intro now' ms line hle
    unfold hc_task_delay_resume
    rw [if_neg]
    show ¬ (r.entry.task.wake_time > now')
    omega
  refine ⟨hw, rfl, rfl, hres, ?_, ?_, ?_⟩
  · intro now' hle hst
    have h1 : (stamped now r.entry).task.state = 119 := hst
    unfold task_once
    rw [if_neg (by rw [h1]; decide), if_pos h1, hres now' 100 119 hle]
  · intro now' hle hst
    have h1 : (stamped now r.entry).task.state = 121 := hst
    unfold task_once
    rw [if_neg (by rw [h1]; decide), if_neg (by rw [h1]; decide), if_pos h1,
      hres now' 200 121 hle]
  · intro step hb
    subst hb
    exact tick_tcb_log step s now r hr

theorem delay_resuspend_unreachable_witness :
    resumed_once_record ∈ (scheduler_tick once_bodies delayed_once_sched 100).2 ∧
    resumed_once_record.entry.task.state = 119 ∧
    resumed_once_record.entry.task.wake_time = 100 ∧
    resumed_once_record.returned.state = 121 ∧
    (∀ now' ms line : Nat, 100 ≤ now' →
      hc_task_delay_resume now' ms line (stamped 100 resumed_once_record.entry).task = none) :=
  ⟨by decide, by decide, by decide, by decide,
    (delay_resuspend_unreachable once_bodies delayed_once_sched 100 resumed_once_record
      (by decide)).2.2.2.1⟩

/-! ## Scenario A -/

theorem empty_sched_entry (k : Nat) : entry_at empty_sched.task_list k = zero_entry := by
  by_cases h : k < 8
  · interval_cases k <;> rfl
  · exact entry_at_of_length_le (by show (8 : Nat) ≤ k; omega)

theorem scenario_a_fresh (t0 : Nat) :
    (scenario_a_sched t0).task_list.length = MAX_TASKS ∧
    (∀ k, 1 ≤ k → entry_at (scenario_a_sched t0).task_list k = zero_entry) ∧
    (scenario_a_sched t0).group_suspended.getD 0 0 = 0 ∧
    entry_at (scenario_a_sched t0).task_list 0 = new_entry t0 1 1 1 0 0 := by
  have h := register_task_free empty_sched t0 1 1 1 0 0 0 (by decide) (by decide)
    (by intro j hj; omega)
  have h2 : scenario_a_sched t0 =
      { empty_sched with task_list := empty_sched.task_list.set 0 (new_entry t0 1 1 1 0 0) } := by
    unfold scenario_a_sched; rw [h]
  rw [h2]
  refine ⟨by simp [empty_sched, MAX_TASKS], ?_, ?_, ?_⟩
  · intro k hk
    show entry_at (empty_sched.task_list.set 0 _) k = zero_entry
    rw [entry_at_set, if_neg (by omega), empty_sched_entry]
  · show empty_sched.group_suspended.getD 0 0 = 0
    decide
  · show entry_at (empty_sched.task_list.set 0 _) 0 = _
    rw [entry_at_set, if_pos ⟨rfl, by decide⟩]


theorem scenario_a_first_tick (t0 now1 : Nat) :
    (scheduler_tick delay_bodies (scenario_a_sched t0) now1).2.map Invocation.slot = [0] ∧
    (now1 + WATCHDOG_TIMEOUT_MS < 2 ^ 32 →
      DelayedSolo (scheduler_tick delay_bodies (scenario_a_sched t0) now1).1
        (now1 + 100) (now1 + WATCHDOG_TIMEOUT_MS)) := by
  unfold delay_bodies
  obtain ⟨hlen, hz, hg, h0⟩ := scenario_a_fresh t0
  have hready : ready (scenario_a_sched t0).group_suspended now1
      (entry_at (scenario_a_sched t0).task_list 0) = true := by
    rw [h0]
    simp [ready, new_entry, -List.getD_eq_getElem?_getD, hg]
  obtain ⟨hl1, hz1, hg1, -, -, -, hr⟩ := solo_tick delay_step (scenario_a_sched t0) hlen hz now1
  obtain ⟨hs, -, he⟩ := hr hready
  refine ⟨hs, ?_⟩
  intro hlt
  have hu1 : u32 (now1 + WATCHDOG_TIMEOUT_MS) = now1 + WATCHDOG_TIMEOUT_MS :=
    Nat.mod_eq_of_lt hlt
  have hu2 : u32 (now1 + 100) = now1 + 100 :=
    Nat.mod_eq_of_lt (by unfold WATCHDOG_TIMEOUT_MS at hlt; omega)
  have hinv : invoked_entry delay_step now1 { scenario_a_sched t0 with task_list := [] }
      (entry_at (scenario_a_sched t0).task_list 0) =
      { task := { state := 184, id := 1, active := 1, suspended := 0, group := 0,
                  priority := 1, wake_time := now1 + 100, last_run_time := now1, user_data := 0,
                  watchdog_enabled := 1,
                  watchdog_reset_time := now1 + WATCHDOG_TIMEOUT_MS },
        func := 1, original_func := 1 } := by
    rw [h0]
    simp [invoked_entry, delay_step, task_delay_finish, stamped, new_entry, hc_task_delay_arm,
      hu1, hu2]
  rw [hinv] at he
  have hnexp : wd_expired now1
      { task := { state := 184, id := 1, active := 1, suspended := 0, group := 0,
                  priority := 1, wake_time := now1 + 100, last_run_time := now1, user_data := 0,
                  watchdog_enabled := 1,
                  watchdog_reset_time := now1 + WATCHDOG_TIMEOUT_MS },
        func := 1, original_func := 1 } = false := by
    simp [wd_expired]
  rw [hnexp] at he
  simp only [Bool.false_eq_true, if_false] at he
  refine ⟨hl1, hz1, by rw [hg1]; exact hg, ?_⟩
  show (entry_at (scheduler_tick (tcb_bodies delay_step) (scenario_a_sched t0) now1).1.task_list 0).task.active = 1 ∧ _
  rw [he]
  exact ⟨rfl, rfl, rfl, rfl, rfl, rfl, rfl⟩

theorem delayed_solo_early (s : Sched) (wake deadline now : Nat) (h : DelayedSolo s wake deadline)
    (h1 : now < wake) (h2 : now ≤ deadline) :
    (scheduler_tick delay_bodies s now).2 = [] ∧
    DelayedSolo (scheduler_tick delay_bodies s now).1 wake deadline := by
  unfold delay_bodies
  obtain ⟨hlen, hz, hg, ha, hs, hgr, hwe, hst, hwk, hdl⟩ := h
  have hready : ready s.group_suspended now (entry_at s.task_list 0) = false := by
    simp [ready, ha, hs, hgr, hg, hwk, h1, -List.getD_eq_getElem?_getD]
  have hnexp : wd_expired now (entry_at s.task_list 0) = false := by
    simp [wd_expired, hdl]
    intro _ _
    exact h2
  obtain ⟨hl1, hz1, hg1, -, -, hr, -⟩ := solo_tick delay_step s hlen hz now
  obtain ⟨hlog, he⟩ := hr hready
  rw [hnexp] at he
  simp only [Bool.false_eq_true, if_false] at he
  refine ⟨hlog, hl1, hz1, by rw [hg1]; exact hg, ?_⟩
  show (entry_at (scheduler_tick (tcb_bodies delay_step) s now).1.task_list 0).task.active = 1 ∧ _
  rw [he]
  exact ⟨ha, hs, hgr, hwe, hst, hwk, hdl⟩

theorem delayed_solo_due (s : Sched) (wake deadline now : Nat) (h : DelayedSolo s wake deadline)
    (h1 : wake ≤ now) :
    (scheduler_tick delay_bodies s now).2.map Invocation.slot = [0] ∧
    (∀ r ∈ (scheduler_tick delay_bodies s now).2,
      r.returned.state = -1 ∧ r.returned.wake_time = wake) ∧
    (entry_at (scheduler_tick delay_bodies s now).1.task_list 0).task.active = 0 := by
  unfold delay_bodies
  obtain ⟨hlen, hz, hg, ha, hs, hgr, hwe, hst, hwk, hdl⟩ := h
  have hready : ready s.group_suspended now (entry_at s.task_list 0) = true := by
    simp [ready, ha, hs, hgr, hg, hwk, h1, -List.getD_eq_getElem?_getD]
  have hret : delay_step (entry_at s.task_list 0).func now { s with task_list := [] }
      (stamped now (entry_at s.task_list 0)).task =
      { (stamped now (entry_at s.task_list 0)).task with state := -1 } := by
    have e1 : (stamped now (entry_at s.task_list 0)).task.state = 184 := hst
    have e2 : (stamped now (entry_at s.task_list 0)).task.wake_time = wake := hwk
    unfold delay_step task_delay_finish hc_task_delay_resume
    rw [if_neg (by rw [e1]; decide), if_pos (by rw [e1]; rfl), if_neg (by rw [e2]; omega)]
  obtain ⟨-, -, -, -, -, -, hr⟩ := solo_tick delay_step s hlen hz now
  obtain ⟨hlog, hrec, he⟩ := hr hready
  refine ⟨hlog, ?_, ?_⟩
  · intro r hmem
    rw [(hrec r hmem).2, hret]
    exact ⟨rfl, hwk⟩
  · have hinv : (invoked_entry delay_step now { s with task_list := [] }
        (entry_at s.task_list 0)).task.active = 0 := by
      unfold invoked_entry
      simp only [hret]
      rfl
    have hnexp : wd_expired now (invoked_entry delay_step now { s with task_list := [] }
        (entry_at s.task_list 0)) = false := by
      simp [wd_expired, hinv]
    rw [hnexp] at he
    simp only [Bool.false_eq_true, if_false] at he
    rw [he, hinv]

/-- C21 (counterexample): Scenario A with t0 = 1000. The tick at t0 + 50 invokes the task
(registration leaves `wake_time = 0`); the body enters the delay there, with wake time
t0 + 150. The tick at t0 + 110 then invokes nothing, and the slot is still active. -/
theorem first_tick_invokes_delay_task :
    (scheduler_tick delay_bodies (scenario_a_sched 1000) 1050).2.map
        (fun r => (r.slot, r.returned.state, r.returned.wake_time)) = [(0, 184, 1150)] ∧
    (scheduler_tick delay_bodies
        (scheduler_tick delay_bodies (scenario_a_sched 1000) 1050).1 1110).2 = [] ∧
    (entry_at (scheduler_tick delay_bodies
        (scheduler_tick delay_bodies (scenario_a_sched 1000) 1050).1 1110).1.task_list
      0).task.active = 1 := by
  decide

/-- C21 (amended): for the task of Scenario A registered at clock value t0, the first tick
after registration, at any clock value t1, invokes the task, and the body enters the
delay with wake time t1 + 100. Provided t1 + 3000 does not wrap: the tick at t1 + 50
invokes nothing, and the tick at t1 + 110 invokes the task, the body returns with
state -1, and the slot is inactive afterwards. -/
theorem delay_counts_from_first_invocation (t0 t1 : Nat)
    (h : t1 + WATCHDOG_TIMEOUT_MS < 2 ^ 32) :
    (scheduler_tick delay_bodies (scenario_a_sched t0) t1).2.map Invocation.slot = [0] ∧
    (entry_at (scheduler_tick delay_bodies (scenario_a_sched t0) t1).1.task_list 0).task.state
      = 184 ∧
    (entry_at (scheduler_tick delay_bodies (scenario_a_sched t0) t1).1.task_list
      0).task.wake_time = t1 + 100 ∧
    (scheduler_tick delay_bodies
      (scheduler_tick delay_bodies (scenario_a_sched t0) t1).1 (t1 + 50)).2 = [] ∧
    (scheduler_tick delay_bodies
      (scheduler_tick delay_bodies
        (scheduler_tick delay_bodies (scenario_a_sched t0) t1).1 (t1 + 50)).1
      (t1 + 110)).2.map Invocation.slot = [0] ∧
    (∀ r ∈ (scheduler_tick delay_bodies
      (scheduler_tick delay_bodies
        (scheduler_tick delay_bodies (scenario_a_sched t0) t1).1 (t1 + 50)).1
      (t1 + 110)).2, r.returned.state = -1) ∧
    (entry_at (scheduler_tick delay_bodies
      (scheduler_tick delay_bodies
        (scheduler_tick delay_bodies (scenario_a_sched t0) t1).1 (t1 + 50)).1
      (t1 + 110)).1.task_list 0).task.active = 0 := by
  obtain ⟨hlog1, hd1⟩ := scenario_a_first_tick t0 t1
  have hd := hd1 h
  obtain ⟨hlog2, hd2⟩ := delayed_solo_early _ _ _ (t1 + 50) hd (by omega)
    (by unfold WATCHDOG_TIMEOUT_MS; omega)
  obtain ⟨hlog3, hret3, hact3⟩ := delayed_solo_due _ _ _ (t1 + 110) hd2 (by omega)
  exact ⟨hlog1, hd.2.2.2.2.2.2.2.1, hd.2.2.2.2.2.2.2.2.1, hlog2, hlog3,
    fun r hr => (hret3 r hr).1, hact3⟩

theorem delay_counts_from_first_invocation_witness :
    1000 + WATCHDOG_TIMEOUT_MS < 2 ^ 32 ∧
    (scheduler_tick delay_bodies (scenario_a_sched 1000) 1000).2.map Invocation.slot = [0] ∧
    (scheduler_tick delay_bodies
      (scheduler_tick delay_bodies (scenario_a_sched 1000) 1000).1 (1000 + 50)).2 = [] ∧
    (entry_at (scheduler_tick delay_bodies
      (scheduler_tick delay_bodies
        (scheduler_tick delay_bodies (scenario_a_sched 1000) 1000).1 (1000 + 50)).1
      (1000 + 110)).1.task_list 0).task.active = 0 :=
  ⟨by decide, (delay_counts_from_first_invocation 1000 1000 (by decide)).1,
    (delay_counts_from_first_invocation 1000 1000 (by decide)).2.2.2.1,
    (delay_counts_from_first_invocation 1000 1000 (by decide)).2.2.2.2.2.2⟩


/-! ## The rate-limited logger -/

/-- C22: `task_logger` invoked at clock value `now` with `_last_run = L` (both
`uint32_t`): the test compares `(now - L) mod 2^32` with 1000; below 1000 the invocation
returns without logging and leaves `L`; otherwise it stores `now` in `_last_run` and
logs. In both cases the TCB is returned as it was handed over (state and `wake_time`
included), so an entry that passed the readiness tests at `now` passes them at every
later clock value. On the table of `super_sched.c` the logger is invoked on every tick,
and `_last_run` moves only on the ticks at 1000 and 2000. -/
theorem task_logger_rate_limit (L now : Nat) (t : Task) (hL : L < 2 ^ 32) :
    ((sub32 now L : Nat) : Int) = ((now : Int) - (L : Int)) % 2 ^ 32 ∧
    (sub32 now L < 1000 →
      task_logger L now t = { last_run := L, logged := false, task := t }) ∧
    (1000 ≤ sub32 now L →
      task_logger L now t = { last_run := now, logged := true, task := t }) ∧
    (task_logger L now t).task = t ∧
    (task_logger L now t).task.state = t.state ∧
    (task_logger L now t).task.wake_time = t.wake_time ∧
    (∀ (gs : List Nat) (e : TaskEntry) (now' : Nat), ready gs now e = true → now ≤ now' →
      ready gs now' { e with task := (task_logger L now (stamped now e).task).task } = true) ∧
    (run_ticks logger_bodies logger_sched [0, 500, 1000, 1500, 2000]).2.map
      (fun l => l.map Invocation.slot) = [[0], [0], [0], [0], [0]] ∧
    (tick_trace logger_bodies logger_sched [0, 500, 1000, 1500, 2000]).map
      (fun s => s.user_mem) = [[0], [0], [1000], [1000], [2000]] := by
  have ht : (task_logger L now t).task = t := by
    unfold task_logger; split <;> rfl
  refine ⟨?_, ?_, ?_, ht, by rw [ht], by rw [ht], ?_, by decide, by decide⟩
  · unfold sub32
    rw [Nat.mod_eq_of_lt hL]
    omega
  · intro h
    unfold task_logger
    rw [if_pos h]
  · intro h
    unfold task_logger
    rw [if_neg (by omega)]
  · intro gs e now' hr hle
    have ht2 : (task_logger L now (stamped now e).task).task = (stamped now e).task := by
      unfold task_logger; split <;> rfl
    rw [ht2]
    rw [ready_eq_true] at hr ⊢
    exact ⟨hr.1, hr.2.1, hr.2.2.1, le_trans hr.2.2.2 hle⟩

theorem task_logger_rate_limit_witness :
    (4294967290 : Nat) < 2 ^ 32 ∧
    sub32 5 4294967290 = 11 ∧
    task_logger 4294967290 5 zero_task =
      { last_run := 4294967290, logged := false, task := zero_task } :=
  ⟨by decide, by decide,
    (task_logger_rate_limit 4294967290 5 zero_task (by decide)).2.1 (by decide)⟩


/-! ## The yield test -/

theorem main_loop_done (fuel : Nat) (t : TestSched.Task) (hs : t.state = -1) :
    TestSched.main_loop fuel t = TestSched.Run.finished 0 t := by
  cases fuel <;> simp [TestSched.main_loop, hs]

theorem main_loop_step (fuel : Nat) (t t1 t2 : TestSched.Task) (calls : Nat)
    (hs : t.state ≠ -1) (hp : TestSched.task_print t = some t1)
    (hr : TestSched.main_loop fuel t1 = TestSched.Run.finished calls t2) :
    TestSched.main_loop (fuel + 1) t = TestSched.Run.finished (calls + 1) t2 := by
  rw [TestSched.main_loop, if_neg hs, hp]
  simp only [hr]

theorem main_loop_short (fuel : Nat) (t t1 : TestSched.Task)
    (hs : t.state ≠ -1) (hp : TestSched.task_print t = some t1)
    (hr : TestSched.main_loop fuel t1 = TestSched.Run.out_of_fuel) :
    TestSched.main_loop (fuel + 1) t = TestSched.Run.out_of_fuel := by
  rw [TestSched.main_loop, if_neg hs, hp]
  simp only [hr]

theorem main_loop_zero (t : TestSched.Task) (hs : t.state ≠ -1) :
    TestSched.main_loop 0 t = TestSched.Run.out_of_fuel := by
  rw [TestSched.main_loop, if_neg hs]

/-- C24: `task_print` started at state 0 with counter `c` (the three increments staying
within `int`): the first three invocations each add 1 to the counter and stop at the
markers 23, 26 and 29, which differ from each other and from -1; the fourth sets the
state to -1 and leaves the counter. The driver loop ends after exactly 4 calls with
counter `c + 3`: it does so with any allowance of at least 4 calls, and is still running
after fewer. -/
theorem task_print_four_invocations (c : Int) (h : c + 3 ≤ TestSched.INT_MAX) :
    TestSched.task_print { state := 0, counter := c } = some { state := 23, counter := c + 1 } ∧
    TestSched.task_print { state := 23, counter := c + 1 } =
      some { state := 26, counter := c + 2 } ∧
    TestSched.task_print { state := 26, counter := c + 2 } =
      some { state := 29, counter := c + 3 } ∧
    TestSched.task_print { state := 29, counter := c + 3 } =
      some { state := -1, counter := c + 3 } ∧
    (∀ fuel, 4 ≤ fuel → TestSched.main_loop fuel { state := 0, counter := c } =
      TestSched.Run.finished 4 { state := -1, counter := c + 3 }) ∧
    (∀ fuel, fuel < 4 → TestSched.main_loop fuel { state := 0, counter := c } =
      TestSched.Run.out_of_fuel) := by
  unfold TestSched.INT_MAX at h
  have h1 : TestSched.task_print { state := 0, counter := c } =
      some { state := 23, counter := c + 1 } := by
    have hc : c < 2147483647 := by omega
    simp [TestSched.task_print, TestSched.post_incr, TestSched.INT_MAX, hc]
  have h2 : TestSched.task_print { state := 23, counter := c + 1 } =
      some { state := 26, counter := c + 2 } := by
    have hc : c + 1 < 2147483647 := by omega
    simp [TestSched.task_print, TestSched.post_incr, TestSched.INT_MAX, hc]
    omega
  have h3 : TestSched.task_print { state := 26, counter := c + 2 } =
      some { state := 29, counter := c + 3 } := by
    have hc : c + 2 < 2147483647 := by omega
    simp [TestSched.task_print, TestSched.post_incr, TestSched.INT_MAX, hc]
    omega
  have h4 : TestSched.task_print { state := 29, counter := c + 3 } =
      some { state := -1, counter := c + 3 } := by
    simp [TestSched.task_print]
  have n0 : (0 : Int) ≠ -1 := by decide
  have n23 : (23 : Int) ≠ -1 := by decide
  have n26 : (26 : Int) ≠ -1 := by decide
  have n29 : (29 : Int) ≠ -1 := by decide
  refine ⟨h1, h2, h3, h4, ?_, ?_⟩
  · intro fuel hf
    obtain ⟨k, rfl⟩ : ∃ k, fuel = k + 4 := ⟨fuel - 4, by omega⟩
    exact main_loop_step (k + 3) _ _ _ 3 n0 h1
      (main_loop_step (k + 2) _ _ _ 2 n23 h2
        (main_loop_step (k + 1) _ _ _ 1 n26 h3
          (main_loop_step k _ _ _ 0 n29 h4 (main_loop_done k _ rfl))))
  · intro fuel hf
    interval_cases fuel
    · exact main_loop_zero _ n0
    · exact main_loop_short 0 _ _ n0 h1 (main_loop_zero _ n23)
    · exact main_loop_short 1 _ _ n0 h1
        (main_loop_short 0 _ _ n23 h2 (main_loop_zero _ n26))
    · exact main_loop_short 2 _ _ n0 h1
        (main_loop_short 1 _ _ n23 h2
          (main_loop_short 0 _ _ n26 h3 (main_loop_zero _ n29)))

theorem task_print_four_invocations_witness :
    (0 : Int) + 3 ≤ TestSched.INT_MAX ∧
    TestSched.main_loop 4 { state := 0, counter := 0 } =
      TestSched.Run.finished 4 { state := -1, counter := 0 + 3 } ∧
    TestSched.main_loop 3 { state := 0, counter := 0 } = TestSched.Run.out_of_fuel :=
  ⟨by decide, (task_print_four_invocations 0 (by decide)).2.2.2.2.1 4 (by decide),
    (task_print_four_invocations 0 (by decide)).2.2.2.2.2 3 (by decide)⟩


/-! ## The tick-counting scheduler -/

theorem adv_tick_task_wait (body : AdvTest.Task → AdvTest.Task) (t : AdvTest.Task)
    (hs : t.state ≠ -1) (hd : 1 < t.delay) :
    AdvTest.tick_task body t = ({ t with delay := t.delay - 1 }, false) := by
  unfold AdvTest.tick_task
  rw [if_pos hs]
  have h1 : t.delay > 0 := by omega
  simp only [h1, if_true]
  rw [if_neg]
  show ¬ (t.delay - 1 = 0)
  omega

theorem adv_tick_task_due (body : AdvTest.Task → AdvTest.Task) (t : AdvTest.Task)
    (hs : t.state ≠ -1) (hd : t.delay = 1) :
    AdvTest.tick_task body t = (body { t with delay := 0 }, true) := by
  unfold AdvTest.tick_task
  rw [if_pos hs]
  have h1 : t.delay > 0 := by omega
  simp only [h1, if_true]
  rw [if_pos (show t.delay - 1 = 0 by omega)]
  have h2 : t.delay - 1 = 0 := by omega
  rw [h2]

theorem adv_tick_task_finished (body : AdvTest.Task → AdvTest.Task) (t : AdvTest.Task)
    (hs : t.state = -1) : AdvTest.tick_task body t = (t, false) := by
  unfold AdvTest.tick_task
  rw [if_neg (by rw [hs]; decide)]

theorem adv_run_task_wait (body : AdvTest.Task → AdvTest.Task) :
    ∀ (j n : Nat) (t : AdvTest.Task), t.state ≠ -1 → t.delay = (n : Int) → j < n →
      AdvTest.run_task body j t = ({ t with delay := (n : Int) - (j : Int) },
        List.replicate j false) := by
  intro j
  induction j with
  | zero =>
    intro n t _ hd _
    cases t
    simp only [AdvTest.run_task, List.replicate_zero, Prod.mk.injEq, and_true]
    simp only at hd
    simp [hd]
  | succ j ih =>
    intro n t hs hd hj
    have hw := adv_tick_task_wait body t hs (by omega)
    have hi := ih (n - 1) { t with delay := t.delay - 1 } hs (by show t.delay - 1 = _; omega)
      (by omega)
    rw [AdvTest.run_task, hw]
    simp only
    rw [hi]
    simp only [List.replicate_succ, Prod.mk.injEq, and_true]
    have e : ((n - 1 : Nat) : Int) - (j : Int) = (n : Int) - ((j + 1 : Nat) : Int) := by omega
    rw [e]

theorem adv_run_task_due (body : AdvTest.Task → AdvTest.Task) :
    ∀ (n : Nat) (t : AdvTest.Task), t.state ≠ -1 → t.delay = (n : Int) → 1 ≤ n →
      AdvTest.run_task body n t = (body { t with delay := 0 },
        List.replicate (n - 1) false ++ [true]) := by
  intro n
  induction n with
  | zero => intro t _ _ h; omega
  | succ n ih =>
    intro t hs hd _
    by_cases h1 : n = 0
    · subst h1
      have hw := adv_tick_task_due body t hs (by simpa using hd)
      rw [AdvTest.run_task, hw]
      simp [AdvTest.run_task]
    · have hw := adv_tick_task_wait body t hs (by omega)
      have hi := ih { t with delay := t.delay - 1 } hs (by show t.delay - 1 = _; omega)
        (by omega)
      rw [AdvTest.run_task, hw]
      simp only
      rw [hi]
      obtain ⟨m, rfl⟩ : ∃ m, n = m + 1 := ⟨n - 1, by omega⟩
      simp [List.replicate_succ]

theorem adv_run_task_finished (body : AdvTest.Task → AdvTest.Task) :
    ∀ (j : Nat) (t : AdvTest.Task), t.state = -1 →
      AdvTest.run_task body j t = (t, List.replicate j false) := by
  intro j
  induction j with
  | zero => intro t _; rfl
  | succ j ih =>
    intro t hs
    rw [AdvTest.run_task, adv_tick_task_finished body t hs]
    simp only
    rw [ih t hs]
    rfl

/-- C26: in `advtest_hc.c`, a task left by `hc_task_delay(task, n)`, `n >= 1`, with
`delay = n` and its resume marker as state: during the next `j < n` ticks its function is
not called and `delay` counts down to `n - j`; in the `n`-th tick the function is called
with `delay = 0`, where the loop test of the macro fails and control goes on after the
delay (`task_blink` resumed at line 35 goes on to the delay of line 37, `task_once`
resumed at line 61 ends). A task at state -1 is never called and keeps its `delay`.
On a table of three tasks `scheduler_tick` applies this step to each slot; on the
table of `main`, `task_blink` is called in ticks 0, 3 and 6. -/
theorem tick_delay_counts_ticks (body : AdvTest.Task → AdvTest.Task) (t : AdvTest.Task)
    (n : Nat) (hn : 1 ≤ n) (hs : t.state ≠ -1) (hd : t.delay = (n : Int)) :
    (∀ j, j < n → AdvTest.run_task body j t =
      ({ t with delay := (n : Int) - (j : Int) }, List.replicate j false)) ∧
    AdvTest.run_task body n t =
      (body { t with delay := 0 }, List.replicate (n - 1) false ++ [true]) ∧
    (∀ ticks line : Int, AdvTest.hc_task_delay_resume ticks line { t with delay := 0 } = none) ∧
    (∀ (ticks line : Int) (u : AdvTest.Task),
      (AdvTest.hc_task_delay_arm ticks line u).delay = ticks ∧
      (AdvTest.hc_task_delay_arm ticks line u).state = line) ∧
    (t.state = 35 → AdvTest.task_blink { t with delay := 0 } =
      { t with delay := 3, state := 37 }) ∧
    (t.state = 61 → AdvTest.task_once { t with delay := 0 } =
      { t with delay := 0, state := -1 }) ∧
    (∀ (j : Nat) (u : AdvTest.Task), u.state = -1 →
      AdvTest.run_task body j u = (u, List.replicate j false)) ∧
    (∀ (bodies : Nat → AdvTest.Task → AdvTest.Task) (a b c : AdvTest.TaskEntry),
      (AdvTest.scheduler_tick bodies [a, b, c]).1 =
        [{ a with task := (AdvTest.tick_task (bodies a.func) a.task).1 },
         { b with task := (AdvTest.tick_task (bodies b.func) b.task).1 },
         { c with task := (AdvTest.tick_task (bodies c.func) c.task).1 }]) ∧
    AdvTest.run_main AdvTest.main_bodies 7 AdvTest.main_tasks =
      [[0, 1, 2], [2], [1, 2], [0], [1], [], [0, 1]] := by
  refine ⟨fun j hj => adv_run_task_wait body j n t hs hd hj, adv_run_task_due body n t hs hd hn,
    ?_, fun _ _ _ => ⟨rfl, rfl⟩, ?_, ?_, adv_run_task_finished body, ?_, by decide⟩
  · intro ticks line
    unfold AdvTest.hc_task_delay_resume
    rw [if_neg]
    show ¬ ((0 : Int) > 0)
    decide
  · intro h
    have e : ({ t with delay := 0 } : AdvTest.Task).state = 35 := h
    unfold AdvTest.task_blink AdvTest.hc_task_delay_resume
    rw [if_neg (by rw [e]; decide), if_pos e, if_neg (show ¬ ((0 : Int) > 0) by decide)]
    rfl
  · intro h
    have e : ({ t with delay := 0 } : AdvTest.Task).state = 61 := h
    unfold AdvTest.task_once AdvTest.hc_task_delay_resume
    rw [if_neg (by rw [e]; decide), if_neg (by rw [e]; decide), if_pos e,
      if_neg (show ¬ ((0 : Int) > 0) by decide)]
  · intro bodies a b c
    rfl

theorem tick_delay_counts_ticks_witness :
    1 ≤ 3 ∧ (35 : Int) ≠ -1 ∧
    AdvTest.run_task AdvTest.task_blink 2 { state := 35, delay := 3, id := 0 } =
      ({ state := 35, delay := 1, id := 0 }, [false, false]) ∧
    AdvTest.run_task AdvTest.task_blink 3 { state := 35, delay := 3, id := 0 } =
      ({ state := 37, delay := 3, id := 0 }, [false, false, true]) :=
  ⟨by decide, by decide,
    (tick_delay_counts_ticks AdvTest.task_blink { state := 35, delay := 3, id := 0 } 3
      (by decide) (by decide) rfl).1 2 (by decide),
    (tick_delay_counts_ticks AdvTest.task_blink { state := 35, delay := 3, id := 0 } 3
      (by decide) (by decide) rfl).2.1⟩


/-! ## The traffic light -/

theorem run_updates_add (a b : Nat) (m : TrafficLight.Machine) :
    TrafficLight.run_updates (a + b) m =
      TrafficLight.run_updates b (TrafficLight.run_updates a m) := by
  induction a generalizing m with
  | zero => simp [TrafficLight.run_updates]
  | succ a ih =>
    rw [show a + 1 + b = (a + b) + 1 by omega, TrafficLight.run_updates, ih]
    rfl

theorem run_updates_cycle (q : Nat) :
    TrafficLight.run_updates (16 * q) TrafficLight.initial = TrafficLight.initial := by
  induction q with
  | zero => rfl
  | succ q ih =>
    rw [show 16 * (q + 1) = 16 * q + 16 by omega, run_updates_add, ih]
    decide

theorem run_updates_mod (k : Nat) :
    TrafficLight.run_updates k TrafficLight.initial =
      TrafficLight.run_updates (k % 16) TrafficLight.initial := by
  conv_lhs => rw [← Nat.div_add_mod k 16]
  rw [run_updates_add, run_updates_cycle]

/-- C27: from (`TRAFFIC_STOP`, timer 0) the calls of `state_update` go through STOP,
WARN_1, WARN_2, GO and back to STOP: the state after 0 to 16 calls is listed, it changes
in exactly the 5th, 8th, 10th and 16th call, the state variables are back at
(`TRAFFIC_STOP`, 0) after 16 calls and the run repeats with period 16; after any number
of calls the timer is at least 0 and below the duration of the current state. -/
theorem traffic_light_cycle :
    (List.range 17).map
      (fun k => (TrafficLight.run_updates k TrafficLight.initial).current_state) =
      [0, 0, 0, 0, 0, 1, 1, 1, 2, 2, 3, 3, 3, 3, 3, 3, 0] ∧
    (List.range 16).filter
      (fun k => decide ((TrafficLight.run_updates (k + 1) TrafficLight.initial).current_state ≠
        (TrafficLight.run_updates k TrafficLight.initial).current_state)) = [4, 7, 9, 15] ∧
    TrafficLight.run_updates 16 TrafficLight.initial = TrafficLight.initial ∧
    (∀ k, TrafficLight.run_updates (k + 16) TrafficLight.initial =
      TrafficLight.run_updates k TrafficLight.initial) ∧
    (∀ k, 0 ≤ (TrafficLight.run_updates k TrafficLight.initial).state_timer ∧
      (TrafficLight.run_updates k TrafficLight.initial).state_timer <
        TrafficLight.state_duration
          (TrafficLight.run_updates k TrafficLight.initial).current_state) ∧
    (∀ k, (TrafficLight.run_updates k TrafficLight.initial).current_state ≤
      TrafficLight.TRAFFIC_GO) := by
  have hb : ∀ r, r < 16 →
      (0 ≤ (TrafficLight.run_updates r TrafficLight.initial).state_timer ∧
      (TrafficLight.run_updates r TrafficLight.initial).state_timer <
        TrafficLight.state_duration
          (TrafficLight.run_updates r TrafficLight.initial).current_state) ∧
      (TrafficLight.run_updates r TrafficLight.initial).current_state ≤
        TrafficLight.TRAFFIC_GO := by
    decide
  refine ⟨by decide, by decide, by decide, ?_, ?_, ?_⟩
  · intro k
    rw [Nat.add_comm, run_updates_add]
    have h16 : TrafficLight.run_updates 16 TrafficLight.initial = TrafficLight.initial := by
      decide
    rw [h16]
  · intro k
    rw [run_updates_mod k]
    exact (hb (k % 16) (Nat.mod_lt k (by decide))).1
  · intro k
    rw [run_updates_mod k]
    exact (hb (k % 16) (Nat.mod_lt k (by decide))).2

theorem fault_1_fixed (k : Nat) (timer : Int) :
    TrafficLight.run_updates k
        { current_state := TrafficLight.TRAFFIC_FAULT_1, state_timer := timer } =
      { current_state := TrafficLight.TRAFFIC_FAULT_1, state_timer := timer } := by
  induction k with
  | zero => rfl
  | succ k ih =>
    rw [TrafficLight.run_updates]
    exact ih

/-! ## Group indices -/

/-- C29 fails: `register_task` stores its `group` argument unchecked, for every value;
after `register_task(f, 0, 1, 200, NULL)` on the empty table, a reachable state, slot 0
holds an active, not suspended task of group 200, which is no less than `MAX_GROUPS`
and no index of `group_suspended`, so the dispatch loop of the next tick evaluates
`group_suspended[200]`. The sibling functions `group_suspend` and `group_resume` test
`group < MAX_GROUPS` and do nothing for 200. -/
theorem register_task_group_unchecked :
    (∀ (bodies : Bodies) (now func id prio group data : Nat),
      Reachable bodies (register_task empty_sched now func id prio group data).2 ∧
      (register_task empty_sched now func id prio group data).1 = 0 ∧
      (entry_at (register_task empty_sched now func id prio group data).2.task_list
        0).task.active = 1 ∧
      (entry_at (register_task empty_sched now func id prio group data).2.task_list
        0).task.group = group) ∧
    Reachable idle_bodies wild_group_sched ∧
    (entry_at wild_group_sched.task_list 0).task.active = 1 ∧
    (entry_at wild_group_sched.task_list 0).task.suspended = 0 ∧
    (entry_at wild_group_sched.task_list 0).task.group = 200 ∧
    200 < 256 ∧ ¬ (200 < MAX_GROUPS) ∧
    ¬ ((entry_at wild_group_sched.task_list 0).task.group <
      wild_group_sched.group_suspended.length) ∧
    (scheduler_tick idle_bodies wild_group_sched 0).2.map Invocation.slot = [0] ∧
    group_suspend wild_group_sched 200 = wild_group_sched ∧
    group_resume wild_group_sched 200 = wild_group_sched := by
  refine ⟨?_, Reachable.register empty_sched 0 1 0 1 200 0 Reachable.empty, by decide,
    by decide, by decide, by decide, by decide, by decide, by decide, by decide, by decide⟩
  intro bodies now func id prio group data
  have h := register_task_free empty_sched now func id prio group data 0 (by decide)
    (by decide) (by intro j hj; omega)
  refine ⟨Reachable.register empty_sched now func id prio group data Reachable.empty, ?_, ?_, ?_⟩
  · rw [h]; rfl
  · rw [h]
    show (entry_at (empty_sched.task_list.set 0 _) 0).task.active = 1
    rw [entry_at_set, if_pos ⟨rfl, by decide⟩]
    rfl
  · rw [h]
    show (entry_at (empty_sched.task_list.set 0 _) 0).task.group = group
    rw [entry_at_set, if_pos ⟨rfl, by decide⟩]
    rfl

/-! ## The deadline and the last-run time, reads of the clock apart -/

theorem reads_within_armed (gap t1 t2 : Nat) (h : ReadsWithin gap t1 t2) :
    u32 (t2 + WATCHDOG_TIMEOUT_MS) < 2 ^ 32 ∧
    ∃ d, d ≤ gap ∧
      (u32 (t2 + WATCHDOG_TIMEOUT_MS) = (t1 + d + WATCHDOG_TIMEOUT_MS) % 2 ^ 32 ∨
       (u32 (t2 + WATCHDOG_TIMEOUT_MS) + d) % 2 ^ 32 = (t1 + WATCHDOG_TIMEOUT_MS) % 2 ^ 32) := by
  unfold ReadsWithin sub32 at h
  unfold u32 WATCHDOG_TIMEOUT_MS
  refine ⟨Nat.mod_lt _ (by decide), ?_⟩
  rcases h with h | h
  · exact ⟨_, h, Or.inl (by omega)⟩
  · exact ⟨_, h, Or.inr (by omega)⟩

theorem armedWithin_of_fields (gap t1 t2 : Nat) (e : TaskEntry)
    (h1 : e.task.last_run_time = t1)
    (h2 : e.task.watchdog_reset_time = u32 (t2 + WATCHDOG_TIMEOUT_MS))
    (h : ReadsWithin gap t1 t2) : ArmedWithin gap e := by
  intro _
  rw [h1, h2]
  exact reads_within_armed gap t1 t2 h

theorem armedWithin_zero_entry (gap : Nat) : ArmedWithin gap zero_entry :=
  fun h => absurd rfl h

theorem armedWithin_set (gap : Nat) (tl : List TaskEntry) (i : Nat) (a : TaskEntry)
    (h : ∀ k, ArmedWithin gap (entry_at tl k)) (ha : ArmedWithin gap a) (k : Nat) :
    ArmedWithin gap (entry_at (tl.set i a) k) := by
  rw [entry_at_set]
  split
  · exact ha
  · exact h k

theorem armedWithin_new_entry (gap t1 t2 func id prio group data : Nat)
    (h : ReadsWithin gap t1 t2) : ArmedWithin gap (new_entry_clk t1 t2 func id prio group data) :=
  armedWithin_of_fields gap t1 t2 _ rfl rfl h

theorem armedWithin_register_from (gap : Nat) (t1 t2 func id prio group data : Nat)
    (hrw : ReadsWithin gap t1 t2) (n : Nat) :
    ∀ (s : Sched) (i : Nat), (∀ k, ArmedWithin gap (entry_at s.task_list k)) →
      ∀ k, ArmedWithin gap
        (entry_at (register_from_clk s t1 t2 func id prio group data i n).2.task_list k) := by
  induction n with
  | zero => intro s i h k; exact h k
  | succ n ih =>
    intro s i h k
    rw [register_from_clk]
    split
    · exact armedWithin_set gap s.task_list i _ h
        (armedWithin_new_entry gap t1 t2 func id prio group data hrw) k
    · exact ih s (i + 1) h k

theorem armedWithin_restart (gap : Nat) (s : Sched) (t1 t2 : Nat) (slot : Int)
    (hrw : ReadsWithin gap t1 t2)
    (h : ∀ k, ArmedWithin gap (entry_at s.task_list k)) (k : Nat) :
    ArmedWithin gap (entry_at (restart_task_clk s t1 t2 slot).task_list k) := by
  unfold restart_task_clk
  split
  · exact armedWithin_set gap s.task_list _ _ h (armedWithin_of_fields gap t1 t2 _ rfl rfl hrw) k
  · exact h k

theorem armedWithin_remove (gap : Nat) (s : Sched) (slot : Int)
    (h : ∀ k, ArmedWithin gap (entry_at s.task_list k)) (k : Nat) :
    ArmedWithin gap (entry_at (remove_task s slot).task_list k) := by
  unfold remove_task
  split
  · exact armedWithin_set gap s.task_list _ _ h (fun ha => absurd rfl ha) k
  · exact h k

theorem armedWithin_sort (gap : Nat) {tl : List TaskEntry}
    (h : ∀ k, ArmedWithin gap (entry_at tl k)) (k : Nat) :
    ArmedWithin gap (entry_at (sort_pass tl) k) := by
  by_cases hk : k < (sort_pass tl).length
  · have hm : entry_at (sort_pass tl) k ∈ tl := (sort_pass_perm tl).mem_iff.mp (entry_at_mem hk)
    obtain ⟨n, hn, hne⟩ := List.mem_iff_getElem.mp hm
    rw [← hne, ← entry_at_eq_getElem hn]
    exact h n
  · rw [entry_at_of_length_le (Nat.le_of_not_lt hk)]
    exact armedWithin_zero_entry gap

theorem armedWithin_watchdog (gap : Nat) (clk : TickClock)
    (hrw : ∀ i, ReadsWithin gap (clk.rst1 i) (clk.rst2 i)) (s : Sched)
    (h : ∀ k, ArmedWithin gap (entry_at s.task_list k)) :
    ∀ k, ArmedWithin gap (entry_at (watchdog_check_clk s clk).task_list k) := by
  unfold watchdog_check_clk
  apply foldl_inv (fun acc : Sched => ∀ k, ArmedWithin gap (entry_at acc.task_list k))
  · intro acc i hacc k
    unfold watchdog_step_clk
    simp only
    split
    · exact hacc k
    · split
      · exact armedWithin_restart gap acc _ _ _ (hrw i) hacc k
      · exact hacc k
  · exact h

theorem armedWithin_reap (gap : Nat) (s : Sched) (i : Nat)
    (h : ∀ k, ArmedWithin gap (entry_at s.task_list k)) (k : Nat) :
    ArmedWithin gap (entry_at (reap_slot s i).task_list k) := by
  unfold reap_slot
  simp only
  split
  · exact armedWithin_set gap s.task_list _ _ h (fun ha => absurd rfl ha) k
  · exact h k

theorem armedWithin_invoke {bodies : Bodies} (hb : OwnTCBOnly bodies)
    (hw : KeepsWatchdogFields bodies) (gap : Nat) (clk : TickClock) (s : Sched) (i : Nat)
    (hrw : ReadsWithin gap (clk.run1 i) (clk.run2 i))
    (h : ∀ k, ArmedWithin gap (entry_at s.task_list k)) (k : Nat) :
    ArmedWithin gap (entry_at (invoke_slot_clk bodies clk s i).1.task_list k) := by
  unfold invoke_slot_clk
  simp only
  apply armedWithin_reap
  intro q
  have hob := hb (entry_at (stamp_slot_clk (clk.run1 i) (clk.run2 i) s i).task_list i).func
    (clk.body i) i (stamp_slot_clk (clk.run1 i) (clk.run2 i) s i)
  have hkw := hw (entry_at (stamp_slot_clk (clk.run1 i) (clk.run2 i) s i).task_list i).func
    (clk.body i) i (stamp_slot_clk (clk.run1 i) (clk.run2 i) s i)
  have hst : ∀ q, ArmedWithin gap
      (entry_at (stamp_slot_clk (clk.run1 i) (clk.run2 i) s i).task_list q) := by
    intro q
    unfold stamp_slot_clk
    exact armedWithin_set gap s.task_list _ _ h
      (armedWithin_of_fields gap _ _ _ rfl rfl hrw) q
  by_cases hq : q = i
  · subst hq
    by_cases hlt : q < s.task_list.length
    · have h1 : entry_at (stamp_slot_clk (clk.run1 q) (clk.run2 q) s q).task_list q =
          { entry_at s.task_list q with
            task := { (entry_at s.task_list q).task with
              last_run_time := clk.run1 q,
              watchdog_reset_time := u32 (clk.run2 q + WATCHDOG_TIMEOUT_MS) } } := by
        simp only [stamp_slot_clk]
        rw [entry_at_set, if_pos ⟨rfl, hlt⟩]
      have f1 : (entry_at (stamp_slot_clk (clk.run1 q) (clk.run2 q) s q).task_list
          q).task.last_run_time = clk.run1 q := by rw [h1]
      have f2 : (entry_at (stamp_slot_clk (clk.run1 q) (clk.run2 q) s q).task_list
          q).task.watchdog_reset_time = u32 (clk.run2 q + WATCHDOG_TIMEOUT_MS) := by rw [h1]
      exact armedWithin_of_fields gap (clk.run1 q) (clk.run2 q) _ (hkw.1.trans f1)
        (hkw.2.trans f2) hrw
    · have hl : (stamp_slot_clk (clk.run1 q) (clk.run2 q) s q).task_list.length =
          s.task_list.length := by
        simp [stamp_slot_clk]
      rw [entry_at_of_length_le (by rw [hob.2.2.1, hl]; omega)]
      exact armedWithin_zero_entry gap
  · rw [hob.2.2.2.1 q hq]
    exact hst q

theorem armedWithin_dispatch {bodies : Bodies} (hb : OwnTCBOnly bodies)
    (hw : KeepsWatchdogFields bodies) (gap : Nat) (clk : TickClock)
    (hrw : ∀ i, ReadsWithin gap (clk.run1 i) (clk.run2 i)) (s : Sched)
    (h : ∀ k, ArmedWithin gap (entry_at s.task_list k)) :
    ∀ k, ArmedWithin gap (entry_at (dispatch_clk bodies clk s).1.task_list k) := by
  unfold dispatch_clk
  apply foldl_inv
    (fun acc : Sched × List Invocation => ∀ k, ArmedWithin gap (entry_at acc.1.task_list k))
  · intro acc i hacc k
    unfold dispatch_slot_clk
    simp only
    split
    · exact hacc k
    · split
      · exact armedWithin_invoke hb hw gap clk acc.1 i (hrw i) hacc k
      · exact hacc k
  · exact h

theorem armedWithin_tick {bodies : Bodies} (hb : OwnTCBOnly bodies)
    (hw : KeepsWatchdogFields bodies) (gap : Nat) (clk : TickClock)
    (h1 : ∀ i, ReadsWithin gap (clk.run1 i) (clk.run2 i))
    (h2 : ∀ i, ReadsWithin gap (clk.rst1 i) (clk.rst2 i)) (s : Sched)
    (h : ∀ k, ArmedWithin gap (entry_at s.task_list k)) :
    ∀ k, ArmedWithin gap (entry_at (scheduler_tick_clk bodies s clk).1.task_list k) := by
  have hs := armedWithin_sort gap h
  unfold scheduler_tick_clk
  simp only
  generalize sort_pass s.task_list = sorted at hs
  exact armedWithin_watchdog gap clk h2 _
    (armedWithin_dispatch hb hw gap clk h1 ⟨sorted, s.event_flags, s.group_suspended, s.user_mem⟩ hs)

theorem armedWithin_reachable {bodies : Bodies} (hb : OwnTCBOnly bodies)
    (hw : KeepsWatchdogFields bodies) (gap : Nat) (s : Sched) (hr : ReachableClk gap bodies s) :
    ∀ k, ArmedWithin gap (entry_at s.task_list k) := by
  induction hr with
  | empty =>
    intro k
    rw [empty_sched_entry]
    exact armedWithin_zero_entry gap
  | register s t1 t2 func id prio group data hrw _ ih =>
    exact armedWithin_register_from gap t1 t2 func id prio group data hrw MAX_TASKS s 0 ih
  | restart s t1 t2 slot hrw _ ih => exact armedWithin_restart gap s t1 t2 slot hrw ih
  | remove s slot _ ih => exact armedWithin_remove gap s slot ih
  | tick s clk h1 h2 _ ih => exact armedWithin_tick hb hw gap clk h1 h2 s ih

theorem new_entry_clk_same (now func id prio group data : Nat) :
    new_entry_clk now now func id prio group data = new_entry now func id prio group data := rfl

theorem register_from_clk_same (s : Sched) (now func id prio group data : Nat) (n : Nat) :
    ∀ i, register_from_clk s now now func id prio group data i n =
      register_from s now func id prio group data i n := by
  induction n with
  | zero => intro i; rfl
  | succ n ih =>
    intro i
    rw [register_from_clk, register_from, ih (i + 1)]
    rfl

theorem register_task_clk_same (s : Sched) (now func id prio group data : Nat) :
    register_task_clk s now now func id prio group data =
      register_task s now func id prio group data :=
  register_from_clk_same s now func id prio group data MAX_TASKS 0

theorem restart_task_clk_same (s : Sched) (now : Nat) (slot : Int) :
    restart_task_clk s now now slot = restart_task s now slot := rfl

theorem dispatch_slot_clk_same (bodies : Bodies) (now : Nat) :
    dispatch_slot_clk bodies (const_clock now) = dispatch_slot bodies now := rfl

theorem watchdog_step_clk_same (now : Nat) :
    watchdog_step_clk (const_clock now) = watchdog_step now := rfl

theorem scheduler_tick_clk_same (bodies : Bodies) (s : Sched) (now : Nat) :
    scheduler_tick_clk bodies s (const_clock now) = scheduler_tick bodies s now := by
  unfold scheduler_tick_clk scheduler_tick dispatch_clk dispatch watchdog_check_clk watchdog_check
  rw [dispatch_slot_clk_same, watchdog_step_clk_same]

theorem reads_within_same (gap now : Nat) : ReadsWithin gap now now := by
  unfold ReadsWithin sub32
  left
  omega

theorem reachable_clk_of_reachable {bodies : Bodies} (gap : Nat) (s : Sched)
    (hr : Reachable bodies s) : ReachableClk gap bodies s := by
  induction hr with
  | empty => exact ReachableClk.empty
  | register s now func id prio group data _ ih =>
    rw [← register_task_clk_same]
    exact ReachableClk.register s now now func id prio group data (reads_within_same gap now) ih
  | restart s now slot _ ih =>
    rw [← restart_task_clk_same]
    exact ReachableClk.restart s now now slot (reads_within_same gap now) ih
  | remove s slot _ ih => exact ReachableClk.remove s slot ih
  | tick s now _ ih =>
    rw [← scheduler_tick_clk_same]
    exact ReachableClk.tick s (const_clock now) (fun _ => reads_within_same gap now)
      (fun _ => reads_within_same gap now) ih

/-- C19 fails when the clock advances between the two reads of a store: after one
`register_task` on the empty table whose call of `millis()` for `last_run_time` returns
1000 and whose call for `watchdog_reset_time` returns 1001, a reachable state, the active
task in slot 0 has last-run time 1000 and deadline 4001, not 1000 + 3000. -/
theorem deadline_off_by_read_gap :
    ReachableClk 1 idle_bodies skewed_sched ∧
    OwnTCBOnly idle_bodies ∧ KeepsWatchdogFields idle_bodies ∧
    (entry_at skewed_sched.task_list 0).task.active = 1 ∧
    (entry_at skewed_sched.task_list 0).task.last_run_time = 1000 ∧
    (entry_at skewed_sched.task_list 0).task.watchdog_reset_time = 4001 ∧
    (entry_at skewed_sched.task_list 0).task.watchdog_reset_time ≠
      ((entry_at skewed_sched.task_list 0).task.last_run_time + WATCHDOG_TIMEOUT_MS) % 2 ^ 32 :=
  ⟨ReachableClk.register empty_sched 1000 1001 1 2 1 0 0 (by decide) ReachableClk.empty,
    idle_bodies_own, idle_bodies_keep_watchdog, by decide, by decide, by decide, by decide⟩

/-- C19 as amended: with task bodies that write only their own TCB and leave its
`last_run_time` and `watchdog_reset_time` alone, in every state reachable from the empty
table by `register_task`, `restart_task`, `remove_task` and `scheduler_tick` in which
the two reads of the clock of each pair of stores lie at most `gap` ms apart, every
active task has its deadline `WATCHDOG_TIMEOUT_MS` after its last-run time up to `gap`,
modulo `2 ^ 32`; with `gap = 0` the deadline equals
`(last_run_time + WATCHDOG_TIMEOUT_MS) mod 2 ^ 32`. The states reachable with one clock
value per call are among those of `gap = 0`. -/
theorem deadline_armed_within_read_gap (gap : Nat) (bodies : Bodies) (hb : OwnTCBOnly bodies)
    (hw : KeepsWatchdogFields bodies) (s : Sched) (hr : ReachableClk gap bodies s) :
    (∀ k, k < MAX_TASKS → (entry_at s.task_list k).task.active ≠ 0 →
      (entry_at s.task_list k).task.watchdog_reset_time < 2 ^ 32 ∧
      ∃ d, d ≤ gap ∧
        ((entry_at s.task_list k).task.watchdog_reset_time =
          ((entry_at s.task_list k).task.last_run_time + d + WATCHDOG_TIMEOUT_MS) % 2 ^ 32 ∨
         ((entry_at s.task_list k).task.watchdog_reset_time + d) % 2 ^ 32 =
          ((entry_at s.task_list k).task.last_run_time + WATCHDOG_TIMEOUT_MS) % 2 ^ 32)) ∧
    (gap = 0 → ∀ k, k < MAX_TASKS → (entry_at s.task_list k).task.active ≠ 0 →
      (entry_at s.task_list k).task.watchdog_reset_time =
        ((entry_at s.task_list k).task.last_run_time + WATCHDOG_TIMEOUT_MS) % 2 ^ 32) ∧
    (∀ s', Reachable bodies s' → ReachableClk 0 bodies s') ∧
    (∀ (now : Nat) (s' : Sched),
      scheduler_tick_clk bodies s' (const_clock now) = scheduler_tick bodies s' now) := by
  have key := armedWithin_reachable hb hw gap s hr
  refine ⟨fun k _ ha => key k ha, ?_, fun s' h => reachable_clk_of_reachable 0 s' h,
    fun now s' => scheduler_tick_clk_same bodies s' now⟩
  intro h0 k _ ha
  obtain ⟨hlt, d, hd, h⟩ := key k ha
  have hd0 : d = 0 := by omega
  subst hd0
  rcases h with h | h
  · simpa using h
  · rw [Nat.add_zero, Nat.mod_eq_of_lt hlt] at h
    exact h

theorem deadline_armed_within_read_gap_witness :
    OwnTCBOnly idle_bodies ∧ KeepsWatchdogFields idle_bodies ∧
    ReachableClk 1 idle_bodies skewed_sched ∧
    (entry_at skewed_sched.task_list 0).task.active ≠ 0 ∧
    (entry_at skewed_sched.task_list 0).task.last_run_time = 1000 ∧
    (entry_at skewed_sched.task_list 0).task.watchdog_reset_time = 4001 ∧
    (∃ d, d ≤ 1 ∧
      ((entry_at skewed_sched.task_list 0).task.watchdog_reset_time =
        ((entry_at skewed_sched.task_list 0).task.last_run_time + d + WATCHDOG_TIMEOUT_MS)
          % 2 ^ 32 ∨
       ((entry_at skewed_sched.task_list 0).task.watchdog_reset_time + d) % 2 ^ 32 =
        ((entry_at skewed_sched.task_list 0).task.last_run_time + WATCHDOG_TIMEOUT_MS)
          % 2 ^ 32)) :=
  ⟨idle_bodies_own, idle_bodies_keep_watchdog,
    ReachableClk.register empty_sched 1000 1001 1 2 1 0 0 (by decide) ReachableClk.empty,
    by decide, by decide, by decide,
    ((deadline_armed_within_read_gap 1 idle_bodies idle_bodies_own idle_bodies_keep_watchdog
      skewed_sched
      (ReachableClk.register empty_sched 1000 1001 1 2 1 0 0 (by decide) ReachableClk.empty)).1
      0 (by decide) (by decide)).2⟩

/-! ## A waiting task is invoked in every tick -/

theorem waited_waited (n1 n2 : Nat) (e : TaskEntry) : waited n2 (waited n1 e) = waited n2 e := rfl

theorem wait_step_clear (F now : Nat) (s : Sched) (e : TaskEntry) (hw : WaitingTask F s e)
    (hnow : now + WATCHDOG_TIMEOUT_MS < 2 ^ 32) :
    wait_step F now { s with task_list := [] } (stamped now e).task = (waited now e).task := by
  obtain ⟨-, -, -, -, -, hst, hev⟩ := hw
  have hu : u32 (now + WATCHDOG_TIMEOUT_MS) = now + WATCHDOG_TIMEOUT_MS := Nat.mod_eq_of_lt hnow
  have hflag : event_check { s with task_list := [] }
      (({ s with task_list := [] } : Sched).user_mem.getD (stamped now e).task.user_data 0).toNat
      = 0 := hev
  unfold wait_step
  simp only
  rw [hflag]
  rcases hst with h0 | h0
  · simp [task_event_wait, stamped, waited, h0, hu]
  · simp [task_event_wait, stamped, waited, h0, hu]

theorem wait_one_tick (step : Nat → Nat → Sched → Task → Task) (F : Nat)
    (hF : ∀ (now : Nat) (g : Sched) (t : Task), step F now g t = wait_step F now g t)
    (s : Sched) (hlen : s.task_list.length = MAX_TASKS) (now : Nat)
    (hnow : now + WATCHDOG_TIMEOUT_MS < 2 ^ 32)
    (e : TaskEntry) (he : e ∈ s.task_list) (hw : WaitingTask F s e) :
    (scheduler_tick (tcb_bodies step) s now).1.task_list.length = MAX_TASKS ∧
    waited now e ∈ (scheduler_tick (tcb_bodies step) s now).1.task_list ∧
    WaitingTask F (scheduler_tick (tcb_bodies step) s now).1 (waited now e) ∧
    ∃ r ∈ (scheduler_tick (tcb_bodies step) s now).2,
      r.entry = e ∧ r.returned = (waited now e).task := by
  have hreg := tick_registries (tcb_bodies_own step) s now
  have hmem := tick_tcb_user_mem step s now
  have hlen' : (scheduler_tick (tcb_bodies step) s now).1.task_list.length = MAX_TASKS := by
    rw [hreg.2.2, hlen]
  have hsl : (sort_pass s.task_list).length = MAX_TASKS := by
    rw [(sort_pass_perm s.task_list).length_eq, hlen]
  have hes : e ∈ sort_pass s.task_list := (sort_pass_perm s.task_list).mem_iff.mpr he
  obtain ⟨k, hk, hke⟩ := List.mem_iff_getElem.mp hes
  have hk8 : k < MAX_TASKS := by rw [← hsl]; exact hk
  have hek : entry_at (sort_pass s.task_list) k = e := by
    rw [entry_at_eq_getElem hk]; exact hke
  have hready : ready s.group_suspended now (entry_at (sort_pass s.task_list) k) = true := by
    rw [hek, ready_eq_true]
    exact ⟨hw.2.1, hw.2.2.1, hw.2.2.2.1, by rw [hw.2.2.2.2.1]; exact Nat.zero_le _⟩
  have hret : step e.func now { s with task_list := [] } (stamped now e).task =
      (waited now e).task := by
    rw [hw.1, hF]
    exact wait_step_clear F now s e hw hnow
  have hinv : invoked_entry step now { s with task_list := [] } e = waited now e := by
    unfold invoked_entry
    simp only
    rw [hret, if_neg]
    · rfl
    · show ¬ ((172 : Int) = -1)
      decide
  have hnexp : wd_expired now (waited now e) = false := by
    cases hc : wd_expired now (waited now e) with
    | false => rfl
    | true =>
      have h3 := (wd_expired_eq_true.mp hc).2.2
      have h4 : (waited now e).task.watchdog_reset_time = now + WATCHDOG_TIMEOUT_MS := rfl
      rw [h4] at h3
      omega
  have hent : entry_at (scheduler_tick (tcb_bodies step) s now).1.task_list k = waited now e := by
    rw [tick_tcb_entry step s now k hk8, if_pos hready, hek, hinv, hnexp]
    simp
  refine ⟨hlen', ?_, ?_, ?_⟩
  · rw [← hent]
    exact entry_at_mem (by rw [hlen']; exact hk8)
  · refine ⟨hw.1, hw.2.1, hw.2.2.1, ?_, hw.2.2.2.2.1, Or.inr rfl, ?_⟩
    · rw [hreg.1]; exact hw.2.2.2.1
    · have h7 := hw.2.2.2.2.2.2
      unfold event_check at h7 ⊢
      rw [hreg.2.1, hmem]
      exact h7
  · have hlog := tick_log (tcb_bodies_own step) s now
    have hin : (k, e) ∈ ((List.range MAX_TASKS).filter (fun i =>
        ready s.group_suspended now (entry_at (sort_pass s.task_list) i))).map
        (fun i => (i, entry_at (sort_pass s.task_list) i)) := by
      rw [List.mem_map]
      exact ⟨k, List.mem_filter.mpr ⟨List.mem_range.mpr hk8, hready⟩, by rw [hek]⟩
    rw [← hlog, List.mem_map] at hin
    obtain ⟨r, hr, hre⟩ := hin
    have hre2 : r.entry = e := (Prod.mk.inj hre).2
    refine ⟨r, hr, hre2, ?_⟩
    rw [tick_tcb_log step s now r hr, hre2]
    exact hret

theorem wait_many_ticks (step : Nat → Nat → Sched → Task → Task) (F : Nat)
    (hF : ∀ (now : Nat) (g : Sched) (t : Task), step F now g t = wait_step F now g t)
    (nows : List Nat) :
    ∀ (s : Sched) (e : TaskEntry), s.task_list.length = MAX_TASKS →
      (∀ n ∈ nows, n + WATCHDOG_TIMEOUT_MS < 2 ^ 32) → e ∈ s.task_list → WaitingTask F s e →
      (∀ p ∈ List.zip nows (tick_trace (tcb_bodies step) s nows),
        waited p.1 e ∈ p.2.task_list ∧ WaitingTask F p.2 (waited p.1 e)) ∧
      (∀ p ∈ List.zip nows (run_ticks (tcb_bodies step) s nows).2,
        ∃ r ∈ p.2, r.entry.func = F ∧ r.returned = (waited p.1 e).task) := by
  induction nows with
  | nil =>
    intro s e _ _ _ _
    exact ⟨fun p hp => by simp [tick_trace] at hp, fun p hp => by simp [run_ticks] at hp⟩
  | cons now rest ih =>
    intro s e hlen hnows he hw
    obtain ⟨h1, h2, h3, r, hr, hre, hrr⟩ := wait_one_tick step F hF s hlen now
      (hnows now (List.mem_cons_self now rest)) e he hw
    obtain ⟨ih1, ih2⟩ := ih (scheduler_tick (tcb_bodies step) s now).1 (waited now e) h1
      (fun n hn => hnows n (List.mem_cons_of_mem now hn)) h2 h3
    constructor
    · intro p hp
      simp only [tick_trace, List.zip_cons_cons, List.mem_cons] at hp
      rcases hp with hp | hp
      · subst hp
        dsimp only
        exact ⟨h2, h3⟩
      · have h5 := ih1 p hp
        rw [waited_waited] at h5
        exact h5
    · intro p hp
      simp only [run_ticks, List.zip_cons_cons, List.mem_cons] at hp
      rcases hp with hp | hp
      · subst hp
        dsimp only
        exact ⟨r, hr, by rw [hre]; exact hw.1, hrr⟩
      · obtain ⟨r', hr', hf', hret'⟩ := ih2 p hp
        exact ⟨r', hr', hf', by rw [hret', waited_waited]⟩

theorem next_state_not_fault_1 (m : TrafficLight.Machine)
    (h : m.current_state ≠ TrafficLight.TRAFFIC_FAULT_1) :
    (TrafficLight.next_state m).current_state ≠ TrafficLight.TRAFFIC_FAULT_1 := by
  unfold TrafficLight.next_state
  split_ifs <;> first | exact h | decide

theorem run_updates_not_fault_1 (k : Nat) :
    ∀ m : TrafficLight.Machine, m.current_state ≠ TrafficLight.TRAFFIC_FAULT_1 →
      (TrafficLight.run_updates k m).current_state ≠ TrafficLight.TRAFFIC_FAULT_1 := by
  induction k with
  | zero => intro m h; exact h
  | succ k ih =>
    intro m h
    rw [TrafficLight.run_updates]
    exact ih _ (next_state_not_fault_1 m h)

theorem fault_1_trace (k : Nat) (timer : Int) :
    TrafficLight.light_trace k
        { current_state := TrafficLight.TRAFFIC_FAULT_1, state_timer := timer } =
      List.replicate k (TrafficLight.set_lights TrafficLight.TRAFFIC_FAULT_1 timer) := by
  induction k with
  | zero => rfl
  | succ k ih =>
    rw [TrafficLight.light_trace, List.replicate_succ]
    have e : (TrafficLight.state_update
        { current_state := TrafficLight.TRAFFIC_FAULT_1, state_timer := timer }).1 =
        { current_state := TrafficLight.TRAFFIC_FAULT_1, state_timer := timer } := rfl
    have e2 : (TrafficLight.state_update
        { current_state := TrafficLight.TRAFFIC_FAULT_1, state_timer := timer }).2 =
        TrafficLight.set_lights TrafficLight.TRAFFIC_FAULT_1 timer := rfl
    rw [e, e2, ih]

end MegaSched
